import Mathlib

/-!
Scene walk, animation driver and teardown of the V-Ray exporter.

A shallow embedding of

* `VRsceneExporter` (exp_scene.cpp): the walk over the scene's base list and
  the export of one object,
* `ProductionExporter` (vfb_scene_exporter_pro.cpp): the animation driver and
  the progress report of `render_frame`,
* the module entry points of cgr_vfb_python_api.cpp,
* the list and key/value writers of vfb_plugin_writer.h,

with the properties of these functions stated as theorems.

Calls into the host and into the renderer are recorded as events of a trace, in
the order in which the code makes them.  Answers of the host (interruption
test, renderer state) are given by an oracle indexed by the number of the
query, so that a theorem quantified over the oracle holds for every behaviour
of the host.
-/

set_option autoImplicit false

namespace VRsceneExporter

/-! ## Host data (DNA structures), reduced to the fields the walk reads -/

/-- ModifierData: `type` is the only field read by the walk. -/
structure ModifierData where
  type : Nat
  deriving DecidableEq, Repr

/-- ParticleSettings (`psys->part`): `draw` holds the draw flags. -/
structure ParticleSettings where
  draw : Nat
  deriving DecidableEq, Repr

/-- ParticleSystem, an element of `ob->particlesystem`. -/
structure ParticleSystem where
  part : ParticleSettings
  deriving DecidableEq, Repr

/-- DupliObject, an element of the list returned by `object_duplilist`. -/
structure DupliObject where
  persistent_id : Nat
  deriving DecidableEq, Repr

/-- Object.  The linked lists `modifiers` and `particlesystem` are Lean lists,
in list order. -/
structure Object where
  name : String
  type : Nat
  restrictflag : Nat
  lay : Nat
  transflag : Nat
  modifiers : List ModifierData
  particlesystem : List ParticleSystem
  deriving DecidableEq, Repr

/-- Scene: `base` is the list of the objects of the bases (`base->object`), in
list order; `lay` is the active layer set. -/
structure Scene where
  base : List Object
  lay : Nat
  deriving DecidableEq, Repr

/-- ExpoterSettings, the fields read by `exportScene` and `exportObject`. -/
structure ExpoterSettings where
  m_sce : Scene
  m_activeLayers : Bool
  m_animation : Bool
  m_exportNodes : Bool
  m_exportGeometry : Bool
  deriving DecidableEq, Repr

/-- Constants and macros of headers that are not part of the sources at hand
(DNA_object_types.h, DNA_modifier_types.h, DNA_particle_types.h,
CGR_config.h).  They are parameters: every theorem holds for all values. -/
structure Consts where
  OB_RESTRICT_RENDER : Nat
  OB_DUPLI : Nat
  eModifierType_Smoke : Nat
  PART_DRAW_EMITTER : Nat
  GEOM_TYPE : Object → Bool
  EMPTY_TYPE : Object → Bool

/-- The host as seen by the walk: `test_break i` is the answer of the call
number `i` (counted from 0) of `m_engine.test_break()`, and `object_duplilist`
is the duplication list the host resolves for an object at the current frame. -/
structure Host where
  test_break : Nat → Bool
  object_duplilist : Object → List DupliObject

/-- ReportType of `m_engine.report`. -/
inductive ReportType where
  | RPT_INFO
  | RPT_WARNING
  | RPT_ERROR
  deriving DecidableEq, Repr

/-- Value passed to `update_progress`.  Float arithmetic is not evaluated: the
value is a literal of the source, or `expProgress` after `steps` additions of
`expProgStep = 1.0f / nObjects`. -/
inductive Progress where
  | literal_0
  | literal_1
  | accumulated (steps nObjects : Nat)
  deriving DecidableEq, Repr

/-- Calls the walk makes, as they appear in a trace. -/
inductive Event where
  | update_progress (p : Progress)
  | test_break (answer : Bool)
  | report (type : ReportType) (message : String)
  | exportObjectBase (ob : Object)
  | FreeDupliList (ob : Object)
  | object_duplilist (ob : Object)
  | exportObject (ob : Object) (dOb : Option DupliObject)
  deriving DecidableEq, Repr

/-! ## The functions of exp_scene.cpp -/

/-- Model of `VRsceneExporter::isSmokeDomain`: 1 when a modifier of type
`eModifierType_Smoke` is found in the modifier list, else 0. -/
def isSmokeDomain (k : Consts) (ob : Object) : Int :=
  let rec loop : List ModifierData → Int
    | [] => 0
    | mod :: next => if mod.type = k.eModifierType_Smoke then 1 else loop next
  loop ob.modifiers

/-- Model of `VRsceneExporter::doRenderEmitter`.  The counter `show_emitter`
is a C `int`; the sum of the masked flags is taken in `Int` without
wrap-around, which agrees with the machine as long as the sum stays below 2^31
(for the mask 8 of Blender: fewer than 2^28 particle systems on one object). -/
def doRenderEmitter (k : Consts) (ob : Object) : Int :=
  if ob.particlesystem ≠ [] then
    let show_emitter : Int :=
      ob.particlesystem.foldl
        (fun acc psys => acc + ((psys.part.draw &&& k.PART_DRAW_EMITTER : Nat) : Int)) 0
    if show_emitter = 0 then 0 else 1
  else 1

/-- The loop over the duplication list in `exportObjectBase`.  `c` is the
number of `test_break` calls made so far; the result is the events of the loop
and the new number of calls. -/
def dupliLoop (h : Host) (ob : Object) : List DupliObject → Nat → List Event × Nat
  | [], c => ([], c)
  | dob :: next, c =>
    if h.test_break c then
      ([Event.test_break true], c + 1)
    else
      let r := dupliLoop h ob next (c + 1)
      (Event.test_break false :: Event.exportObject ob (some dob) :: r.1, r.2)

/-- The block of `exportObjectBase` under `ob->transflag & OB_DUPLI`: free the
list, resolve it, export every instance until interrupted, free the list. -/
def exportObjectBase_dupli (k : Consts) (h : Host) (ob : Object) (c : Nat) : List Event × Nat :=
  if ob.transflag &&& k.OB_DUPLI ≠ 0 then
    let r := dupliLoop h ob (h.object_duplilist ob) c
    (Event.FreeDupliList ob :: Event.object_duplilist ob :: r.1 ++ [Event.FreeDupliList ob], r.2)
  else ([], c)

/-- The block of `exportObjectBase` under `NOT(EMPTY_TYPE(ob))`: the export of
the base object itself. -/
def exportObjectBase_emitter (k : Consts) (h : Host) (ob : Object) (c : Nat) : List Event × Nat :=
  if k.EMPTY_TYPE ob then ([], c)
  else if doRenderEmitter k ob = 0 then ([], c)
  else if h.test_break c then ([Event.test_break true], c + 1)
  else ([Event.test_break false, Event.exportObject ob none], c + 1)

/-- Model of `VRsceneExporter::exportObjectBase`: the duplication block, then
the block of the base object, for the geometry and empty types only. -/
def exportObjectBase (k : Consts) (h : Host) (ob : Object) (c : Nat) : List Event × Nat :=
  if k.GEOM_TYPE ob || k.EMPTY_TYPE ob then
    let d := exportObjectBase_dupli k h ob c
    let e := exportObjectBase_emitter k h ob d.2
    (d.1 ++ e.1, e.2)
  else ([], c)

/-- The `while(base)` loop of `exportScene` that exports.  `total` is the
number of bases counted by the first loop, `nObjects` the counter of exported
objects, `c` the number of `test_break` calls made so far. -/
def exportSceneLoop (k : Consts) (h : Host) (s : ExpoterSettings) (total : Nat) :
    List Object → Nat → Nat → List Event × Nat
  | [], _, c => ([], c)
  | ob :: next, nObjects, c =>
    if h.test_break c then
      ([Event.test_break true, Event.report ReportType.RPT_WARNING "Export interrupted!"], c + 1)
    else if ob.restrictflag &&& k.OB_RESTRICT_RENDER ≠ 0 then
      let r := exportSceneLoop k h s total next nObjects (c + 1)
      (Event.test_break false :: r.1, r.2)
    else if s.m_activeLayers && (ob.lay &&& s.m_sce.lay == 0) then
      let r := exportSceneLoop k h s total next nObjects (c + 1)
      (Event.test_break false :: r.1, r.2)
    else if isSmokeDomain k ob ≠ 0 then
      let r := exportSceneLoop k h s total next nObjects (c + 1)
      (Event.test_break false :: r.1, r.2)
    else
      let e := exportObjectBase k h ob (c + 1)
      let progress : List Event :=
        if (nObjects + 1) % 1000 = 0 then
          [Event.update_progress (Progress.accumulated (nObjects + 1) total)]
        else []
      let r := exportSceneLoop k h s total next (nObjects + 1) e.2
      (Event.test_break false :: Event.exportObjectBase ob :: e.1 ++ progress ++ r.1, r.2)

/-- Model of `VRsceneExporter::exportScene`: the trace of the whole walk. -/
def exportScene (k : Consts) (h : Host) (s : ExpoterSettings) : List Event :=
  Event.update_progress Progress.literal_0 ::
    (exportSceneLoop k h s s.m_sce.base.length s.m_sce.base 0 0).1 ++
      [Event.update_progress Progress.literal_1]

/-- The three `continue` conditions of the loop of `exportScene`, in one test:
render-hidden, outside the active layers (when `m_activeLayers` is set), or a
smoke domain. -/
def skipped (k : Consts) (s : ExpoterSettings) (ob : Object) : Bool :=
  decide (ob.restrictflag &&& k.OB_RESTRICT_RENDER ≠ 0) ||
    (s.m_activeLayers && (ob.lay &&& s.m_sce.lay == 0)) ||
    decide (isSmokeDomain k ob ≠ 0)

/-- Whether an event is an export call. -/
def Event.isExport : Event → Bool
  | Event.exportObjectBase _ => true
  | Event.exportObject _ _ => true
  | _ => false

/-- The objects passed to `exportObjectBase`, in the order of the calls. -/
def exportedBases : List Event → List Object
  | [] => []
  | Event.exportObjectBase ob :: rest => ob :: exportedBases rest
  | _ :: rest => exportedBases rest

/-- No export call follows the first `test_break` that answered true. -/
def noExportAfterBreak : List Event → Bool
  | [] => true
  | ev :: rest =>
    if ev = Event.test_break true then rest.all (fun e => !e.isExport)
    else noExportAfterBreak rest

/-- The values of Blender 2.7x for the constants, used for concrete runs:
OB_RESTRICT_RENDER = 4, OB_DUPLI = 8 + 16 + 256 + 512 + 2048, eModifierType_Smoke = 31,
PART_DRAW_EMITTER = 8, OB_EMPTY = 0, and the geometry types OB_MESH = 1, OB_CURVE = 2,
OB_SURF = 3, OB_FONT = 4, OB_MBALL = 5. -/
def blenderConsts : Consts where
  OB_RESTRICT_RENDER := 4
  OB_DUPLI := 2840
  eModifierType_Smoke := 31
  PART_DRAW_EMITTER := 8
  GEOM_TYPE := fun ob => decide (1 ≤ ob.type ∧ ob.type ≤ 5)
  EMPTY_TYPE := fun ob => decide (ob.type = 0)

/-- A host that never interrupts and resolves no duplication instance. -/
def quietHost : Host where
  test_break := fun _ => false
  object_duplilist := fun _ => []

/-- A mesh object without modifiers and particle systems on layer `lay`. -/
def meshOn (name : String) (lay : Nat) : Object where
  name := name
  type := 1
  restrictflag := 0
  lay := lay
  transflag := 0
  modifiers := []
  particlesystem := []

/-- A host that answers true to every `test_break`. -/
def breakingHost : Host where
  test_break := fun _ => true
  object_duplilist := fun _ => []

/-- A host whose `test_break` answers true from the call number `t` on; every
object has the one duplication instance 7. -/
def breakFrom (t : Nat) : Host where
  test_break := fun i => decide (t ≤ i)
  object_duplilist := fun _ => [{ persistent_id := 7 }]

/-- A mesh object with one particle system whose draw flags are `draw`. -/
def emitter (name : String) (draw : Nat) : Object where
  name := name
  type := 1
  restrictflag := 0
  lay := 1
  transflag := 0
  modifiers := []
  particlesystem := [{ part := { draw := draw } }]

/-- Settings of a walk over `base` with active layer set `lay`. -/
def settingsFor (base : List Object) (lay : Nat) (activeLayers : Bool) : ExpoterSettings where
  m_sce := { base := base, lay := lay }
  m_activeLayers := activeLayers
  m_animation := false
  m_exportNodes := true
  m_exportGeometry := true

end VRsceneExporter

/-! ## ProductionExporter (vfb_scene_exporter_pro.cpp) -/

namespace ProductionExporter

/-- ExpoterType of the settings.  The enum is declared outside the sources at
hand; the code only tests for `ExpoterTypeFile`, every other value is a live
renderer. -/
inductive ExpoterType where
  | ExpoterTypeFile
  | ExpoterTypeLive
  deriving DecidableEq, Repr

/-- SettingsAnimation::AnimationMode.  The code only tests for
`AnimationModeCameraLoop`; every other value runs over the timeline. -/
inductive AnimationMode where
  | AnimationModeTimeline
  | AnimationModeCameraLoop
  deriving DecidableEq, Repr

/-- SettingsAnimation, the fields read by the driver. -/
structure SettingsAnimation where
  use : Bool
  mode : AnimationMode
  deriving DecidableEq, Repr

/-- ExporterSettings (`m_settings`). -/
structure ExporterSettings where
  exporter_type : ExpoterType
  settings_animation : SettingsAnimation
  deriving DecidableEq, Repr

/-- BL::Object::type, reduced to the values used here. -/
inductive ObjectType where
  | type_MESH
  | type_LAMP
  | type_CAMERA
  | type_EMPTY
  deriving DecidableEq, Repr

/-- BL::Object of the scene: name and type. -/
structure BLObject where
  name : String
  type : ObjectType
  deriving DecidableEq, Repr

/-- BL::Scene (`m_scene`): frame range and object list.  `render_layer` tells
whether the first render layer of the render settings exists. -/
structure BLScene where
  frame_start : Int
  frame_end : Int
  frame_step : Int
  frame_current : Int
  objects : List BLObject
  render_layer : Bool
  deriving DecidableEq, Repr

/-- The value `(float)num / den`, kept as its two operands: float rounding is
not evaluated. -/
structure FloatQuot where
  num : Int
  den : Int
  deriving DecidableEq, Repr

/-- The rational number a `FloatQuot` stands for. -/
def FloatQuot.toRat (q : FloatQuot) : ℚ := (q.num : ℚ) / (q.den : ℚ)

/-- Calls made by the driver, answers it receives, and assignments of the
active camera, as they appear in a trace. -/
inductive Event where
  | python_thread_state_restore
  | python_thread_state_save
  | frame_set (frame : Int)
  | update_progress (progress : FloatQuot)
  | is_interrupted (answer : Bool)
  | sync (check_updated : Bool)
  | set_current_frame (frame : Int)
  | stop
  | start
  | begin_result
  | show_frame_buffer
  | SceneExporter_render_start
  | print_interrupted
  | print_renderer_stopped
  | set_active_camera (camera : BLObject)
  | runner_start
  | runner_join
  | clear_callbacks
  | end_result
  deriving DecidableEq, Repr

/-- Answers of the environment of the driver.  Each answer is indexed by the
number of observations made so far (`tick`), so the environment may change
between any two observations.

* `is_interrupted`: `SceneExporter::is_interrupted()` of the base class,
* `get_last_rendered_frame`, `is_aborted`: the plugin exporter `m_exporter`,
* `m_renderFinished`: the flag written by the renderer callback
  `cb_on_image_ready` (and reset outside this file),
* `begin_result`: whether `m_engine.begin_result` yields a result,
* `is_preview`: `is_preview()`. -/
structure Env where
  is_interrupted : Nat → Bool
  get_last_rendered_frame : Nat → Int
  is_aborted : Nat → Bool
  m_renderFinished : Nat → Bool
  begin_result : Bool
  is_preview : Bool

/-- The members of ProductionExporter written by the driver, the number of
observations made and the trace.  The header that declares the members is not
among the sources at hand; the frame counters are taken as C `int`s (the cast
in `(float)c / m_frameStep` and the loop `int c < m_frameCount` say so) and
kept as `Int`, the frame reported by the renderer as a whole number. -/
structure State where
  m_isAnimationRunning : Bool
  m_isRunning : Bool
  m_renderFinished : Bool
  m_isFirstFrame : Bool
  m_frameCurrent : Int
  m_frameStep : Int
  m_frameCount : Int
  m_animationProgress : FloatQuot
  m_active_camera : Option BLObject
  settings_frame_current : Int
  m_renderResultsList : Nat
  tick : Nat
  trace : List Event
  deriving DecidableEq, Repr

/-- Append an event to the trace. -/
def emit (e : Event) (st : State) : State :=
  { st with trace := st.trace ++ [e] }

/-- Model of `ProductionExporter::is_interrupted`.  The answer is recorded in
the trace. -/
def is_interrupted (cfg : ExporterSettings) (env : Env) (st : State) : Bool × State :=
  let base := env.is_interrupted st.tick
  let st1 := { st with tick := st.tick + 1 }
  if cfg.settings_animation.use then
    let r := base || !st1.m_isAnimationRunning
    (r, emit (Event.is_interrupted r) st1)
  else if base then
    (true, emit (Event.is_interrupted true) st1)
  else
    let r := env.m_renderFinished st1.tick
    (r, emit (Event.is_interrupted r) { st1 with tick := st1.tick + 1 })

/-- Model of `ProductionExporter::render_start`, as called with animation in
use (the branch `!m_settings.settings_animation.use` runs `render_loop` and
`render_end` and is taken only without animation). -/
def render_start (cfg : ExporterSettings) (scene : BLScene) (env : Env) (st : State) : State :=
  let st1 :=
    if scene.render_layer then
      let r := is_interrupted cfg env st
      if r.1 then r.2
      else
        let st2 := emit Event.begin_result r.2
        if env.begin_result then
          { st2 with m_renderResultsList := st2.m_renderResultsList + 1 }
        else st2
    else st
  let st3 := if env.is_preview then st1 else emit Event.show_frame_buffer st1
  let st4 := emit Event.SceneExporter_render_start st3
  { st4 with m_isRunning := true }

/-- The wait loop of `export_animation_frame`:
`while (m_exporter->get_last_rendered_frame() < m_frameCurrent)`.  Each turn of
the loop uses one unit of `fuel`; `none` when the fuel runs out. -/
def waitRendered (cfg : ExporterSettings) (env : Env) : Nat → State → Option (Bool × State)
  | 0, _ => none
  | fuel + 1, st =>
    let last := env.get_last_rendered_frame st.tick
    let st1 := { st with tick := st.tick + 1 }
    if last < st1.m_frameCurrent then
      let r := is_interrupted cfg env st1
      if r.1 then some (false, emit Event.print_interrupted r.2)
      else
        let a := env.is_aborted r.2.tick
        let st2 := { r.2 with tick := r.2.tick + 1 }
        if a then some (false, emit Event.print_renderer_stopped st2)
        else waitRendered cfg env fuel st2
    else some (true, st1)

/-- Model of `ProductionExporter::export_animation_frame`: a scene
synchronisation on the file target; on a live renderer the frame is set, the
renderer restarted and the render-wait poll entered. -/
def export_animation_frame (cfg : ExporterSettings) (scene : BLScene) (env : Env) (fuel : Nat)
    (check_updated : Bool) (st : State) : Option (Bool × State) :=
  if cfg.exporter_type = ExpoterType.ExpoterTypeFile then
    some (true, emit (Event.sync check_updated) st)
  else
    let st1 := { st with settings_frame_current := st.m_frameCurrent }
    let st2 := emit (Event.set_current_frame st1.m_frameCurrent) st1
    let st3 := emit Event.stop st2
    let st4 := emit (Event.sync check_updated) st3
    let st5 := if st4.m_isFirstFrame then render_start cfg scene env st4 else st4
    let st6 := emit Event.start st5
    waitRendered cfg env fuel st6

/-- Model of `ProductionExporter::render_end`: the renderer is stopped and its
callbacks cleared (live renderer only), then every render result is ended
under the host context. -/
def render_end (cfg : ExporterSettings) (st : State) : State :=
  let st1 :=
    if cfg.exporter_type ≠ ExpoterType.ExpoterTypeFile then
      emit Event.clear_callbacks (emit Event.stop st)
    else st
  let st2 := emit Event.python_thread_state_restore st1
  let st3 := (List.replicate st2.m_renderResultsList Event.end_result).foldl
    (fun s e => emit e s) st2
  emit Event.python_thread_state_save st3

/-- The body of the file loop before `export_animation_frame`: the progress
and the frame of turn `c`, then `frame_set` and `update_progress` between
`python_thread_state_restore` and `python_thread_state_save`. -/
def fileLoop_hostCalls (c : Int) (st : State) : State :=
  let st1 := { st with
    m_animationProgress := { num := c, den := st.m_frameStep }
    m_frameCurrent := c * st.m_frameStep
    m_isFirstFrame := decide (c = 0) }
  let st2 := emit Event.python_thread_state_restore st1
  let st3 := emit (Event.frame_set st2.m_frameCurrent) st2
  let st4 := emit (Event.update_progress st3.m_animationProgress) st3
  emit Event.python_thread_state_save st4

/-- The loop of `do_export` for the file target:
`for (int c = 0; c < m_frameCount && res && !is_interrupted(); ++c)`.
`remaining` is `m_frameCount - c`, the number of turns left. -/
def fileLoop (cfg : ExporterSettings) (scene : BLScene) (env : Env) (fuel : Nat) :
    Nat → Int → Bool → State → Option (Bool × State)
  | 0, _, res, st => some (res, st)
  | remaining + 1, c, res, st =>
    if res = false then some (res, st)
    else if (is_interrupted cfg env st).1 then some (res, (is_interrupted cfg env st).2)
    else
      match export_animation_frame cfg scene env fuel false
        (fileLoop_hostCalls c (is_interrupted cfg env st).2) with
      | none => none
      | some (res1, st1) => fileLoop cfg scene env fuel remaining (c + 1) res1 st1

/-- The loop `while (res && !m_renderFinished && !is_interrupted())` that
follows `export_animation_frame` on a live renderer. -/
def waitFinished (cfg : ExporterSettings) (env : Env) (res : Bool) :
    Nat → State → Option State
  | 0, _ => none
  | fuel + 1, st =>
    if res = false then some st
    else
      let f := env.m_renderFinished st.tick
      let st1 := { st with tick := st.tick + 1 }
      if f then some st1
      else
        let r := is_interrupted cfg env st1
        if r.1 then some r.2
        else waitFinished cfg env res fuel r.2

/-- The `std::sort` of `do_export` with the comparator
`l.name() < r.name()`: `std::string` compares byte by byte, which for UTF-8
names is the order of the character lists.  `std::sort` leaves the order of
elements with equal names open; here they keep their order. -/
def sort_cameras (cameras : List BLObject) : List BLObject :=
  cameras.insertionSort (fun l r => ¬ (r.name.toList < l.name.toList))

/-- The vector `loop_cameras` of `do_export`: the objects of type CAMERA in
scene order, then sorted by name. -/
def loop_cameras (scene : BLScene) : List BLObject :=
  sort_cameras (scene.objects.filter (fun ob => decide (ob.type = ObjectType.type_CAMERA)))

/-- The head of the body of the live loop: the active camera of turn `c` (in
camera-loop mode), the first-frame flag and the frame of the turn. -/
def liveLoop_select (is_camera_loop : Bool) (cameras : List BLObject) (c : Int) (st : State) :
    State :=
  let st1 :=
    if is_camera_loop then
      match cameras.get? c.toNat with
      | some cam => emit (Event.set_active_camera cam) { st with m_active_camera := some cam }
      | none => st
    else st
  { st1 with
    m_isFirstFrame := decide (c = 0)
    m_frameCurrent := st1.m_frameStep * c }

/-- The host calls of the live loop: `frame_set` (outside camera-loop mode)
and `update_progress` between `python_thread_state_restore` and
`python_thread_state_save`. -/
def liveLoop_hostCalls (is_camera_loop : Bool) (st : State) : State :=
  let st1 := emit Event.python_thread_state_restore st
  let st2 := if is_camera_loop then st1 else emit (Event.frame_set st1.m_frameCurrent) st1
  let st3 := emit (Event.update_progress st2.m_animationProgress) st2
  emit Event.python_thread_state_save st3

/-- The loop of `do_export` for a live renderer.  `cameras` is `loop_cameras`
(empty outside camera-loop mode); `remaining` is `m_frameCount - c`. -/
def liveLoop (cfg : ExporterSettings) (scene : BLScene) (env : Env) (fuel : Nat)
    (is_camera_loop : Bool) (cameras : List BLObject) :
    Nat → Int → Bool → State → Option (Bool × State)
  | 0, _, res, st => some (res, st)
  | remaining + 1, c, res, st =>
    if res = false then some (res, st)
    else if (is_interrupted cfg env st).1 then some (res, (is_interrupted cfg env st).2)
    else if (is_interrupted cfg env
        (liveLoop_select is_camera_loop cameras c (is_interrupted cfg env st).2)).1 then
      some (res, (is_interrupted cfg env
        (liveLoop_select is_camera_loop cameras c (is_interrupted cfg env st).2)).2)
    else
      match export_animation_frame cfg scene env fuel false
        (liveLoop_hostCalls is_camera_loop (is_interrupted cfg env
          (liveLoop_select is_camera_loop cameras c (is_interrupted cfg env st).2)).2) with
      | none => none
      | some (res1, st1) =>
        match waitFinished cfg env res1 fuel st1 with
        | none => none
        | some st2 =>
          liveLoop cfg scene env fuel is_camera_loop cameras remaining (c + 1) res1 st2

/-- The head of `do_export` with animation in use: the restore of the file
target, then the frame counters taken from the scene.  The division is the
truncating division of C; a frame step of 0 is undefined there. -/
def animation_begin (cfg : ExporterSettings) (scene : BLScene) (st : State) : State :=
  let st0 :=
    if cfg.exporter_type = ExpoterType.ExpoterTypeFile then
      emit Event.python_thread_state_restore st
    else st
  { st0 with
    m_isAnimationRunning := true
    m_frameCurrent := scene.frame_start
    m_frameStep := scene.frame_step
    m_frameCount := Int.tdiv (scene.frame_end - scene.frame_start) scene.frame_step
    m_animationProgress := { num := 0, den := 1 } }

/-- The live branch of `do_export` up to its loop: the thread `runner` is
started, in camera-loop mode the counters are set from `loop_cameras`, and the
renderer is stopped. -/
def live_begin (cfg : ExporterSettings) (scene : BLScene) (st : State) : State :=
  let st2 := emit Event.runner_start (animation_begin cfg scene st)
  let st3 :=
    if cfg.settings_animation.mode = AnimationMode.AnimationModeCameraLoop then
      { st2 with
        m_frameCount := (loop_cameras scene).length
        m_frameStep := 1
        m_frameCurrent := 0 }
    else st2
  emit Event.stop st3

/-- The live branch of `do_export` after its loop. -/
def live_end (cfg : ExporterSettings) (scene : BLScene) (st : State) : State :=
  let st6 := { st with m_isAnimationRunning := false, m_renderFinished := true }
  let st7 := emit Event.runner_join st6
  let st8 := emit Event.python_thread_state_restore st7
  let st9 := emit (Event.frame_set scene.frame_current) st8
  let st10 := emit Event.python_thread_state_save st9
  render_end cfg st10

/-- Model of `ProductionExporter::do_export`.  The thread `runner`
(`render_loop`) runs beside the driver and is not part of the trace; the
mutexes have no effect on the driver alone and are left out.  The answer is
`none` when a wait loop runs out of fuel. -/
def do_export (cfg : ExporterSettings) (scene : BLScene) (env : Env) (fuel : Nat)
    (st : State) : Option (Bool × State) :=
  if cfg.settings_animation.use then
    if cfg.exporter_type = ExpoterType.ExpoterTypeFile then
      match fileLoop cfg scene env fuel (animation_begin cfg scene st).m_frameCount.toNat 0 true
        (animation_begin cfg scene st) with
      | none => none
      | some (res, st2) =>
        some (res, emit Event.python_thread_state_save
          (emit (Event.frame_set scene.frame_current) st2))
    else
      match liveLoop cfg scene env fuel
        (decide (cfg.settings_animation.mode = AnimationMode.AnimationModeCameraLoop))
        (if cfg.settings_animation.mode = AnimationMode.AnimationModeCameraLoop then
          loop_cameras scene else [])
        (live_begin cfg scene st).m_frameCount.toNat 0 true (live_begin cfg scene st) with
      | none => none
      | some (res, st5) => some (res, live_end cfg scene st5)
  else
    let st0 :=
      if cfg.exporter_type = ExpoterType.ExpoterTypeFile then
        emit Event.python_thread_state_restore st
      else st
    let st1 := emit (Event.sync false) st0
    some (true,
      if cfg.exporter_type = ExpoterType.ExpoterTypeFile then
        emit Event.python_thread_state_save st1
      else st1)

/-- The state in which `do_export` is entered: nothing running, empty trace. -/
def initialState : State where
  m_isAnimationRunning := false
  m_isRunning := false
  m_renderFinished := false
  m_isFirstFrame := false
  m_frameCurrent := 0
  m_frameStep := 0
  m_frameCount := 0
  m_animationProgress := { num := 0, den := 1 }
  m_active_camera := none
  settings_frame_current := 0
  m_renderResultsList := 0
  tick := 0
  trace := []

/-- An environment that never interrupts and in which the renderer has always
rendered the frame asked for. -/
def promptEnv : Env where
  is_interrupted := fun _ => false
  get_last_rendered_frame := fun _ => 1000000
  is_aborted := fun _ => false
  m_renderFinished := fun _ => true
  begin_result := true
  is_preview := false

/-- Settings with animation in use. -/
def animation (target : ExpoterType) (mode : AnimationMode) : ExporterSettings where
  exporter_type := target
  settings_animation := { use := true, mode := mode }

/-- A scene with the given frame range, current frame 7 and the given objects. -/
def sceneOf (frame_start frame_end frame_step : Int) (objects : List BLObject) : BLScene where
  frame_start := frame_start
  frame_end := frame_end
  frame_step := frame_step
  frame_current := 7
  objects := objects
  render_layer := true

/-- An environment that answers true to `is_interrupted` from the observation
`T` on; the renderer has rendered frame 0 and no later frame. -/
def interruptFrom (T : Nat) : Env where
  is_interrupted := fun t => decide (T ≤ t)
  get_last_rendered_frame := fun _ => 0
  is_aborted := fun _ => false
  m_renderFinished := fun _ => true
  begin_result := true
  is_preview := false

/-- The host execution context along a trace.  `held` tells whether the
context is held before the first event; `python_thread_state_restore`
acquires it and `python_thread_state_save` releases it.  The answer is true
when every restore finds the context released, every save finds it held, every
call into host data (`frame_set`, `update_progress`) finds it held, and the
trace ends with the context released. -/
def contextDiscipline : Bool → List Event → Bool
  | held, [] => !held
  | held, Event.python_thread_state_restore :: rest => !held && contextDiscipline true rest
  | held, Event.python_thread_state_save :: rest => held && contextDiscipline false rest
  | held, Event.frame_set _ :: rest => held && contextDiscipline held rest
  | held, Event.update_progress _ :: rest => held && contextDiscipline held rest
  | held, _ :: rest => contextDiscipline held rest

/-- Settings without animation. -/
def singleFrame (target : ExpoterType) : ExporterSettings where
  exporter_type := target
  settings_animation := { use := false, mode := AnimationMode.AnimationModeTimeline }

/-- The members of ProductionExporter read by its destructor: the plugin
exporter `m_exporter` (`none` for a null pointer), whether
`m_python_thread_state` is set, and the animation flag. -/
structure Members where
  m_exporter : Option Nat
  m_python_thread_state : Bool
  m_isAnimationRunning : Bool
  deriving DecidableEq, Repr

/-- What the destructor does to the outside. -/
inductive DtorEvent where
  | python_thread_state_restore
  | delete_m_exporter (p : Nat)
  deriving DecidableEq, Repr

/-- Model of `ProductionExporter::~ProductionExporter`: the animation is flagged as not
running, the host context is restored when a thread state was saved, and
`m_exporter` is deleted and set to null (deleting a null pointer does
nothing). -/
def destructor (cfg : ExporterSettings) (o : Members) : Members × List DtorEvent :=
  let o1 := if cfg.settings_animation.use then { o with m_isAnimationRunning := false } else o
  let r2 : Members × List DtorEvent :=
    if o1.m_python_thread_state then
      ({ o1 with m_python_thread_state := false }, [DtorEvent.python_thread_state_restore])
    else (o1, [])
  match r2.1.m_exporter with
  | some p => ({ r2.1 with m_exporter := none }, r2.2 ++ [DtorEvent.delete_m_exporter p])
  | none => (r2.1, r2.2)

/-- The frames passed to `m_scene.frame_set`, in call order. -/
def framesSet : List Event → List Int
  | [] => []
  | Event.frame_set f :: rest => f :: framesSet rest
  | _ :: rest => framesSet rest

/-- The frames passed to `m_exporter->set_current_frame`, in call order. -/
def framesExported : List Event → List Int
  | [] => []
  | Event.set_current_frame f :: rest => f :: framesExported rest
  | _ :: rest => framesExported rest

/-- The values passed to `m_engine.update_progress`, in call order. -/
def progressReported : List Event → List FloatQuot
  | [] => []
  | Event.update_progress p :: rest => p :: progressReported rest
  | _ :: rest => progressReported rest

/-- The cameras assigned to `m_active_camera`, in order. -/
def camerasUsed : List Event → List BLObject
  | [] => []
  | Event.set_active_camera cam :: rest => cam :: camerasUsed rest
  | _ :: rest => camerasUsed rest

/-- Whether an event is a scene synchronisation, the export of a frame. -/
def Event.isSync : Event → Bool
  | Event.sync _ => true
  | _ => false

/-- Whether an event is an assignment of the active camera. -/
def Event.isCamera : Event → Bool
  | Event.set_active_camera _ => true
  | _ => false

/-- Whether an event is one of the two messages printed when the render-wait
poll of `export_animation_frame` gives up. -/
def Event.isPollBreak : Event → Bool
  | Event.print_interrupted => true
  | Event.print_renderer_stopped => true
  | _ => false

/-- The events that `render_start` and the two wait loops can emit. -/
def Event.isWaitEvent : Event → Bool
  | Event.is_interrupted _ => true
  | Event.begin_result => true
  | Event.show_frame_buffer => true
  | Event.SceneExporter_render_start => true
  | Event.print_interrupted => true
  | Event.print_renderer_stopped => true
  | Event.start => true
  | _ => false

/-- The events that are neither a frame export, nor a camera assignment, nor
an answer of `is_interrupted`, nor a message of the render-wait poll. -/
def Event.isPlain : Event → Bool
  | Event.sync _ => false
  | Event.set_active_camera _ => false
  | Event.is_interrupted _ => false
  | Event.print_interrupted => false
  | Event.print_renderer_stopped => false
  | _ => true

/-- No frame is exported after the first `is_interrupted` that answered true. -/
def noSyncAfterInterrupt : List Event → Bool
  | [] => true
  | ev :: rest =>
    if ev = Event.is_interrupted true then rest.all (fun e => !e.isSync)
    else noSyncAfterInterrupt rest

/-- The state `st'` is reached from `st` by emitting the events `evs`, without
change of the loop bounds, and every `is_interrupted true` among the events is
an answer of the environment (while the animation is running). -/
structure Ext (env : Env) (st st' : State) (evs : List Event) : Prop where
  trace_eq : st'.trace = st.trace ++ evs
  running : st'.m_isAnimationRunning = st.m_isAnimationRunning
  frameStep : st'.m_frameStep = st.m_frameStep
  frameCount : st'.m_frameCount = st.m_frameCount
  tick_le : st.tick ≤ st'.tick
  reflect : Event.is_interrupted true ∈ evs → st.m_isAnimationRunning = true →
    ∃ i, st.tick ≤ i ∧ i < st'.tick ∧ env.is_interrupted i = true

end ProductionExporter

/-! ## Module entry points (cgr_vfb_python_api.cpp) -/

namespace PythonApi

/-- Allocations and deallocations made by the entry points. -/
inductive Event where
  | new_VRayInit (p : Nat)
  | delete_VRayInit (p : Nat)
  | delete_SceneExporter (p : Nat)
  deriving DecidableEq, Repr

/-- The state of the module: the static pointer `VRayInit` (`none` for
nullptr), the next address the allocator hands out, and the trace. -/
structure Module where
  VRayInit : Option Nat
  fresh : Nat
  trace : List Event
  deriving DecidableEq, Repr

/-- Model of `mExporterLoad`.  `throws` tells whether `new VRay::VRayInit(false)`
throws, in which case the handler leaves the pointer null. -/
def mExporterLoad (throws : Bool) (m : Module) : Module :=
  match m.VRayInit with
  | none =>
    if throws then { m with VRayInit := none }
    else
      { VRayInit := some m.fresh
        fresh := m.fresh + 1
        trace := m.trace ++ [Event.new_VRayInit m.fresh] }
  | some _ => m

/-- Model of `mExporterUnload`: a loaded handle is deleted and the pointer set
to null; a null pointer is left alone. -/
def mExporterUnload (m : Module) : Module :=
  match m.VRayInit with
  | some p => { m with VRayInit := none, trace := m.trace ++ [Event.delete_VRayInit p] }
  | none => m

/-- Model of `mExporterFree`: `delete` of the pointer held by `value` (0 for a null
pointer, whose `delete` does nothing).  There is no test whether the session
is still alive. -/
def mExporterFree (value : Nat) (m : Module) : Module :=
  if value = 0 then m
  else { m with trace := m.trace ++ [Event.delete_SceneExporter value] }

/-- The number of `delete`s of the session at address `p` in a trace. -/
def sessionDeletes (p : Nat) (trace : List Event) : Nat :=
  trace.count (Event.delete_SceneExporter p)

/-- A module state with a loaded handle at address 100. -/
def loadedModule : Module where
  VRayInit := some 100
  fresh := 101
  trace := []

end PythonApi

/-! ## The body of exportObject (exp_scene.cpp) -/

namespace VRsceneExporter

/-- What `exportObject` does with the Node it creates, as it appears in a
trace: the constructor, the calls on the node, and its destruction. -/
inductive NodeEvent where
  | new_Node (ob : Object)
  | init (dOb : Option DupliObject)
  | getHash (hash : Nat)
  | write
  | writeGeometry
  | delete_node
  deriving DecidableEq, Repr

/-- Model of `VRsceneExporter::exportObject`.  The class Node is not among the
sources at hand: `getHash ob dOb` is the value `node->getHash()` returns once
the node of `ob` was initialised with `dOb`, a parameter.  The result is the
trace of the call. -/
def exportObject (s : ExpoterSettings) (getHash : Object → Option DupliObject → Nat)
    (ob : Object) (dOb : Option DupliObject) : List NodeEvent :=
  let t0 := [NodeEvent.new_Node ob, NodeEvent.init dOb, NodeEvent.getHash (getHash ob dOb)]
  if getHash ob dOb = 0 then
    t0 ++ [NodeEvent.delete_node]
  else
    let t1 := if s.m_exportNodes then t0 ++ [NodeEvent.write] else t0
    let t2 := if s.m_exportGeometry then t1 ++ [NodeEvent.writeGeometry] else t1
    if !s.m_animation then t2 ++ [NodeEvent.delete_node] else t2

/-- The writes of a trace of `exportObject`. -/
def NodeEvent.isWrite : NodeEvent → Bool
  | NodeEvent.write => true
  | NodeEvent.writeGeometry => true
  | _ => false

/-- Settings of a run that exports nodes and geometry, with animation mode as
given. -/
def nodeSettings (animation : Bool) : ExpoterSettings where
  m_sce := { base := [], lay := 1 }
  m_activeLayers := false
  m_animation := animation
  m_exportNodes := true
  m_exportGeometry := true

/-- A node hash that is zero for every object. -/
def zeroHash : Object → Option DupliObject → Nat := fun _ _ => 0

/-- A node hash that is 7 for every object. -/
def sevenHash : Object → Option DupliObject → Nat := fun _ _ => 7

end VRsceneExporter

/-! ## Plugin writer (vfb_plugin_writer.h) -/

namespace VRayForBlender

/-- ExportFormat of a writer. -/
inductive ExportFormat where
  | ZIP
  | HEX
  | PLAIN
  deriving DecidableEq, Repr

/-- PluginWriter: the format chosen at construction and the characters written
so far (`out`).  The file handle, the buffer and the include set play no part
in the functions of the header. -/
structure PluginWriter where
  m_Format : ExportFormat
  out : String
  deriving DecidableEq, Repr

/-- PluginWriter::format. -/
def PluginWriter.format (pp : PluginWriter) : ExportFormat := pp.m_Format

/-- Modelled from the spec: `operator<<(PluginWriter&, const char*)` is
declared in vfb_plugin_writer.h and defined outside the sources at hand.  The
plugin description text format of the spec shows the literals of the source
(`List`, `Hex("`, `=`, `;`) as they are, so the operator appends the characters
of its argument unchanged. -/
def PluginWriter.cstr (pp : PluginWriter) (val : String) : PluginWriter :=
  { pp with out := pp.out ++ val }

/-- A call of an `operator<<` that is declared in vfb_plugin_writer.h and
defined outside the sources at hand (`int`, `float`, `std::string`,
`AttrVector`, ...): `text` is what the operator writes for the value, a
parameter. -/
def PluginWriter.put {T : Type} (pp : PluginWriter) (text : T → String) (val : T) :
    PluginWriter :=
  { pp with out := pp.out ++ text val }

/-- The functions of utils/cgr_string.h used by `printList`, which is not part
of the sources at hand: the text each encoder returns for a block of bytes.
They are parameters. -/
structure Encoders where
  GetStringZip : List Nat → String
  GetHex : List Nat → String

/-- What `printList` uses of the element type `T` of an `AttrList<T>`:
`write` is the text `operator<<` writes for one element, `bytes` the
`getBytesCount()` bytes found at `*val`.  The list itself is a Lean list:
`(*val)[c]` is its element `c` and `getCount()` its length. -/
structure ElementType (T : Type) where
  write : T → String
  bytes : List T → List Nat

/-- The loop of `printList` over the elements 1 .. getCount() - 1. -/
def printList_loop {T : Type} (et : ElementType T) (newLine : Bool) :
    PluginWriter → List T → PluginWriter
  | pp, [] => pp
  | pp, v :: rest =>
    printList_loop et newLine
      (((pp.cstr ",").cstr (if newLine then "\n    " else "    ")).put et.write v) rest

/-- Model of `printList`. -/
def printList {T : Type} (enc : Encoders) (et : ElementType T) (pp : PluginWriter)
    (val : List T) (listName : String) (newLine : Bool) : PluginWriter :=
  match val with
  | [] => pp
  | v0 :: rest =>
    let pp1 := (pp.cstr "List").cstr listName
    if listName = "" ∨ pp1.format = ExportFormat.PLAIN then
      (printList_loop et newLine ((pp1.cstr "(\n    ").put et.write v0) rest).cstr ")"
    else if pp1.format = ExportFormat.ZIP then
      ((pp1.cstr "Hex(\"").cstr (enc.GetStringZip (et.bytes val))).cstr "\")"
    else
      ((pp1.cstr "Hex(\"").cstr (enc.GetHex (et.bytes val))).cstr "\")"

/-- Model of `operator<<` for `AttrList<T>`, the primary template. -/
def operator_AttrList {T : Type} (enc : Encoders) (et : ElementType T) (pp : PluginWriter)
    (val : List T) : PluginWriter :=
  printList enc et pp val "" true

/-- Model of `operator<<` for `AttrList<float>`. -/
def operator_AttrListFloat {T : Type} (enc : Encoders) (et : ElementType T)
    (pp : PluginWriter) (val : List T) : PluginWriter :=
  printList enc et pp val "Float" false

/-- Model of `operator<<` for `AttrList<int>`. -/
def operator_AttrListInt (enc : Encoders) (et : ElementType Int) (pp : PluginWriter)
    (val : List Int) : PluginWriter :=
  printList enc et pp val "Int" false

/-- Model of `operator<<` for `AttrList<AttrVector>`. -/
def operator_AttrListVector {T : Type} (enc : Encoders) (et : ElementType T)
    (pp : PluginWriter) (val : List T) : PluginWriter :=
  printList enc et pp val "Vector" true

/-- Model of `operator<<` for `KVPair<T>`, the primary template.  `str` is the
text `operator<<` writes for a `std::string`, and `writeT` the `operator<<` of
the value type. -/
def operator_KVPair {T : Type} (str : String → String)
    (writeT : PluginWriter → T → PluginWriter) (pp : PluginWriter) (val : String × T) :
    PluginWriter :=
  (writeT (((pp.cstr "  ").put str val.1).cstr "=") val.2).cstr ";\n"

/-- The separator `printList` writes between two elements. -/
def separator (newLine : Bool) : String :=
  "," ++ (if newLine then "\n    " else "    ")

/-- The character of the separator that tells where an element ends: the line
break when every element starts a line, the comma otherwise. -/
def separatorMark (newLine : Bool) : Char :=
  if newLine then '\n' else ','

/-- A string writer that writes the characters as they are. -/
def rawString (s : String) : String := s

/-- The characters of the elements 1.. of an inline list, each after the
separator `lead ++ ch :: tail`, and the closing bracket. -/
def inlineTail (lead : List Char) (ch : Char) (tail : List Char) :
    List (List Char) → List Char
  | [] => [')']
  | t :: ts => lead ++ ch :: (tail ++ (t ++ inlineTail lead ch tail ts))

/-! ### Concrete writers for the examples -/

/-- Decimal text of an `int`. -/
def decimal (i : Int) : String := toString i

/-- Four bytes of an `int`, lowest first. -/
def bytesOfInt (i : Int) : List Nat :=
  let n := (i % 4294967296).toNat
  [n % 256, n / 256 % 256, n / 65536 % 256, n / 16777216 % 256]

/-- An element type for the examples: decimal text and four bytes per
element. -/
def intElement : ElementType Int where
  write := decimal
  bytes := fun l => l.flatMap bytesOfInt

/-- An element type for the examples with two elements, written `1` and `0`,
one byte each. -/
def bitElement : ElementType Bool where
  write := fun b => if b then "1" else "0"
  bytes := fun l => l.map (fun b => if b then 1 else 0)

/-- Stand-ins for the two encoders in the examples: the number of bytes, with a
letter that names the encoder. -/
def sampleEncoders : Encoders where
  GetStringZip := fun bytes => "Z" ++ toString bytes.length
  GetHex := fun bytes => "H" ++ toString bytes.length

/-- A writer of the given format that has written nothing. -/
def freshWriter (fmt : ExportFormat) : PluginWriter where
  m_Format := fmt
  out := ""

end VRayForBlender

/-! ## ProductionExporter::render_frame -/

namespace ProductionExporter

/-- The value `render_frame` passes to `update_progress`, kept as the operands
of the float expression of the source:

* `animation a p frames step` is `a + p * (1.f / ((float)frames / (float)step))`
  with `a = m_animationProgress`, `p = m_progress`,
  `frames = m_scene.frame_end() - m_scene.frame_current()` and
  `step = m_scene.frame_step()`,
* `image p` is `m_progress`,
* `literal_1` is `1.f`. -/
inductive FrameProgress where
  | animation (m_animationProgress m_progress : FloatQuot) (frames frame_step : Int)
  | image (m_progress : FloatQuot)
  | literal_1
  deriving DecidableEq, Repr

/-- The number a `FloatQuot` stands for; `none` when the divisor is zero (the
float is then an infinity or a NaN). -/
def FloatQuot.value (q : FloatQuot) : Option ℚ :=
  if q.den = 0 then none else some q.toRat

/-- The number `1.f / ((float)frames / (float)frame_step)` with the float
operations taken exact.  For `frames = 0` the inner quotient is zero (or a NaN
when the step is zero too) and the float result is an infinity or a NaN:
`none`.  For a zero step and `frames ≠ 0` the inner quotient is an infinity and
the result is zero. -/
def frame_contrib (frames frame_step : Int) : Option ℚ :=
  if frames = 0 then none
  else if frame_step = 0 then some 0
  else some (1 / ((frames : ℚ) / (frame_step : ℚ)))

/-- The number a progress value stands for, float operations taken exact;
`none` when the float is an infinity or a NaN.  A sum or product of a number
with an infinity or a NaN is an infinity or a NaN. -/
def FrameProgress.value : FrameProgress → Option ℚ
  | FrameProgress.animation a p frames frame_step =>
    match a.value, p.value, frame_contrib frames frame_step with
    | some x, some y, some k => some (x + y * k)
    | _, _, _ => none
  | FrameProgress.image p => p.value
  | FrameProgress.literal_1 => some 1

/-- Calls `render_frame` makes and the answers of `is_interrupted`, as they
appear in a trace.  `update_result i` is the call for the result number `i` of
`m_renderResultsList`. -/
inductive FrameEvent where
  | is_interrupted (answer : Bool)
  | python_thread_state_restore
  | python_thread_state_save
  | update_progress (progress : FrameProgress)
  | update_result (index : Nat)
  deriving DecidableEq, Repr

/-- The loop of `render_frame` over `m_renderResultsList`: a result is passed
to `update_result` when it has a layer (`layers i` for the result number
`i`). -/
def update_results (layers : Nat → Bool) (st : State) : List FrameEvent :=
  ((List.range st.m_renderResultsList).filter layers).map FrameEvent.update_result

/-- Model of `ProductionExporter::render_frame`, run by one thread: the mutex
`m_python_state_lock` is left out, and `m_imageDirty`, which the function sets
before it reads it, is true at the test.  `scene` is the scene as it is when
the function runs, `m_progress` the member written by the image callback.  The
result is the state (the observations made) and the trace of the call. -/
def render_frame (cfg : ExporterSettings) (scene : BLScene) (env : Env)
    (m_progress : FloatQuot) (layers : Nat → Bool) (st : State) : State × List FrameEvent :=
  if !st.m_isRunning then (st, [])
  else if cfg.settings_animation.use then
    let r1 := is_interrupted cfg env st
    if r1.1 then (r1.2, [FrameEvent.is_interrupted true])
    else
      let progress := FrameProgress.animation st.m_animationProgress m_progress
        (scene.frame_end - scene.frame_current) scene.frame_step
      let t1 := [FrameEvent.is_interrupted false, FrameEvent.python_thread_state_restore,
          FrameEvent.update_progress progress] ++ update_results layers st ++
        [FrameEvent.python_thread_state_save]
      let r2 := is_interrupted cfg env r1.2
      if r2.1 then (r2.2, t1 ++ [FrameEvent.is_interrupted true])
      else
        (r2.2, t1 ++ [FrameEvent.is_interrupted false,
            FrameEvent.python_thread_state_restore] ++ update_results layers st ++
          [FrameEvent.python_thread_state_save])
  else
    (st, [FrameEvent.update_progress (FrameProgress.image m_progress)] ++
      update_results layers st ++
      [FrameEvent.update_progress FrameProgress.literal_1] ++ update_results layers st)

/-- The values passed to `update_progress` in a trace of `render_frame`, in
order. -/
def reported : List FrameEvent → List FrameProgress
  | [] => []
  | FrameEvent.update_progress p :: rest => p :: reported rest
  | _ :: rest => reported rest

/-- The members during an animation run of `frameCount` frames: running, not
finished, with the given `m_animationProgress` and one render result. -/
def runningState (frameCount : Int) (animationProgress : FloatQuot) : State :=
  { initialState with
    m_isAnimationRunning := true
    m_isRunning := true
    m_frameStep := 1
    m_frameCount := frameCount
    m_animationProgress := animationProgress
    m_renderResultsList := 1 }

/-- The scene with frames 0 to 10 in steps of 1, at the frame `frame_current`. -/
def sceneAt (frame_current : Int) : BLScene :=
  { sceneOf 0 10 1 [] with frame_current := frame_current }

end ProductionExporter

/-! ## A host whose interruption test does not stay true -/

namespace VRsceneExporter

/-- A host whose `test_break` answers true to the call number 1 and false to
every other call; every object has the one duplication instance 7. -/
def flickerHost : Host where
  test_break := fun i => decide (i = 1)
  object_duplilist := fun _ => [{ persistent_id := 7 }]

/-- A mesh object on layer 1 with a duplication flag set (`OB_DUPLIVERTS`). -/
def dupliMesh (name : String) : Object :=
  { meshOn name 1 with transflag := 16 }

end VRsceneExporter

/-! ## Lemmas on the walk -/

namespace VRsceneExporter

theorem isSmokeDomain_loop_eq_zero_iff (k : Consts) (l : List ModifierData) :
    isSmokeDomain.loop k l = 0 ↔ ∀ m ∈ l, m.type ≠ k.eModifierType_Smoke := by
  induction l with
  | nil => simp [isSmokeDomain.loop]
  | cons m l ih =>
    by_cases hm : m.type = k.eModifierType_Smoke
    · simp [isSmokeDomain.loop, hm]
    · simp [isSmokeDomain.loop, hm, ih]

theorem isSmokeDomain_loop_cases (k : Consts) (l : List ModifierData) :
    isSmokeDomain.loop k l = 0 ∨ isSmokeDomain.loop k l = 1 := by
  induction l with
  | nil => simp [isSmokeDomain.loop]
  | cons m l ih =>
    by_cases hm : m.type = k.eModifierType_Smoke
    · simp [isSmokeDomain.loop, hm]
    · simpa [isSmokeDomain.loop, hm] using ih

theorem isSmokeDomain_ne_zero_iff (k : Consts) (ob : Object) :
    isSmokeDomain k ob ≠ 0 ↔ ∃ m ∈ ob.modifiers, m.type = k.eModifierType_Smoke := by
  unfold isSmokeDomain
  rw [Ne, isSmokeDomain_loop_eq_zero_iff]
  push_neg
  rfl

theorem mem_dupliLoop (h : Host) (ob : Object) (l : List DupliObject) (c : Nat) (ev : Event)
    (hev : ev ∈ (dupliLoop h ob l c).1) :
    (∃ b, ev = Event.test_break b) ∨ ∃ dob ∈ l, ev = Event.exportObject ob (some dob) := by
  induction l generalizing c with
  | nil => simp [dupliLoop] at hev
  | cons dob next ih =>
    by_cases hb : h.test_break c = true
    · simp [dupliLoop, hb] at hev
      exact Or.inl ⟨true, hev⟩
    · simp [dupliLoop, hb] at hev
      rcases hev with hev | hev | hev
      · exact Or.inl ⟨false, hev⟩
      · exact Or.inr ⟨dob, List.mem_cons_self _ _, hev⟩
      · rcases ih _ hev with hx | ⟨d, hd, hx⟩
        · exact Or.inl hx
        · exact Or.inr ⟨d, List.mem_cons_of_mem _ hd, hx⟩

theorem mem_exportObjectBase_dupli (k : Consts) (h : Host) (ob : Object) (c : Nat) (ev : Event)
    (hev : ev ∈ (exportObjectBase_dupli k h ob c).1) :
    (∃ b, ev = Event.test_break b) ∨ ev = Event.FreeDupliList ob ∨
      ev = Event.object_duplilist ob ∨ ∃ d, ev = Event.exportObject ob d := by
  unfold exportObjectBase_dupli at hev
  by_cases hd : ob.transflag &&& k.OB_DUPLI ≠ 0
  · rw [if_pos hd] at hev
    simp only [List.cons_append, List.mem_cons, List.mem_append, List.mem_singleton,
      List.not_mem_nil, or_false] at hev
    rcases hev with hev | hev | hev | hev
    · exact Or.inr (Or.inl hev)
    · exact Or.inr (Or.inr (Or.inl hev))
    · rcases mem_dupliLoop h ob _ _ ev hev with ⟨b, hb⟩ | ⟨d, _, hd⟩
      · exact Or.inl ⟨b, hb⟩
      · exact Or.inr (Or.inr (Or.inr ⟨_, hd⟩))
    · exact Or.inr (Or.inl hev)
  · rw [if_neg hd] at hev
    simp at hev

theorem mem_exportObjectBase_emitter (k : Consts) (h : Host) (ob : Object) (c : Nat) (ev : Event)
    (hev : ev ∈ (exportObjectBase_emitter k h ob c).1) :
    (∃ b, ev = Event.test_break b) ∨ ev = Event.exportObject ob none := by
  unfold exportObjectBase_emitter at hev
  by_cases h1 : k.EMPTY_TYPE ob = true
  · simp [h1] at hev
  · by_cases h2 : doRenderEmitter k ob = 0
    · simp [h1, h2] at hev
    · by_cases h3 : h.test_break c = true
      · simp [h1, h2, h3] at hev
        exact Or.inl ⟨true, hev⟩
      · simp [h1, h2, h3] at hev
        rcases hev with hev | hev
        · exact Or.inl ⟨false, hev⟩
        · exact Or.inr hev

/-- Every event of `exportObjectBase ob` is a `test_break`, a call on the
duplication list of `ob`, or an `exportObject` of `ob` itself. -/
theorem mem_exportObjectBase (k : Consts) (h : Host) (ob : Object) (c : Nat) (ev : Event)
    (hev : ev ∈ (exportObjectBase k h ob c).1) :
    (∃ b, ev = Event.test_break b) ∨ ev = Event.FreeDupliList ob ∨
      ev = Event.object_duplilist ob ∨ ∃ d, ev = Event.exportObject ob d := by
  unfold exportObjectBase at hev
  by_cases hg : (k.GEOM_TYPE ob || k.EMPTY_TYPE ob) = true
  · rw [if_pos hg] at hev
    simp only [List.mem_append] at hev
    rcases hev with hev | hev
    · exact mem_exportObjectBase_dupli k h ob c ev hev
    · rcases mem_exportObjectBase_emitter k h ob _ ev hev with hb | hb
      · exact Or.inl hb
      · exact Or.inr (Or.inr (Or.inr ⟨none, hb⟩))
  · rw [if_neg hg] at hev
    simp at hev

/-- Unfolding of the loop of `exportScene` at an object that passes the filters. -/
theorem exportSceneLoop_cons_pass (k : Consts) (h : Host) (s : ExpoterSettings) (total : Nat)
    (ob : Object) (next : List Object) (n c : Nat)
    (hb : h.test_break c = false)
    (h1 : ob.restrictflag &&& k.OB_RESTRICT_RENDER = 0)
    (h2 : ¬ (s.m_activeLayers = true ∧ ob.lay &&& s.m_sce.lay = 0))
    (h3 : isSmokeDomain k ob = 0) :
    exportSceneLoop k h s total (ob :: next) n c =
      (Event.test_break false :: Event.exportObjectBase ob ::
        (exportObjectBase k h ob (c + 1)).1 ++
        (if (n + 1) % 1000 = 0 then
          [Event.update_progress (Progress.accumulated (n + 1) total)] else []) ++
        (exportSceneLoop k h s total next (n + 1) (exportObjectBase k h ob (c + 1)).2).1,
       (exportSceneLoop k h s total next (n + 1) (exportObjectBase k h ob (c + 1)).2).2) := by
  have h2' : (s.m_activeLayers && (ob.lay &&& s.m_sce.lay == 0)) = false := by
    cases hs : s.m_activeLayers
    · simp
    · simp only [Bool.true_and, beq_eq_false_iff_ne, ne_eq]
      intro h0
      exact h2 ⟨hs, h0⟩
  rw [exportSceneLoop]
  simp [hb, h1, h2', h3]

/-- Unfolding of the loop of `exportScene` at an object that a filter skips. -/
theorem exportSceneLoop_cons_skip (k : Consts) (h : Host) (s : ExpoterSettings) (total : Nat)
    (ob : Object) (next : List Object) (n c : Nat)
    (hb : h.test_break c = false)
    (hskip : ¬ (ob.restrictflag &&& k.OB_RESTRICT_RENDER = 0 ∧
      ¬ (s.m_activeLayers = true ∧ ob.lay &&& s.m_sce.lay = 0) ∧ isSmokeDomain k ob = 0)) :
    exportSceneLoop k h s total (ob :: next) n c =
      (Event.test_break false :: (exportSceneLoop k h s total next n (c + 1)).1,
       (exportSceneLoop k h s total next n (c + 1)).2) := by
  rw [exportSceneLoop]
  by_cases h1 : ob.restrictflag &&& k.OB_RESTRICT_RENDER = 0
  · by_cases h2 : (s.m_activeLayers && (ob.lay &&& s.m_sce.lay == 0)) = true
    · simp [hb, h1, h2]
    · by_cases h3 : isSmokeDomain k ob = 0
      · exfalso
        apply hskip
        refine ⟨h1, ?_, h3⟩
        rintro ⟨hs, h0⟩
        apply h2
        simp [hs, h0]
      · simp [hb, h1, h2, h3]
  · simp [hb, h1]

/-- Unfolding of the loop of `exportScene` when the host interrupts. -/
theorem exportSceneLoop_cons_break (k : Consts) (h : Host) (s : ExpoterSettings) (total : Nat)
    (ob : Object) (next : List Object) (n c : Nat) (hb : h.test_break c = true) :
    exportSceneLoop k h s total (ob :: next) n c =
      ([Event.test_break true, Event.report ReportType.RPT_WARNING "Export interrupted!"],
        c + 1) := by
  rw [exportSceneLoop]
  simp [hb]

/-- An object that reaches `exportObjectBase` or `exportObject` in the loop of
`exportScene` is an object of the list that passed the three filters. -/
theorem exportSceneLoop_exported (k : Consts) (h : Host) (s : ExpoterSettings) (total : Nat)
    (l : List Object) (n c : Nat) (ob : Object)
    (hev : Event.exportObjectBase ob ∈ (exportSceneLoop k h s total l n c).1 ∨
      ∃ d, Event.exportObject ob d ∈ (exportSceneLoop k h s total l n c).1) :
    ob ∈ l ∧ ob.restrictflag &&& k.OB_RESTRICT_RENDER = 0 ∧
      ¬ (s.m_activeLayers = true ∧ ob.lay &&& s.m_sce.lay = 0) ∧ isSmokeDomain k ob = 0 := by
  induction l generalizing n c with
  | nil => simp [exportSceneLoop] at hev
  | cons o next ih =>
    have lift : (ob ∈ next ∧ ob.restrictflag &&& k.OB_RESTRICT_RENDER = 0 ∧
        ¬ (s.m_activeLayers = true ∧ ob.lay &&& s.m_sce.lay = 0) ∧ isSmokeDomain k ob = 0) →
        (ob ∈ o :: next ∧ ob.restrictflag &&& k.OB_RESTRICT_RENDER = 0 ∧
        ¬ (s.m_activeLayers = true ∧ ob.lay &&& s.m_sce.lay = 0) ∧ isSmokeDomain k ob = 0) :=
      fun hx => ⟨List.mem_cons_of_mem _ hx.1, hx.2⟩
    by_cases hb : h.test_break c = true
    · rw [exportSceneLoop_cons_break k h s total o next n c hb] at hev
      simp at hev
    · have hb' : h.test_break c = false := by simpa using hb
      by_cases hpass : o.restrictflag &&& k.OB_RESTRICT_RENDER = 0 ∧
          ¬ (s.m_activeLayers = true ∧ o.lay &&& s.m_sce.lay = 0) ∧ isSmokeDomain k o = 0
      · rw [exportSceneLoop_cons_pass k h s total o next n c hb' hpass.1 hpass.2.1 hpass.2.2]
          at hev
        have hsame : (Event.exportObjectBase ob ∈ (exportObjectBase k h o (c + 1)).1 ∨
            ∃ d, Event.exportObject ob d ∈ (exportObjectBase k h o (c + 1)).1) → ob = o := by
          rintro (hm | ⟨d, hm⟩)
          · rcases mem_exportObjectBase k h o _ _ hm with ⟨b, hb⟩ | hb | hb | ⟨d, hb⟩ <;>
              simp at hb
          · rcases mem_exportObjectBase k h o _ _ hm with ⟨b, hb⟩ | hb | hb | ⟨d', hb⟩ <;>
              simp at hb
            exact hb.1
        have hprog : ∀ ev ∈ (if (n + 1) % 1000 = 0 then
            [Event.update_progress (Progress.accumulated (n + 1) total)] else []),
            ∃ p, ev = Event.update_progress p := by
          intro ev hev
          by_cases hn : (n + 1) % 1000 = 0
          · rw [if_pos hn] at hev
            exact ⟨_, List.mem_singleton.mp hev⟩
          · rw [if_neg hn] at hev
            simp at hev
        simp only [List.mem_cons, List.mem_append, reduceCtorEq, false_or,
          Event.exportObjectBase.injEq, List.cons_append] at hev
        rcases hev with (hx | (hx | hx) | hx) | ⟨d, ((hx | hx) | hx)⟩
        · subst hx
          exact ⟨List.mem_cons_self _ _, hpass⟩
        · have := hsame (Or.inl hx)
          subst this
          exact ⟨List.mem_cons_self _ _, hpass⟩
        · obtain ⟨p, hp⟩ := hprog _ hx
          simp at hp
        · exact lift (ih _ _ (Or.inl hx))
        · have := hsame (Or.inr ⟨d, hx⟩)
          subst this
          exact ⟨List.mem_cons_self _ _, hpass⟩
        · obtain ⟨p, hp⟩ := hprog _ hx
          simp at hp
        · exact lift (ih _ _ (Or.inr ⟨d, hx⟩))
      · rw [exportSceneLoop_cons_skip k h s total o next n c hb' hpass] at hev
        simp only [List.mem_cons, reduceCtorEq, false_or] at hev
        exact lift (ih _ _ hev)

/-- The same for the whole trace of `exportScene`. -/
theorem exportScene_exported (k : Consts) (h : Host) (s : ExpoterSettings) (ob : Object)
    (hev : Event.exportObjectBase ob ∈ exportScene k h s ∨
      ∃ d, Event.exportObject ob d ∈ exportScene k h s) :
    ob ∈ s.m_sce.base ∧ ob.restrictflag &&& k.OB_RESTRICT_RENDER = 0 ∧
      ¬ (s.m_activeLayers = true ∧ ob.lay &&& s.m_sce.lay = 0) ∧ isSmokeDomain k ob = 0 := by
  apply exportSceneLoop_exported k h s s.m_sce.base.length s.m_sce.base 0 0 ob
  unfold exportScene at hev
  simpa using hev

end VRsceneExporter

namespace VRsceneExporter

theorem foldl_add_cast (f : ParticleSystem → Nat) (l : List ParticleSystem) (a : Int) :
    l.foldl (fun acc psys => acc + ((f psys : Nat) : Int)) a = a + (((l.map f).sum : Nat) : Int) := by
  induction l generalizing a with
  | nil => simp
  | cons p l ih =>
    simp only [List.foldl_cons, List.map_cons, List.sum_cons, ih]
    push_cast
    ring

/-- The function `doRenderEmitter` answers 0 exactly for a non-empty particle-system list
without the emitter bit, and 1 otherwise. -/
theorem doRenderEmitter_eq_zero_iff (k : Consts) (ob : Object) :
    doRenderEmitter k ob = 0 ↔
      ob.particlesystem ≠ [] ∧
        ∀ psys ∈ ob.particlesystem, psys.part.draw &&& k.PART_DRAW_EMITTER = 0 := by
  unfold doRenderEmitter
  by_cases hne : ob.particlesystem ≠ []
  · rw [if_pos hne]
    simp only [foldl_add_cast (fun psys => psys.part.draw &&& k.PART_DRAW_EMITTER), zero_add]
    by_cases hsum : ((ob.particlesystem.map
        (fun psys => psys.part.draw &&& k.PART_DRAW_EMITTER)).sum : Int) = 0
    · have hs : (ob.particlesystem.map
          (fun psys => psys.part.draw &&& k.PART_DRAW_EMITTER)).sum = 0 := by exact_mod_cast hsum
      rw [List.sum_eq_zero_iff] at hs
      simp only [hsum, if_true, true_iff]
      refine ⟨hne, fun psys hp => hs _ (List.mem_map.mpr ⟨psys, hp, rfl⟩)⟩
    · simp only [hsum, if_false, one_ne_zero, false_iff]
      rintro ⟨_, hall⟩
      apply hsum
      have : (ob.particlesystem.map
          (fun psys => psys.part.draw &&& k.PART_DRAW_EMITTER)).sum = 0 := by
        rw [List.sum_eq_zero_iff]
        intro x hx
        obtain ⟨psys, hp, rfl⟩ := List.mem_map.mp hx
        exact hall psys hp
      exact_mod_cast this
  · rw [if_neg hne]
    simp [hne]

theorem doRenderEmitter_cases (k : Consts) (ob : Object) :
    doRenderEmitter k ob = 0 ∨ doRenderEmitter k ob = 1 := by
  unfold doRenderEmitter
  by_cases hne : ob.particlesystem ≠ []
  · rw [if_pos hne]
    simp only
    split
    · exact Or.inl rfl
    · exact Or.inr rfl
  · rw [if_neg hne]
    exact Or.inr rfl

/-! ## Visibility filtering -/

/-- C1: an object whose restrict flags contain OB_RESTRICT_RENDER, or which has
a modifier of type eModifierType_Smoke (which is when `isSmokeDomain` answers
non-zero), is never passed to `exportObjectBase` and never to `exportObject` by
`exportScene`, whatever the scene, the settings and the answers of the host. -/
theorem C1_hidden_or_smoke_never_exported (k : Consts) (h : Host) (s : ExpoterSettings)
    (ob : Object)
    (hob : ob.restrictflag &&& k.OB_RESTRICT_RENDER ≠ 0 ∨
      ∃ m ∈ ob.modifiers, m.type = k.eModifierType_Smoke) :
    (isSmokeDomain k ob ≠ 0 ↔ ∃ m ∈ ob.modifiers, m.type = k.eModifierType_Smoke) ∧
      Event.exportObjectBase ob ∉ exportScene k h s ∧
      ∀ dOb, Event.exportObject ob dOb ∉ exportScene k h s := by
  have key : ¬ (Event.exportObjectBase ob ∈ exportScene k h s ∨
      ∃ d, Event.exportObject ob d ∈ exportScene k h s) := by
    intro hev
    obtain ⟨_, h1, _, h3⟩ := exportScene_exported k h s ob hev
    rcases hob with hr | hm
    · exact hr h1
    · exact (isSmokeDomain_ne_zero_iff k ob).mpr hm h3
  exact ⟨isSmokeDomain_ne_zero_iff k ob, fun hx => key (Or.inl hx),
    fun d hx => key (Or.inr ⟨d, hx⟩)⟩

/-- Witness of C1: a render-hidden mesh in a scene of two objects. -/
theorem C1_hidden_or_smoke_never_exported_witness :
    ({ meshOn "Hidden" 1 with restrictflag := 4 } : Object).restrictflag &&&
        blenderConsts.OB_RESTRICT_RENDER ≠ 0 ∧
      Event.exportObjectBase { meshOn "Hidden" 1 with restrictflag := 4 } ∉
        exportScene blenderConsts quietHost
          (settingsFor [{ meshOn "Hidden" 1 with restrictflag := 4 }, meshOn "A" 1] 1 true) :=
  ⟨by decide,
    (C1_hidden_or_smoke_never_exported blenderConsts quietHost
      (settingsFor [{ meshOn "Hidden" 1 with restrictflag := 4 }, meshOn "A" 1] 1 true)
      { meshOn "Hidden" 1 with restrictflag := 4 } (Or.inl (by decide))).2.1⟩

/-- C2, as stated, fails: with `m_activeLayers` off, an object on layer 1 is
passed to `exportObjectBase` although the active layer set of the scene is 2. -/
theorem C2_layer_filter_off_counterexample :
    (meshOn "A" 1).lay &&& (settingsFor [meshOn "A" 1] 2 false).m_sce.lay = 0 ∧
      Event.exportObjectBase (meshOn "A" 1) ∈
        exportScene blenderConsts quietHost (settingsFor [meshOn "A" 1] 2 false) := by
  decide

/-- C2, amended: when the settings have `m_activeLayers` set, an object whose
layer bits have no bit in common with the active layer set of the scene is
never passed to `exportObjectBase` (nor to `exportObject`). -/
theorem C2_layer_filter_when_activeLayers (k : Consts) (h : Host) (s : ExpoterSettings)
    (ob : Object) (hactive : s.m_activeLayers = true) (hlay : ob.lay &&& s.m_sce.lay = 0) :
    Event.exportObjectBase ob ∉ exportScene k h s ∧
      ∀ dOb, Event.exportObject ob dOb ∉ exportScene k h s := by
  have key : ¬ (Event.exportObjectBase ob ∈ exportScene k h s ∨
      ∃ d, Event.exportObject ob d ∈ exportScene k h s) := by
    intro hev
    obtain ⟨_, _, h2, _⟩ := exportScene_exported k h s ob hev
    exact h2 ⟨hactive, hlay⟩
  exact ⟨fun hx => key (Or.inl hx), fun d hx => key (Or.inr ⟨d, hx⟩)⟩

/-- Witness of C2 amended: the scene of the counterexample with `m_activeLayers` set. -/
theorem C2_layer_filter_when_activeLayers_witness :
    (settingsFor [meshOn "A" 1] 2 true).m_activeLayers = true ∧
      (meshOn "A" 1).lay &&& (settingsFor [meshOn "A" 1] 2 true).m_sce.lay = 0 ∧
      Event.exportObjectBase (meshOn "A" 1) ∉
        exportScene blenderConsts quietHost (settingsFor [meshOn "A" 1] 2 true) :=
  ⟨rfl, by decide,
    (C2_layer_filter_when_activeLayers blenderConsts quietHost
      (settingsFor [meshOn "A" 1] 2 true) (meshOn "A" 1) rfl (by decide)).1⟩

/-! ## Emitter suppression -/

theorem exportObject_mem_dupli (k : Consts) (h : Host) (ob ob' : Object) (c : Nat)
    (d : Option DupliObject)
    (hev : Event.exportObject ob' d ∈ (exportObjectBase_dupli k h ob c).1) :
    ob' = ob ∧ ∃ dob ∈ h.object_duplilist ob, d = some dob := by
  unfold exportObjectBase_dupli at hev
  by_cases hd : ob.transflag &&& k.OB_DUPLI ≠ 0
  · rw [if_pos hd] at hev
    simp only [List.cons_append, List.mem_cons, List.mem_append, List.mem_singleton,
      List.not_mem_nil, or_false, reduceCtorEq, false_or] at hev
    rcases mem_dupliLoop h ob _ _ _ hev with ⟨b, hb⟩ | ⟨dob, hmem, hx⟩
    · simp at hb
    · simp only [Event.exportObject.injEq] at hx
      exact ⟨hx.1, dob, hmem, hx.2⟩
  · rw [if_neg hd] at hev
    simp at hev

/-- C3, as stated, fails: a mesh whose particle system has the emitter bit set
is not exported as base object when the host answers true to the
`test_break` that precedes the export. -/
theorem C3_emitter_not_exported_on_break_counterexample :
    (emitter "E" 8).particlesystem ≠ [] ∧
      (∃ psys ∈ (emitter "E" 8).particlesystem,
        psys.part.draw &&& blenderConsts.PART_DRAW_EMITTER ≠ 0) ∧
      Event.exportObject (emitter "E" 8) none ∉
        (exportObjectBase blenderConsts breakingHost (emitter "E" 8) 0).1 := by
  decide

/-- C3, amended: for an object with one or more particle systems,
`doRenderEmitter` answers 0 exactly when no system has the PART_DRAW_EMITTER
bit; in that case `exportObjectBase` exports nothing but resolved duplication
instances of the object, never the base object; and when some system has the
bit, the object is of a geometry type (not an empty) and the host answers false
to the `test_break` made before the export, the base object is exported. -/
theorem C3_emitter_suppression (k : Consts) (h : Host) (ob : Object) (c : Nat)
    (hps : ob.particlesystem ≠ []) :
    (doRenderEmitter k ob = 0 ↔
        ∀ psys ∈ ob.particlesystem, psys.part.draw &&& k.PART_DRAW_EMITTER = 0) ∧
      ((∀ psys ∈ ob.particlesystem, psys.part.draw &&& k.PART_DRAW_EMITTER = 0) →
        Event.exportObject ob none ∉ (exportObjectBase k h ob c).1 ∧
        ∀ ob' d, Event.exportObject ob' d ∈ (exportObjectBase k h ob c).1 →
          ob' = ob ∧ ∃ dob ∈ h.object_duplilist ob, d = some dob) ∧
      ((∃ psys ∈ ob.particlesystem, psys.part.draw &&& k.PART_DRAW_EMITTER ≠ 0) →
        k.GEOM_TYPE ob = true → k.EMPTY_TYPE ob = false →
        h.test_break (exportObjectBase_dupli k h ob c).2 = false →
        Event.exportObject ob none ∈ (exportObjectBase k h ob c).1) := by
  have hiff : doRenderEmitter k ob = 0 ↔
      ∀ psys ∈ ob.particlesystem, psys.part.draw &&& k.PART_DRAW_EMITTER = 0 := by
    rw [doRenderEmitter_eq_zero_iff]
    exact ⟨fun hx => hx.2, fun hx => ⟨hps, hx⟩⟩
  refine ⟨hiff, ?_, ?_⟩
  · intro hall
    have h0 : doRenderEmitter k ob = 0 := hiff.mpr hall
    have hemit : ∀ c', (exportObjectBase_emitter k h ob c').1 = [] := by
      intro c'
      unfold exportObjectBase_emitter
      by_cases he : k.EMPTY_TYPE ob = true
      · simp [he]
      · simp [he, h0]
    have hsub : ∀ ob' d, Event.exportObject ob' d ∈ (exportObjectBase k h ob c).1 →
        ob' = ob ∧ ∃ dob ∈ h.object_duplilist ob, d = some dob := by
      intro ob' d hev
      unfold exportObjectBase at hev
      by_cases hg : (k.GEOM_TYPE ob || k.EMPTY_TYPE ob) = true
      · rw [if_pos hg] at hev
        simp only [hemit, List.append_nil] at hev
        exact exportObject_mem_dupli k h ob ob' c d hev
      · rw [if_neg hg] at hev
        simp at hev
    refine ⟨fun hev => ?_, hsub⟩
    obtain ⟨_, dob, _, hd⟩ := hsub ob none hev
    simp at hd
  · rintro ⟨psys, hp, hbit⟩ hgeom hempty hbreak
    have h1 : doRenderEmitter k ob ≠ 0 := fun h0 => hbit (hiff.mp h0 psys hp)
    unfold exportObjectBase
    rw [if_pos (by simp [hgeom])]
    simp only [List.mem_append]
    right
    unfold exportObjectBase_emitter
    simp [hempty, h1, hbreak]

/-- Witness of C3 amended: a mesh emitter with the bit set is exported by a
host that does not interrupt. -/
theorem C3_emitter_suppression_witness :
    (emitter "E" 8).particlesystem ≠ [] ∧
      Event.exportObject (emitter "E" 8) none ∈
        (exportObjectBase blenderConsts quietHost (emitter "E" 8) 0).1 :=
  ⟨by decide,
    (C3_emitter_suppression blenderConsts quietHost (emitter "E" 8) 0 (by decide)).2.2
      ⟨{ part := { draw := 8 } }, by decide, by decide⟩ (by decide) (by decide) (by decide)⟩

/-! ## Interruption of the walk -/

theorem dupliLoop_counter_le (h : Host) (ob : Object) (l : List DupliObject) (c : Nat) :
    c ≤ (dupliLoop h ob l c).2 := by
  induction l generalizing c with
  | nil => simp [dupliLoop]
  | cons dob next ih =>
    by_cases hb : h.test_break c = true
    · simp [dupliLoop, hb]
    · simp only [dupliLoop, hb]
      exact le_trans (Nat.le_succ c) (ih (c + 1))

theorem exportObjectBase_dupli_counter_le (k : Consts) (h : Host) (ob : Object) (c : Nat) :
    c ≤ (exportObjectBase_dupli k h ob c).2 := by
  unfold exportObjectBase_dupli
  by_cases hd : ob.transflag &&& k.OB_DUPLI ≠ 0
  · rw [if_pos hd]
    exact dupliLoop_counter_le h ob _ c
  · rw [if_neg hd]

theorem exportObjectBase_emitter_counter_le (k : Consts) (h : Host) (ob : Object) (c : Nat) :
    c ≤ (exportObjectBase_emitter k h ob c).2 := by
  unfold exportObjectBase_emitter
  split
  · exact le_refl c
  · split
    · exact le_refl c
    · split
      · exact Nat.le_succ c
      · exact Nat.le_succ c

theorem exportObjectBase_counter_le (k : Consts) (h : Host) (ob : Object) (c : Nat) :
    c ≤ (exportObjectBase k h ob c).2 := by
  unfold exportObjectBase
  by_cases hg : (k.GEOM_TYPE ob || k.EMPTY_TYPE ob) = true
  · rw [if_pos hg]
    exact le_trans (exportObjectBase_dupli_counter_le k h ob c)
      (exportObjectBase_emitter_counter_le k h ob _)
  · rw [if_neg hg]

/-- A `test_break true` in the trace of the duplication loop is the answer of
the host to one of the calls the loop made. -/
theorem dupliLoop_break_reflects (h : Host) (ob : Object) (l : List DupliObject) (c : Nat)
    (hev : Event.test_break true ∈ (dupliLoop h ob l c).1) :
    ∃ i, c ≤ i ∧ i < (dupliLoop h ob l c).2 ∧ h.test_break i = true := by
  induction l generalizing c with
  | nil => simp [dupliLoop] at hev
  | cons dob next ih =>
    by_cases hb : h.test_break c = true
    · refine ⟨c, le_refl c, ?_, hb⟩
      simp [dupliLoop, hb]
    · simp [dupliLoop, hb] at hev
      obtain ⟨i, h1, h2, h3⟩ := ih (c + 1) hev
      refine ⟨i, by omega, ?_, h3⟩
      simpa [dupliLoop, hb] using h2

theorem exportObjectBase_dupli_break_reflects (k : Consts) (h : Host) (ob : Object) (c : Nat)
    (hev : Event.test_break true ∈ (exportObjectBase_dupli k h ob c).1) :
    ∃ i, c ≤ i ∧ i < (exportObjectBase_dupli k h ob c).2 ∧ h.test_break i = true := by
  unfold exportObjectBase_dupli at hev ⊢
  by_cases hd : ob.transflag &&& k.OB_DUPLI ≠ 0
  · rw [if_pos hd] at hev ⊢
    simp only [List.cons_append, List.mem_cons, List.mem_append, List.mem_singleton,
      List.not_mem_nil, or_false, reduceCtorEq, false_or] at hev
    exact dupliLoop_break_reflects h ob _ c hev
  · rw [if_neg hd] at hev
    simp at hev

theorem exportObjectBase_emitter_break_reflects (k : Consts) (h : Host) (ob : Object) (c : Nat)
    (hev : Event.test_break true ∈ (exportObjectBase_emitter k h ob c).1) :
    ∃ i, c ≤ i ∧ i < (exportObjectBase_emitter k h ob c).2 ∧ h.test_break i = true := by
  unfold exportObjectBase_emitter at hev ⊢
  by_cases h1 : k.EMPTY_TYPE ob = true
  · simp [h1] at hev
  · by_cases h2 : doRenderEmitter k ob = 0
    · simp [h1, h2] at hev
    · by_cases h3 : h.test_break c = true
      · exact ⟨c, le_refl c, by simp [h1, h2, h3], h3⟩
      · simp [h1, h2, h3] at hev

theorem exportObjectBase_break_reflects (k : Consts) (h : Host) (ob : Object) (c : Nat)
    (hev : Event.test_break true ∈ (exportObjectBase k h ob c).1) :
    ∃ i, c ≤ i ∧ i < (exportObjectBase k h ob c).2 ∧ h.test_break i = true := by
  unfold exportObjectBase at hev ⊢
  by_cases hg : (k.GEOM_TYPE ob || k.EMPTY_TYPE ob) = true
  · rw [if_pos hg] at hev ⊢
    simp only [List.mem_append] at hev
    rcases hev with hev | hev
    · obtain ⟨i, h1, h2, h3⟩ := exportObjectBase_dupli_break_reflects k h ob c hev
      exact ⟨i, h1, lt_of_lt_of_le h2 (exportObjectBase_emitter_counter_le k h ob _), h3⟩
    · obtain ⟨i, h1, h2, h3⟩ := exportObjectBase_emitter_break_reflects k h ob _ hev
      exact ⟨i, le_trans (exportObjectBase_dupli_counter_le k h ob c) h1, h2, h3⟩
  · rw [if_neg hg] at hev
    simp at hev

theorem noExportAfterBreak_cons (ev : Event) (l : List Event) (hev : ev ≠ Event.test_break true) :
    noExportAfterBreak (ev :: l) = noExportAfterBreak l := by
  simp [noExportAfterBreak, hev]

theorem noExportAfterBreak_append (l1 l2 : List Event)
    (h1 : noExportAfterBreak l1 = true)
    (hbreak : Event.test_break true ∈ l1 → ∀ ev ∈ l2, ev.isExport = false)
    (hquiet : Event.test_break true ∉ l1 → noExportAfterBreak l2 = true) :
    noExportAfterBreak (l1 ++ l2) = true := by
  induction l1 with
  | nil => exact hquiet (by simp)
  | cons ev l ih =>
    by_cases hev : ev = Event.test_break true
    · subst hev
      simp only [noExportAfterBreak, if_true, List.cons_append] at h1 ⊢
      rw [List.all_eq_true] at h1 ⊢
      intro ev hm
      rcases List.mem_append.mp hm with hm | hm
      · exact h1 ev hm
      · simp [hbreak (List.mem_cons_self _ _) ev hm]
    · rw [List.cons_append, noExportAfterBreak_cons _ _ hev]
      rw [noExportAfterBreak_cons _ _ hev] at h1
      apply ih h1
      · intro hm
        exact hbreak (List.mem_cons_of_mem _ hm)
      · intro hm
        apply hquiet
        simp only [List.mem_cons, not_or]
        exact ⟨fun hx => hev hx.symm, hm⟩

theorem dupliLoop_noExportAfterBreak (h : Host) (ob : Object) (l : List DupliObject) (c : Nat) :
    noExportAfterBreak (dupliLoop h ob l c).1 = true := by
  induction l generalizing c with
  | nil => simp [dupliLoop, noExportAfterBreak]
  | cons dob next ih =>
    by_cases hb : h.test_break c = true
    · simp [dupliLoop, hb, noExportAfterBreak]
    · have hb' : h.test_break c = false := by simpa using hb
      simp only [dupliLoop, hb', Bool.false_eq_true, if_false]
      rw [noExportAfterBreak_cons _ _ (by simp), noExportAfterBreak_cons _ _ (by simp)]
      exact ih (c + 1)

/-- Once the host has answered true and keeps doing so, the block that exports
the base object exports nothing. -/
theorem exportObjectBase_emitter_after_break (k : Consts) (h : Host) (ob : Object) (c : Nat)
    (hb : h.test_break c = true) :
    ∀ ev ∈ (exportObjectBase_emitter k h ob c).1, ev.isExport = false := by
  intro ev hev
  unfold exportObjectBase_emitter at hev
  by_cases h1 : k.EMPTY_TYPE ob = true
  · simp [h1] at hev
  · by_cases h2 : doRenderEmitter k ob = 0
    · simp [h1, h2] at hev
    · simp [h1, h2, hb] at hev
      subst hev
      rfl

theorem exportObjectBase_emitter_noExportAfterBreak (k : Consts) (h : Host) (ob : Object)
    (c : Nat) : noExportAfterBreak (exportObjectBase_emitter k h ob c).1 = true := by
  unfold exportObjectBase_emitter
  by_cases h1 : k.EMPTY_TYPE ob = true
  · simp [h1, noExportAfterBreak]
  · by_cases h2 : doRenderEmitter k ob = 0
    · simp [h1, h2, noExportAfterBreak]
    · by_cases h3 : h.test_break c = true
      · simp [h1, h2, h3, noExportAfterBreak]
      · simp [h1, h2, h3, noExportAfterBreak]

theorem exportObjectBase_dupli_noExportAfterBreak (k : Consts) (h : Host) (ob : Object)
    (c : Nat) : noExportAfterBreak (exportObjectBase_dupli k h ob c).1 = true := by
  unfold exportObjectBase_dupli
  by_cases hd : ob.transflag &&& k.OB_DUPLI ≠ 0
  · rw [if_pos hd]
    simp only [List.cons_append]
    rw [noExportAfterBreak_cons _ _ (by simp), noExportAfterBreak_cons _ _ (by simp)]
    apply noExportAfterBreak_append _ _ (dupliLoop_noExportAfterBreak h ob _ c)
    · intro _ ev hev
      simp only [List.mem_singleton] at hev
      subst hev
      rfl
    · intro _
      simp [noExportAfterBreak]
  · rw [if_neg hd]
    rfl

/-- Inside `exportObjectBase`, for a host whose interruption test stays true
once it is true, nothing is exported after a `test_break` that answered true. -/
theorem exportObjectBase_noExportAfterBreak (k : Consts) (h : Host)
    (hsticky : ∀ i j, i ≤ j → h.test_break i = true → h.test_break j = true)
    (ob : Object) (c : Nat) : noExportAfterBreak (exportObjectBase k h ob c).1 = true := by
  unfold exportObjectBase
  by_cases hg : (k.GEOM_TYPE ob || k.EMPTY_TYPE ob) = true
  · rw [if_pos hg]
    apply noExportAfterBreak_append _ _ (exportObjectBase_dupli_noExportAfterBreak k h ob c)
    · intro hm
      obtain ⟨i, _, h2, h3⟩ := exportObjectBase_dupli_break_reflects k h ob c hm
      exact exportObjectBase_emitter_after_break k h ob _ (hsticky i _ (le_of_lt h2) h3)
    · intro _
      exact exportObjectBase_emitter_noExportAfterBreak k h ob _
  · rw [if_neg hg]
    rfl

theorem exportSceneLoop_counter_le (k : Consts) (h : Host) (s : ExpoterSettings) (total : Nat)
    (l : List Object) (n c : Nat) : c ≤ (exportSceneLoop k h s total l n c).2 := by
  induction l generalizing n c with
  | nil => simp [exportSceneLoop]
  | cons o next ih =>
    by_cases hb : h.test_break c = true
    · rw [exportSceneLoop_cons_break k h s total o next n c hb]
      exact Nat.le_succ c
    · have hb' : h.test_break c = false := by simpa using hb
      by_cases hpass : o.restrictflag &&& k.OB_RESTRICT_RENDER = 0 ∧
          ¬ (s.m_activeLayers = true ∧ o.lay &&& s.m_sce.lay = 0) ∧ isSmokeDomain k o = 0
      · rw [exportSceneLoop_cons_pass k h s total o next n c hb' hpass.1 hpass.2.1 hpass.2.2]
        exact le_trans (le_trans (Nat.le_succ c) (exportObjectBase_counter_le k h o (c + 1)))
          (ih _ _)
      · rw [exportSceneLoop_cons_skip k h s total o next n c hb' hpass]
        exact le_trans (Nat.le_succ c) (ih _ _)

theorem exportSceneLoop_cons_counter_lt (k : Consts) (h : Host) (s : ExpoterSettings)
    (total : Nat) (o : Object) (next : List Object) (n c : Nat) :
    c < (exportSceneLoop k h s total (o :: next) n c).2 := by
  by_cases hb : h.test_break c = true
  · rw [exportSceneLoop_cons_break k h s total o next n c hb]
    exact Nat.lt_succ_self c
  · have hb' : h.test_break c = false := by simpa using hb
    by_cases hpass : o.restrictflag &&& k.OB_RESTRICT_RENDER = 0 ∧
        ¬ (s.m_activeLayers = true ∧ o.lay &&& s.m_sce.lay = 0) ∧ isSmokeDomain k o = 0
    · rw [exportSceneLoop_cons_pass k h s total o next n c hb' hpass.1 hpass.2.1 hpass.2.2]
      exact lt_of_lt_of_le (lt_of_lt_of_le (Nat.lt_succ_self c)
        (exportObjectBase_counter_le k h o (c + 1))) (exportSceneLoop_counter_le k h s total _ _ _)
    · rw [exportSceneLoop_cons_skip k h s total o next n c hb' hpass]
      exact lt_of_lt_of_le (Nat.lt_succ_self c) (exportSceneLoop_counter_le k h s total _ _ _)

/-- When the host answers true at the head of the loop, the loop exports nothing. -/
theorem exportSceneLoop_after_break (k : Consts) (h : Host) (s : ExpoterSettings) (total : Nat)
    (l : List Object) (n c : Nat) (hb : h.test_break c = true) :
    ∀ ev ∈ (exportSceneLoop k h s total l n c).1, ev.isExport = false := by
  intro ev hev
  cases l with
  | nil => simp [exportSceneLoop] at hev
  | cons o next =>
    rw [exportSceneLoop_cons_break k h s total o next n c hb] at hev
    simp only [List.mem_cons, List.mem_singleton, List.not_mem_nil, or_false] at hev
    rcases hev with hev | hev <;> subst hev <;> rfl

theorem exportSceneLoop_noExportAfterBreak (k : Consts) (h : Host) (s : ExpoterSettings)
    (hsticky : ∀ i j, i ≤ j → h.test_break i = true → h.test_break j = true)
    (total : Nat) (l : List Object) (n c : Nat) :
    noExportAfterBreak (exportSceneLoop k h s total l n c).1 = true := by
  induction l generalizing n c with
  | nil => simp [exportSceneLoop, noExportAfterBreak]
  | cons o next ih =>
    by_cases hb : h.test_break c = true
    · rw [exportSceneLoop_cons_break k h s total o next n c hb]
      simp [noExportAfterBreak, Event.isExport]
    · have hb' : h.test_break c = false := by simpa using hb
      by_cases hpass : o.restrictflag &&& k.OB_RESTRICT_RENDER = 0 ∧
          ¬ (s.m_activeLayers = true ∧ o.lay &&& s.m_sce.lay = 0) ∧ isSmokeDomain k o = 0
      · rw [exportSceneLoop_cons_pass k h s total o next n c hb' hpass.1 hpass.2.1 hpass.2.2]
        simp only [List.cons_append, List.append_assoc]
        rw [noExportAfterBreak_cons _ _ (by simp), noExportAfterBreak_cons _ _ (by simp)]
        apply noExportAfterBreak_append _ _
          (exportObjectBase_noExportAfterBreak k h hsticky o (c + 1))
        · intro hm ev hev
          obtain ⟨i, _, h2, h3⟩ := exportObjectBase_break_reflects k h o (c + 1) hm
          rcases List.mem_append.mp hev with hev | hev
          · by_cases hn : (n + 1) % 1000 = 0
            · rw [if_pos hn, List.mem_singleton] at hev
              subst hev
              rfl
            · rw [if_neg hn] at hev
              simp at hev
          · exact exportSceneLoop_after_break k h s total next _ _
              (hsticky i _ (le_of_lt h2) h3) ev hev
        · intro _
          by_cases hn : (n + 1) % 1000 = 0
          · rw [if_pos hn, List.singleton_append, noExportAfterBreak_cons _ _ (by simp)]
            exact ih _ _
          · rw [if_neg hn, List.nil_append]
            exact ih _ _
      · rw [exportSceneLoop_cons_skip k h s total o next n c hb' hpass]
        simp only
        rw [noExportAfterBreak_cons _ _ (by simp)]
        exact ih _ _

/-- The only report of the loop is the warning of the interruption. -/
theorem exportSceneLoop_report (k : Consts) (h : Host) (s : ExpoterSettings) (total : Nat)
    (l : List Object) (n c : Nat) (t : ReportType) (m : String)
    (hev : Event.report t m ∈ (exportSceneLoop k h s total l n c).1) :
    t = ReportType.RPT_WARNING ∧ m = "Export interrupted!" := by
  induction l generalizing n c with
  | nil => simp [exportSceneLoop] at hev
  | cons o next ih =>
    by_cases hb : h.test_break c = true
    · rw [exportSceneLoop_cons_break k h s total o next n c hb] at hev
      simpa using hev
    · have hb' : h.test_break c = false := by simpa using hb
      by_cases hpass : o.restrictflag &&& k.OB_RESTRICT_RENDER = 0 ∧
          ¬ (s.m_activeLayers = true ∧ o.lay &&& s.m_sce.lay = 0) ∧ isSmokeDomain k o = 0
      · rw [exportSceneLoop_cons_pass k h s total o next n c hb' hpass.1 hpass.2.1 hpass.2.2]
          at hev
        simp only [List.mem_cons, List.mem_append, reduceCtorEq, false_or,
          List.cons_append] at hev
        rcases hev with (hx | hx) | hx
        · rcases mem_exportObjectBase k h o _ _ hx with ⟨b, hb⟩ | hb | hb | ⟨d, hb⟩ <;>
            simp at hb
        · by_cases hn : (n + 1) % 1000 = 0
          · rw [if_pos hn] at hx
            simp at hx
          · rw [if_neg hn] at hx
            simp at hx
        · exact ih _ _ hx
      · rw [exportSceneLoop_cons_skip k h s total o next n c hb' hpass] at hev
        simp only [List.mem_cons, reduceCtorEq, false_or] at hev
        exact ih _ _ hev

/-- A report in the loop is the answer to a `test_break` that was true. -/
theorem exportSceneLoop_report_break (k : Consts) (h : Host) (s : ExpoterSettings) (total : Nat)
    (l : List Object) (n c : Nat) (t : ReportType) (m : String)
    (hev : Event.report t m ∈ (exportSceneLoop k h s total l n c).1) :
    ∃ i, h.test_break i = true := by
  induction l generalizing n c with
  | nil => simp [exportSceneLoop] at hev
  | cons o next ih =>
    by_cases hb : h.test_break c = true
    · exact ⟨c, hb⟩
    · have hb' : h.test_break c = false := by simpa using hb
      by_cases hpass : o.restrictflag &&& k.OB_RESTRICT_RENDER = 0 ∧
          ¬ (s.m_activeLayers = true ∧ o.lay &&& s.m_sce.lay = 0) ∧ isSmokeDomain k o = 0
      · rw [exportSceneLoop_cons_pass k h s total o next n c hb' hpass.1 hpass.2.1 hpass.2.2]
          at hev
        simp only [List.mem_cons, List.mem_append, reduceCtorEq, false_or,
          List.cons_append] at hev
        rcases hev with (hx | hx) | hx
        · rcases mem_exportObjectBase k h o _ _ hx with ⟨b, hb⟩ | hb | hb | ⟨d, hb⟩ <;>
            simp at hb
        · by_cases hn : (n + 1) % 1000 = 0
          · rw [if_pos hn] at hx
            simp at hx
          · rw [if_neg hn] at hx
            simp at hx
        · exact ih _ _ hx
      · rw [exportSceneLoop_cons_skip k h s total o next n c hb' hpass] at hev
        simp only [List.mem_cons, reduceCtorEq, false_or] at hev
        exact ih _ _ hev

theorem exportedBases_cons_base (ob : Object) (l : List Event) :
    exportedBases (Event.exportObjectBase ob :: l) = ob :: exportedBases l := rfl

theorem exportedBases_cons_test_break (b : Bool) (l : List Event) :
    exportedBases (Event.test_break b :: l) = exportedBases l := rfl

theorem exportedBases_append (l1 l2 : List Event) :
    exportedBases (l1 ++ l2) = exportedBases l1 ++ exportedBases l2 := by
  induction l1 with
  | nil => rfl
  | cons ev l ih =>
    cases ev <;> simp [exportedBases, ih]

theorem exportedBases_eq_nil (l : List Event) (hl : ∀ ob, Event.exportObjectBase ob ∉ l) :
    exportedBases l = [] := by
  induction l with
  | nil => rfl
  | cons ev l ih =>
    have hl' : ∀ ob, Event.exportObjectBase ob ∉ l :=
      fun ob hm => hl ob (List.mem_cons_of_mem _ hm)
    cases ev with
    | exportObjectBase ob => exact absurd (List.mem_cons_self _ _) (hl ob)
    | _ => simp [exportedBases, ih hl']

theorem exportedBases_exportObjectBase (k : Consts) (h : Host) (ob : Object) (c : Nat) :
    exportedBases (exportObjectBase k h ob c).1 = [] := by
  apply exportedBases_eq_nil
  intro ob' hm
  rcases mem_exportObjectBase k h ob _ _ hm with ⟨b, hb⟩ | hb | hb | ⟨d, hb⟩ <;> simp at hb

theorem skipped_eq_false_iff (k : Consts) (s : ExpoterSettings) (ob : Object) :
    skipped k s ob = false ↔
      (ob.restrictflag &&& k.OB_RESTRICT_RENDER = 0 ∧
        ¬ (s.m_activeLayers = true ∧ ob.lay &&& s.m_sce.lay = 0) ∧ isSmokeDomain k ob = 0) := by
  unfold skipped
  simp only [Bool.or_eq_false_iff, decide_eq_false_iff_not, not_not, Bool.and_eq_false_imp,
    beq_eq_false_iff_ne, ne_eq, not_and, and_assoc]

/-- A run of the loop over `l` in which the host never answers true: the loop
over `l ++ rest` continues with `rest`, and the objects passed to
`exportObjectBase` are those of `l` that no filter skips, in list order. -/
theorem exportSceneLoop_quiet (k : Consts) (h : Host) (s : ExpoterSettings) (total : Nat)
    (l : List Object) (n c : Nat)
    (hq : ∀ i, c ≤ i → i < (exportSceneLoop k h s total l n c).2 → h.test_break i = false) :
    (∀ rest, exportSceneLoop k h s total (l ++ rest) n c =
      ((exportSceneLoop k h s total l n c).1 ++
        (exportSceneLoop k h s total rest (n + (l.filter (fun ob => !skipped k s ob)).length)
          (exportSceneLoop k h s total l n c).2).1,
       (exportSceneLoop k h s total rest (n + (l.filter (fun ob => !skipped k s ob)).length)
          (exportSceneLoop k h s total l n c).2).2)) ∧
    exportedBases (exportSceneLoop k h s total l n c).1 =
      l.filter (fun ob => !skipped k s ob) := by
  induction l generalizing n c with
  | nil => simp [exportSceneLoop, exportedBases]
  | cons o next ih =>
    have hb' : h.test_break c = false :=
      hq c (le_refl c) (exportSceneLoop_cons_counter_lt k h s total o next n c)
    by_cases hpass : o.restrictflag &&& k.OB_RESTRICT_RENDER = 0 ∧
        ¬ (s.m_activeLayers = true ∧ o.lay &&& s.m_sce.lay = 0) ∧ isSmokeDomain k o = 0
    · have hsk : skipped k s o = false := (skipped_eq_false_iff k s o).mpr hpass
      have hstep := exportSceneLoop_cons_pass k h s total o next n c hb' hpass.1 hpass.2.1
        hpass.2.2
      rw [hstep] at hq
      obtain ⟨ih1, ih2⟩ := ih (n + 1) (exportObjectBase k h o (c + 1)).2 (fun i hi1 hi2 =>
        hq i (le_trans (le_trans (Nat.le_succ c) (exportObjectBase_counter_le k h o (c + 1))) hi1)
          hi2)
      constructor
      · intro rest
        rw [List.cons_append,
          exportSceneLoop_cons_pass k h s total o (next ++ rest) n c hb' hpass.1 hpass.2.1
            hpass.2.2, hstep, ih1 rest]
        simp only [List.filter_cons, hsk, Bool.not_false, if_true, List.length_cons,
          List.cons_append, List.append_assoc]
        have hn : n + 1 + (List.filter (fun ob => !skipped k s ob) next).length =
            n + ((List.filter (fun ob => !skipped k s ob) next).length + 1) := by omega
        rw [hn]
      · rw [hstep]
        simp only [List.cons_append, List.filter_cons, hsk, Bool.not_false, if_true]
        rw [exportedBases_cons_test_break, exportedBases_cons_base, exportedBases_append,
          exportedBases_append, exportedBases_exportObjectBase, ih2]
        by_cases hn : (n + 1) % 1000 = 0
        · simp [hn, exportedBases]
        · simp [hn, exportedBases]
    · have hsk : skipped k s o = true := by
        cases hx : skipped k s o
        · exact absurd ((skipped_eq_false_iff k s o).mp hx) hpass
        · rfl
      have hstep := exportSceneLoop_cons_skip k h s total o next n c hb' hpass
      rw [hstep] at hq
      obtain ⟨ih1, ih2⟩ := ih n (c + 1) (fun i hi1 hi2 => hq i (by omega) hi2)
      constructor
      · intro rest
        rw [List.cons_append,
          exportSceneLoop_cons_skip k h s total o (next ++ rest) n c hb' hpass, hstep, ih1 rest]
        simp [List.filter_cons, hsk]
      · rw [hstep]
        simp only [List.filter_cons, hsk, Bool.not_true, Bool.false_eq_true, if_false]
        rw [exportedBases_cons_test_break, ih2]

/-- The base object is exported by `exportObjectBase` only right after the
`test_break` made before it has answered false. -/
theorem exportObject_base_after_quiet_test (k : Consts) (h : Host) (ob : Object) (c : Nat)
    (hev : Event.exportObject ob none ∈ (exportObjectBase k h ob c).1) :
    h.test_break (exportObjectBase_dupli k h ob c).2 = false := by
  unfold exportObjectBase at hev
  by_cases hg : (k.GEOM_TYPE ob || k.EMPTY_TYPE ob) = true
  · rw [if_pos hg] at hev
    simp only [List.mem_append] at hev
    rcases hev with hd | he
    · obtain ⟨_, dob, _, hsome⟩ := exportObject_mem_dupli k h ob ob c none hd
      cases hsome
    · unfold exportObjectBase_emitter at he
      by_cases h1 : k.EMPTY_TYPE ob = true
      · simp [h1] at he
      · by_cases h2 : doRenderEmitter k ob = 0
        · simp [h1, h2] at he
        · by_cases h3 : h.test_break (exportObjectBase_dupli k h ob c).2 = true
          · simp [h1, h2, h3] at he
          · simpa using h3
  · rw [if_neg hg] at hev
    simp at hev

/-- C8 (as stated, refuted): with a host that answers true to the test in the
duplication loop and false to the next test, `exportObjectBase` leaves the
loop, tests again and exports the base object after `test_break` has returned
true, and the walk goes on to the next object.  And a walk interrupted at its
first test ends, after the warning, with the same `update_progress(1.0f)` as a
completed walk. -/
theorem C8_export_after_break_counterexample :
    (exportObjectBase blenderConsts flickerHost (dupliMesh "A") 1).1 =
        [Event.FreeDupliList (dupliMesh "A"), Event.object_duplilist (dupliMesh "A"),
          Event.test_break true, Event.FreeDupliList (dupliMesh "A"),
          Event.test_break false, Event.exportObject (dupliMesh "A") none] ∧
      noExportAfterBreak (exportObjectBase blenderConsts flickerHost (dupliMesh "A") 1).1 =
        false ∧
      noExportAfterBreak (exportScene blenderConsts flickerHost
        (settingsFor [dupliMesh "A", meshOn "B" 1] 1 true)) = false ∧
      exportedBases (exportScene blenderConsts flickerHost
        (settingsFor [dupliMesh "A", meshOn "B" 1] 1 true)) = [dupliMesh "A", meshOn "B" 1] ∧
      exportScene blenderConsts breakingHost (settingsFor [meshOn "A" 1] 1 true) =
        [Event.update_progress Progress.literal_0, Event.test_break true,
          Event.report ReportType.RPT_WARNING "Export interrupted!",
          Event.update_progress Progress.literal_1] ∧
      (exportScene blenderConsts quietHost (settingsFor [] 1 true)).getLast? =
        some (Event.update_progress Progress.literal_1) := by
  decide

/-- C8, amended: when the first true answer of `test_break` comes at the head
of the loop for the object at position `pos` (the walk over the objects before
`pos` makes `N` calls, the calls 0 to `N - 1` answer false and the call `N`
answers true), the walk is the uninterrupted walk over the objects before
`pos`, followed by the interrupted test, the warning and the final progress
update `update_progress(1.0f)`, which a completed walk makes too: the objects
passed to `exportObjectBase` are the unfiltered objects at positions below
`pos`.  The only report of a walk is the warning "Export interrupted!": no
error is reported, and a walk in which `test_break` never answers true reports
nothing, so the warning tells the interrupted walk from the completed one.
For a host whose interruption test stays true once it is true, no export call
follows a `test_break` that answered true, in the whole walk and inside every
call of `exportObjectBase`.  For every host, a true answer in the duplication
loop ends that loop, so no instance is exported after it, and the base object
is exported only when the test made before it answers false. -/
theorem C8_walk_stops_on_interruption (k : Consts) (h : Host) (s : ExpoterSettings) :
    (∀ pos, pos < s.m_sce.base.length →
        (∀ i, i < (exportSceneLoop k h s s.m_sce.base.length (s.m_sce.base.take pos) 0 0).2 →
          h.test_break i = false) →
        h.test_break (exportSceneLoop k h s s.m_sce.base.length (s.m_sce.base.take pos) 0 0).2
          = true →
        exportScene k h s =
          Event.update_progress Progress.literal_0 ::
            (exportSceneLoop k h s s.m_sce.base.length (s.m_sce.base.take pos) 0 0).1 ++
            [Event.test_break true,
             Event.report ReportType.RPT_WARNING "Export interrupted!",
             Event.update_progress Progress.literal_1] ∧
        exportedBases (exportScene k h s) =
          (s.m_sce.base.take pos).filter (fun ob => !skipped k s ob)) ∧
      (∀ t m, Event.report t m ∈ exportScene k h s →
        t = ReportType.RPT_WARNING ∧ m = "Export interrupted!") ∧
      ((∀ i, h.test_break i = false) → ∀ t m, Event.report t m ∉ exportScene k h s) ∧
      ((∀ i j, i ≤ j → h.test_break i = true → h.test_break j = true) →
        noExportAfterBreak (exportScene k h s) = true ∧
        ∀ ob c, noExportAfterBreak (exportObjectBase k h ob c).1 = true) ∧
      (∀ ob c, noExportAfterBreak (exportObjectBase_dupli k h ob c).1 = true ∧
        (Event.exportObject ob none ∈ (exportObjectBase k h ob c).1 →
          h.test_break (exportObjectBase_dupli k h ob c).2 = false)) := by
  refine ⟨?_, ?_, ?_, ?_, ?_⟩
  · intro pos hpos hquiet hbreak
    obtain ⟨hsplit, hbases⟩ := exportSceneLoop_quiet k h s s.m_sce.base.length
      (s.m_sce.base.take pos) 0 0 (fun i _ hi => hquiet i hi)
    obtain ⟨o, rest, hdrop⟩ : ∃ o rest, s.m_sce.base.drop pos = o :: rest := by
      cases hd : s.m_sce.base.drop pos with
      | nil =>
        have := congrArg List.length hd
        simp at this
        omega
      | cons o rest => exact ⟨o, rest, rfl⟩
    have hbase : s.m_sce.base = s.m_sce.base.take pos ++ o :: rest := by
      rw [← hdrop, List.take_append_drop]
    have hloop : exportSceneLoop k h s s.m_sce.base.length s.m_sce.base 0 0 =
        ((exportSceneLoop k h s s.m_sce.base.length (s.m_sce.base.take pos) 0 0).1 ++
          [Event.test_break true, Event.report ReportType.RPT_WARNING "Export interrupted!"],
         (exportSceneLoop k h s s.m_sce.base.length (s.m_sce.base.take pos) 0 0).2 + 1) := by
      have hcut := hsplit (o :: rest)
      rw [← hbase, exportSceneLoop_cons_break k h s _ o rest _ _ hbreak] at hcut
      exact hcut
    have htrace : exportScene k h s =
        Event.update_progress Progress.literal_0 ::
          (exportSceneLoop k h s s.m_sce.base.length (s.m_sce.base.take pos) 0 0).1 ++
          [Event.test_break true,
           Event.report ReportType.RPT_WARNING "Export interrupted!",
           Event.update_progress Progress.literal_1] := by
      unfold exportScene
      rw [hloop]
      simp
    refine ⟨htrace, ?_⟩
    rw [htrace, List.cons_append, exportedBases, exportedBases_append, hbases]
    · simp [exportedBases]
    · intro ob hx
      cases hx
  · intro t m hev
    unfold exportScene at hev
    simp only [List.cons_append, List.mem_cons, List.mem_append, List.mem_singleton,
      reduceCtorEq, false_or, or_false, List.not_mem_nil] at hev
    exact exportSceneLoop_report k h s _ _ _ _ t m hev
  · intro hnever t m hev
    unfold exportScene at hev
    simp only [List.cons_append, List.mem_cons, List.mem_append, List.mem_singleton,
      reduceCtorEq, false_or, or_false, List.not_mem_nil] at hev
    obtain ⟨i, hi⟩ := exportSceneLoop_report_break k h s _ _ _ _ t m hev
    rw [hnever i] at hi
    cases hi
  · intro hsticky
    refine ⟨?_, exportObjectBase_noExportAfterBreak k h hsticky⟩
    unfold exportScene
    rw [List.cons_append, noExportAfterBreak_cons _ _ (by simp)]
    apply noExportAfterBreak_append _ _
      (exportSceneLoop_noExportAfterBreak k h s hsticky _ _ _ _)
    · intro _ ev hev
      rw [List.mem_singleton] at hev
      subst hev
      rfl
    · intro _
      simp [noExportAfterBreak]
  · intro ob c
    exact ⟨exportObjectBase_dupli_noExportAfterBreak k h ob c,
      exportObject_base_after_quiet_test k h ob c⟩

/-- Witness of C8 amended: three meshes, the host answers true from its third
call on, which is the test at the head of the loop for the second mesh; only
the first mesh is passed to `exportObjectBase`, nothing is exported after the
true answer, and the base object of the first mesh was exported after a test
that answered false. -/
theorem C8_walk_stops_on_interruption_witness :
    exportedBases (exportScene blenderConsts (breakFrom 2)
      (settingsFor [meshOn "A" 1, meshOn "B" 1, meshOn "C" 1] 1 true)) = [meshOn "A" 1] ∧
    noExportAfterBreak (exportScene blenderConsts (breakFrom 2)
      (settingsFor [meshOn "A" 1, meshOn "B" 1, meshOn "C" 1] 1 true)) = true ∧
    (Event.exportObject (meshOn "A" 1) none ∈
        (exportObjectBase blenderConsts (breakFrom 2) (meshOn "A" 1) 1).1 ∧
      (breakFrom 2).test_break
        (exportObjectBase_dupli blenderConsts (breakFrom 2) (meshOn "A" 1) 1).2 = false) :=
  have hC := C8_walk_stops_on_interruption blenderConsts (breakFrom 2)
    (settingsFor [meshOn "A" 1, meshOn "B" 1, meshOn "C" 1] 1 true)
  ⟨(hC.1 1 (by decide)
      (by
        intro i hi
        have h2 : (exportSceneLoop blenderConsts (breakFrom 2)
            (settingsFor [meshOn "A" 1, meshOn "B" 1, meshOn "C" 1] 1 true)
            (settingsFor [meshOn "A" 1, meshOn "B" 1, meshOn "C" 1] 1 true).m_sce.base.length
            ((settingsFor [meshOn "A" 1, meshOn "B" 1, meshOn "C" 1] 1 true).m_sce.base.take 1)
            0 0).2 = 2 := by decide
        rw [h2] at hi
        simp only [breakFrom, decide_eq_false_iff_not, not_le]
        exact hi)
      (by decide)).2,
    (hC.2.2.2.1 (by
      intro i j hij hi
      simp only [breakFrom, decide_eq_true_eq] at hi ⊢
      omega)).1,
    by decide,
    (hC.2.2.2.2 (meshOn "A" 1) 1).2 (by decide)⟩

end VRsceneExporter

namespace ProductionExporter

/-! ## Frames and progress of an animation run -/

/-- C4, evaluated on the code: with frame_start = 2, frame_end = 4 and
frame_step = 1 an uninterrupted run sets the frames 0 and 1 (and then restores
the current frame 7), on the file target and on the live renderer, where the
frames of the range are 2, 3 and 4. -/
theorem C4_frames_visited_by_do_export :
    (do_export (animation ExpoterType.ExpoterTypeFile AnimationMode.AnimationModeTimeline)
        (sceneOf 2 4 1 []) promptEnv 5 initialState).map
        (fun r => (r.1, framesSet r.2.trace)) = some (true, [0, 1, 7]) ∧
      (do_export (animation ExpoterType.ExpoterTypeLive AnimationMode.AnimationModeTimeline)
        (sceneOf 2 4 1 []) promptEnv 5 initialState).map
        (fun r => (r.1, framesSet r.2.trace, framesExported r.2.trace)) =
          some (true, [0, 1, 7], [0, 1]) := by
  decide

/-- C6, evaluated on the code: for the range 0..3 with step 1 the file target
reports the progress values 0/1, 1/1 and 2/1, the last of which exceeds 1; the
live renderer reports 0/1 at every frame and never reaches 1. -/
theorem C6_progress_reported_by_do_export :
    (do_export (animation ExpoterType.ExpoterTypeFile AnimationMode.AnimationModeTimeline)
        (sceneOf 0 3 1 []) promptEnv 5 initialState).map
        (fun r => (r.1, progressReported r.2.trace)) =
          some (true, [{ num := 0, den := 1 }, { num := 1, den := 1 }, { num := 2, den := 1 }]) ∧
      1 < FloatQuot.toRat { num := 2, den := 1 } ∧
      (do_export (animation ExpoterType.ExpoterTypeLive AnimationMode.AnimationModeTimeline)
        (sceneOf 0 3 1 []) promptEnv 5 initialState).map
        (fun r => (r.1, progressReported r.2.trace)) =
          some (true, [{ num := 0, den := 1 }, { num := 0, den := 1 }, { num := 0, den := 1 }]) ∧
      FloatQuot.toRat { num := 0, den := 1 } < 1 := by
  refine ⟨by decide, ?_, by decide, ?_⟩
  · norm_num [FloatQuot.toRat]
  · norm_num [FloatQuot.toRat]

/-! ## Lemmas on the animation driver -/

theorem Ext.refl (env : Env) (st : State) : Ext env st st [] where
  trace_eq := by simp
  running := rfl
  frameStep := rfl
  frameCount := rfl
  tick_le := le_refl _
  reflect := by intro h; simp at h

theorem Ext.trans {env : Env} {st st1 st2 : State} {e1 e2 : List Event}
    (h1 : Ext env st st1 e1) (h2 : Ext env st1 st2 e2) : Ext env st st2 (e1 ++ e2) where
  trace_eq := by rw [h2.trace_eq, h1.trace_eq, List.append_assoc]
  running := h2.running.trans h1.running
  frameStep := h2.frameStep.trans h1.frameStep
  frameCount := h2.frameCount.trans h1.frameCount
  tick_le := le_trans h1.tick_le h2.tick_le
  reflect := by
    intro hm hrun
    rcases List.mem_append.mp hm with hm | hm
    · obtain ⟨i, hi1, hi2, hi3⟩ := h1.reflect hm hrun
      exact ⟨i, hi1, lt_of_lt_of_le hi2 h2.tick_le, hi3⟩
    · obtain ⟨i, hi1, hi2, hi3⟩ := h2.reflect hm (h1.running.trans hrun)
      exact ⟨i, le_trans h1.tick_le hi1, hi2, hi3⟩

theorem Ext.emit (env : Env) (st : State) (e : Event) (he : e ≠ Event.is_interrupted true) :
    Ext env st (emit e st) [e] where
  trace_eq := rfl
  running := rfl
  frameStep := rfl
  frameCount := rfl
  tick_le := le_refl _
  reflect := by
    intro h
    rw [List.mem_singleton] at h
    exact absurd h.symm he

/-- With animation in use, `is_interrupted` makes one observation and answers
true when the environment says so or the animation is not running. -/
theorem is_interrupted_animation (cfg : ExporterSettings) (env : Env) (st : State)
    (huse : cfg.settings_animation.use = true) :
    is_interrupted cfg env st =
      (env.is_interrupted st.tick || !st.m_isAnimationRunning,
        { st with
          tick := st.tick + 1
          trace := st.trace ++
            [Event.is_interrupted (env.is_interrupted st.tick || !st.m_isAnimationRunning)] }) := by
  simp [is_interrupted, huse, emit]

theorem is_interrupted_ext (cfg : ExporterSettings) (env : Env) (st : State)
    (huse : cfg.settings_animation.use = true) :
    Ext env st (is_interrupted cfg env st).2 [Event.is_interrupted (is_interrupted cfg env st).1] := by
  rw [is_interrupted_animation cfg env st huse]
  exact
    { trace_eq := rfl
      running := rfl
      frameStep := rfl
      frameCount := rfl
      tick_le := Nat.le_succ _
      reflect := by
        intro hm hrun
        simp only [List.mem_singleton, Event.is_interrupted.injEq] at hm
        refine ⟨st.tick, le_refl _, Nat.lt_succ_self _, ?_⟩
        simpa [hrun] using hm.symm }

theorem Ext.update {env : Env} {st st1 st2 : State} {evs : List Event}
    (h : Ext env st st1 evs) (ht : st2.trace = st1.trace)
    (hr : st2.m_isAnimationRunning = st1.m_isAnimationRunning)
    (hs : st2.m_frameStep = st1.m_frameStep) (hc : st2.m_frameCount = st1.m_frameCount)
    (hk : st2.tick = st1.tick) :
    Ext env st st2 evs where
  trace_eq := ht.trans h.trace_eq
  running := hr.trans h.running
  frameStep := hs.trans h.frameStep
  frameCount := hc.trans h.frameCount
  tick_le := hk ▸ h.tick_le
  reflect := by
    intro hm hrun
    obtain ⟨i, hi1, hi2, hi3⟩ := h.reflect hm hrun
    exact ⟨i, hi1, hk ▸ hi2, hi3⟩

/-- An observation of the environment other than `is_interrupted`. -/
theorem Ext.observe (env : Env) (st : State) :
    Ext env st { st with tick := st.tick + 1 } [] where
  trace_eq := by simp
  running := rfl
  frameStep := rfl
  frameCount := rfl
  tick_le := Nat.le_succ _
  reflect := by intro h; simp at h

theorem is_interrupted_frameCurrent (cfg : ExporterSettings) (env : Env) (st : State) :
    (is_interrupted cfg env st).2.m_frameCurrent = st.m_frameCurrent := by
  unfold is_interrupted
  simp only
  split
  · rfl
  · split <;> rfl

theorem render_start_ext (cfg : ExporterSettings) (scene : BLScene) (env : Env) (st : State)
    (huse : cfg.settings_animation.use = true) :
    ∃ evs, Ext env st (render_start cfg scene env st) evs ∧
      (∀ e ∈ evs, e.isWaitEvent = true ∧ e.isPollBreak = false) ∧
      (render_start cfg scene env st).m_frameCurrent = st.m_frameCurrent := by
  have h1 : ∃ evs, Ext env st
      (if scene.render_layer then
        if (is_interrupted cfg env st).1 then (is_interrupted cfg env st).2
        else
          if env.begin_result then
            { emit Event.begin_result (is_interrupted cfg env st).2 with
              m_renderResultsList :=
                (emit Event.begin_result (is_interrupted cfg env st).2).m_renderResultsList + 1 }
          else emit Event.begin_result (is_interrupted cfg env st).2
      else st) evs ∧
      (∀ e ∈ evs, e.isWaitEvent = true ∧ e.isPollBreak = false) ∧
      (if scene.render_layer then
        if (is_interrupted cfg env st).1 then (is_interrupted cfg env st).2
        else
          if env.begin_result then
            { emit Event.begin_result (is_interrupted cfg env st).2 with
              m_renderResultsList :=
                (emit Event.begin_result (is_interrupted cfg env st).2).m_renderResultsList + 1 }
          else emit Event.begin_result (is_interrupted cfg env st).2
      else st).m_frameCurrent = st.m_frameCurrent := by
    by_cases hl : scene.render_layer = true
    · rw [if_pos hl]
      by_cases hi : (is_interrupted cfg env st).1 = true
      · rw [if_pos hi]
        refine ⟨_, is_interrupted_ext cfg env st huse, ?_, is_interrupted_frameCurrent cfg env st⟩
        intro e he
        rw [List.mem_singleton] at he
        subst he
        exact ⟨rfl, rfl⟩
      · rw [if_neg hi]
        have hb := (is_interrupted_ext cfg env st huse).trans
          (Ext.emit env (is_interrupted cfg env st).2 Event.begin_result (by simp))
        have hev : ∀ e ∈ [Event.is_interrupted (is_interrupted cfg env st).1] ++
            [Event.begin_result], e.isWaitEvent = true ∧ e.isPollBreak = false := by
          intro e he
          simp only [List.mem_append, List.mem_singleton] at he
          rcases he with he | he <;> subst he <;> exact ⟨rfl, rfl⟩
        by_cases hr : env.begin_result = true
        · rw [if_pos hr]
          exact ⟨_, hb.update rfl rfl rfl rfl rfl, hev,
            is_interrupted_frameCurrent cfg env st⟩
        · rw [if_neg hr]
          exact ⟨_, hb, hev, is_interrupted_frameCurrent cfg env st⟩
    · rw [if_neg hl]
      exact ⟨[], Ext.refl env st, by simp, rfl⟩
  obtain ⟨evs1, hx1, hw1, hf1⟩ := h1
  unfold render_start
  simp only
  by_cases hp : env.is_preview = true
  · rw [if_pos hp]
    refine ⟨_, (hx1.trans (Ext.emit env _ Event.SceneExporter_render_start (by simp))).update
      rfl rfl rfl rfl rfl, ?_, hf1⟩
    intro e he
    simp only [List.mem_append, List.mem_singleton] at he
    rcases he with he | he
    · exact hw1 e he
    · subst he
      exact ⟨rfl, rfl⟩
  · rw [if_neg hp]
    refine ⟨_, ((hx1.trans (Ext.emit env _ Event.show_frame_buffer (by simp))).trans
      (Ext.emit env _ Event.SceneExporter_render_start (by simp))).update
      rfl rfl rfl rfl rfl, ?_, hf1⟩
    intro e he
    simp only [List.mem_append, List.mem_singleton] at he
    rcases he with (he | he) | he
    · exact hw1 e he
    · subst he
      exact ⟨rfl, rfl⟩
    · subst he
      exact ⟨rfl, rfl⟩

theorem waitRendered_ext (cfg : ExporterSettings) (env : Env)
    (huse : cfg.settings_animation.use = true) (fuel : Nat) (st : State) (r : Bool)
    (st' : State) (hrun : waitRendered cfg env fuel st = some (r, st')) :
    ∃ evs, Ext env st st' evs ∧ (∀ e ∈ evs, e.isWaitEvent = true) ∧
      (r = false ↔ ∃ e ∈ evs, e.isPollBreak = true) ∧
      st'.m_frameCurrent = st.m_frameCurrent := by
  induction fuel generalizing st with
  | zero => simp [waitRendered] at hrun
  | succ fuel ih =>
    simp only [waitRendered] at hrun
    by_cases hlast : env.get_last_rendered_frame st.tick < st.m_frameCurrent
    · rw [if_pos hlast] at hrun
      have hobs := Ext.observe env st
      have hint := is_interrupted_ext cfg env { st with tick := st.tick + 1 } huse
      by_cases hi : (is_interrupted cfg env { st with tick := st.tick + 1 }).1 = true
      · rw [if_pos hi] at hrun
        simp only [Option.some.injEq, Prod.mk.injEq] at hrun
        obtain ⟨hr, hst⟩ := hrun
        subst hr hst
        refine ⟨_, (hobs.trans hint).trans (Ext.emit env _ Event.print_interrupted (by simp)),
          ?_, ?_, ?_⟩
        · intro e he
          simp only [List.nil_append, List.mem_append, List.mem_singleton] at he
          rcases he with he | he <;> subst he <;> rfl
        · simp only [List.nil_append, true_iff]
          exact ⟨Event.print_interrupted, by simp, rfl⟩
        · exact is_interrupted_frameCurrent cfg env _
      · rw [if_neg hi] at hrun
        by_cases ha : env.is_aborted
            (is_interrupted cfg env { st with tick := st.tick + 1 }).2.tick = true
        · rw [if_pos ha] at hrun
          simp only [Option.some.injEq, Prod.mk.injEq] at hrun
          obtain ⟨hr, hst⟩ := hrun
          subst hr hst
          refine ⟨_, (((hobs.trans hint).trans (Ext.observe env _)).trans
            (Ext.emit env _ Event.print_renderer_stopped (by simp))), ?_, ?_, ?_⟩
          · intro e he
            simp only [List.nil_append, List.append_nil, List.mem_append,
              List.mem_singleton] at he
            rcases he with he | he <;> subst he <;> rfl
          · simp only [List.nil_append, List.append_nil, true_iff]
            exact ⟨Event.print_renderer_stopped, by simp, rfl⟩
          · exact is_interrupted_frameCurrent cfg env _
        · rw [if_neg ha] at hrun
          obtain ⟨evs, hx, hw, hres, hf⟩ := ih _ hrun
          refine ⟨_, ((hobs.trans hint).trans (Ext.observe env _)).trans hx, ?_, ?_, ?_⟩
          · intro e he
            simp only [List.nil_append, List.append_nil, List.mem_append,
              List.mem_singleton] at he
            rcases he with he | he
            · subst he
              rfl
            · exact hw e he
          · rw [hres]
            simp only [List.nil_append, List.append_nil, List.mem_append, List.mem_singleton]
            constructor
            · rintro ⟨e, he, hp⟩
              exact ⟨e, Or.inr he, hp⟩
            · rintro ⟨e, he | he, hp⟩
              · subst he
                simp [Event.isPollBreak] at hp
              · exact ⟨e, he, hp⟩
          · rw [hf]
            exact is_interrupted_frameCurrent cfg env _
    · rw [if_neg hlast] at hrun
      simp only [Option.some.injEq, Prod.mk.injEq] at hrun
      obtain ⟨hr, hst⟩ := hrun
      subst hr hst
      exact ⟨[], Ext.observe env st, by simp, by simp, rfl⟩

theorem waitFinished_ext (cfg : ExporterSettings) (env : Env)
    (huse : cfg.settings_animation.use = true) (res : Bool) (fuel : Nat) (st : State)
    (st' : State) (hrun : waitFinished cfg env res fuel st = some st') :
    ∃ evs, Ext env st st' evs ∧ (∀ e ∈ evs, ∃ b, e = Event.is_interrupted b) ∧
      (res = false → evs = []) := by
  induction fuel generalizing st with
  | zero => simp [waitFinished] at hrun
  | succ fuel ih =>
    simp only [waitFinished] at hrun
    by_cases hres : res = false
    · rw [if_pos hres] at hrun
      simp only [Option.some.injEq] at hrun
      subst hrun
      exact ⟨[], Ext.refl env st, by simp, fun _ => rfl⟩
    · rw [if_neg hres] at hrun
      have hobs := Ext.observe env st
      by_cases hf : env.m_renderFinished st.tick = true
      · rw [if_pos hf] at hrun
        simp only [Option.some.injEq] at hrun
        subst hrun
        exact ⟨[], hobs, by simp, fun _ => rfl⟩
      · rw [if_neg hf] at hrun
        have hint := is_interrupted_ext cfg env { st with tick := st.tick + 1 } huse
        by_cases hi : (is_interrupted cfg env { st with tick := st.tick + 1 }).1 = true
        · rw [if_pos hi] at hrun
          simp only [Option.some.injEq] at hrun
          subst hrun
          refine ⟨_, hobs.trans hint, ?_, fun h => absurd h hres⟩
          intro e he
          simp only [List.nil_append, List.mem_singleton] at he
          exact ⟨_, he⟩
        · rw [if_neg hi] at hrun
          obtain ⟨evs, hx, hw, _⟩ := ih _ hrun
          refine ⟨_, (hobs.trans hint).trans hx, ?_, fun h => absurd h hres⟩
          intro e he
          simp only [List.nil_append, List.mem_append, List.mem_singleton] at he
          rcases he with he | he
          · exact ⟨_, he⟩
          · exact hw e he

/-- On a live renderer `export_animation_frame` sets the frame, stops the
renderer and synchronises the scene before anything else; it answers false
exactly when the render-wait poll gave up. -/
theorem export_animation_frame_live_ext (cfg : ExporterSettings) (scene : BLScene) (env : Env)
    (huse : cfg.settings_animation.use = true)
    (hlive : cfg.exporter_type ≠ ExpoterType.ExpoterTypeFile)
    (fuel : Nat) (cu : Bool) (st : State) (r : Bool) (st' : State)
    (hrun : export_animation_frame cfg scene env fuel cu st = some (r, st')) :
    ∃ evs, Ext env st st'
        ([Event.set_current_frame st.m_frameCurrent, Event.stop, Event.sync cu] ++ evs) ∧
      (∀ e ∈ evs, e.isWaitEvent = true) ∧
      (r = false ↔ ∃ e ∈ evs, e.isPollBreak = true) := by
  unfold export_animation_frame at hrun
  rw [if_neg hlive] at hrun
  simp only at hrun
  have h3 : Ext env st
      (emit (Event.sync cu) (emit Event.stop (emit (Event.set_current_frame st.m_frameCurrent)
        { st with settings_frame_current := st.m_frameCurrent })))
      [Event.set_current_frame st.m_frameCurrent, Event.stop, Event.sync cu] := by
    have h0 : Ext env st { st with settings_frame_current := st.m_frameCurrent } [] :=
      (Ext.refl env st).update rfl rfl rfl rfl rfl
    exact ((h0.trans (Ext.emit env _ _ (by simp))).trans (Ext.emit env _ _ (by simp))).trans
      (Ext.emit env _ _ (by simp))
  by_cases hfirst : st.m_isFirstFrame = true
  · have hfirst' : (emit (Event.sync cu) (emit Event.stop
        (emit (Event.set_current_frame st.m_frameCurrent)
        { st with settings_frame_current := st.m_frameCurrent }))).m_isFirstFrame = true := hfirst
    rw [if_pos hfirst'] at hrun
    obtain ⟨evs1, hx1, hw1, _⟩ := render_start_ext cfg scene env
      (emit (Event.sync cu) (emit Event.stop (emit (Event.set_current_frame st.m_frameCurrent)
        { st with settings_frame_current := st.m_frameCurrent }))) huse
    obtain ⟨evs2, hx2, hw2, hres, _⟩ := waitRendered_ext cfg env huse fuel _ r st' hrun
    refine ⟨evs1 ++ [Event.start] ++ evs2, ?_, ?_, ?_⟩
    · have := ((h3.trans hx1).trans (Ext.emit env _ Event.start (by simp))).trans hx2
      simpa [List.append_assoc] using this
    · intro e he
      simp only [List.mem_append, List.mem_singleton] at he
      rcases he with (he | he) | he
      · exact (hw1 e he).1
      · subst he
        rfl
      · exact hw2 e he
    · rw [hres]
      constructor
      · rintro ⟨e, he, hp⟩
        exact ⟨e, List.mem_append_right _ he, hp⟩
      · rintro ⟨e, he, hp⟩
        simp only [List.mem_append, List.mem_singleton] at he
        rcases he with (he | he) | he
        · rw [(hw1 e he).2] at hp
          cases hp
        · subst he
          cases hp
        · exact ⟨e, he, hp⟩
  · have hfirst' : ¬ (emit (Event.sync cu) (emit Event.stop
        (emit (Event.set_current_frame st.m_frameCurrent)
        { st with settings_frame_current := st.m_frameCurrent }))).m_isFirstFrame = true := hfirst
    rw [if_neg hfirst'] at hrun
    obtain ⟨evs2, hx2, hw2, hres, _⟩ := waitRendered_ext cfg env huse fuel _ r st' hrun
    refine ⟨[Event.start] ++ evs2, ?_, ?_, ?_⟩
    · have := (h3.trans (Ext.emit env _ Event.start (by simp))).trans hx2
      simpa [List.append_assoc] using this
    · intro e he
      simp only [List.mem_append, List.mem_singleton] at he
      rcases he with he | he
      · subst he
        rfl
      · exact hw2 e he
    · rw [hres]
      constructor
      · rintro ⟨e, he, hp⟩
        exact ⟨e, List.mem_append_right _ he, hp⟩
      · rintro ⟨e, he, hp⟩
        simp only [List.mem_append, List.mem_singleton] at he
        rcases he with he | he
        · subst he
          cases hp
        · exact ⟨e, he, hp⟩

theorem camerasUsed_append (l1 l2 : List Event) :
    camerasUsed (l1 ++ l2) = camerasUsed l1 ++ camerasUsed l2 := by
  induction l1 with
  | nil => rfl
  | cons ev l ih =>
    cases ev <;> simp [camerasUsed, ih]

theorem camerasUsed_eq_nil (l : List Event) (hl : ∀ e ∈ l, e.isCamera = false) :
    camerasUsed l = [] := by
  induction l with
  | nil => rfl
  | cons ev l ih =>
    have hl' : ∀ e ∈ l, e.isCamera = false := fun e he => hl e (List.mem_cons_of_mem _ he)
    have hev := hl ev (List.mem_cons_self _ _)
    cases ev <;> simp_all [camerasUsed, Event.isCamera]

theorem noSyncAfterInterrupt_cons (ev : Event) (l : List Event)
    (hev : ev ≠ Event.is_interrupted true) :
    noSyncAfterInterrupt (ev :: l) = noSyncAfterInterrupt l := by
  simp [noSyncAfterInterrupt, hev]

theorem noSyncAfterInterrupt_append (l1 l2 : List Event)
    (h1 : noSyncAfterInterrupt l1 = true)
    (hbreak : Event.is_interrupted true ∈ l1 → ∀ ev ∈ l2, ev.isSync = false)
    (hquiet : Event.is_interrupted true ∉ l1 → noSyncAfterInterrupt l2 = true) :
    noSyncAfterInterrupt (l1 ++ l2) = true := by
  induction l1 with
  | nil => exact hquiet (by simp)
  | cons ev l ih =>
    by_cases hev : ev = Event.is_interrupted true
    · subst hev
      simp only [noSyncAfterInterrupt, if_true, List.cons_append] at h1 ⊢
      rw [List.all_eq_true] at h1 ⊢
      intro e hm
      rcases List.mem_append.mp hm with hm | hm
      · exact h1 e hm
      · simp [hbreak (List.mem_cons_self _ _) e hm]
    · rw [List.cons_append, noSyncAfterInterrupt_cons _ _ hev]
      rw [noSyncAfterInterrupt_cons _ _ hev] at h1
      apply ih h1
      · intro hm
        exact hbreak (List.mem_cons_of_mem _ hm)
      · intro hm
        apply hquiet
        simp only [List.mem_cons, not_or]
        exact ⟨fun hx => hev hx.symm, hm⟩

theorem noSyncAfterInterrupt_of_no_sync (l : List Event) (hl : ∀ e ∈ l, e.isSync = false) :
    noSyncAfterInterrupt l = true := by
  induction l with
  | nil => rfl
  | cons ev l ih =>
    have hl' : ∀ e ∈ l, e.isSync = false := fun e he => hl e (List.mem_cons_of_mem _ he)
    by_cases hev : ev = Event.is_interrupted true
    · subst hev
      simp only [noSyncAfterInterrupt, if_true]
      rw [List.all_eq_true]
      intro e he
      simp [hl' e he]
    · rw [noSyncAfterInterrupt_cons _ _ hev]
      exact ih hl'

theorem noSyncAfterInterrupt_of_no_interrupt (l1 l2 : List Event)
    (hl : Event.is_interrupted true ∉ l1) :
    noSyncAfterInterrupt (l1 ++ l2) = noSyncAfterInterrupt l2 := by
  induction l1 with
  | nil => rfl
  | cons ev l ih =>
    simp only [List.mem_cons, not_or] at hl
    rw [List.cons_append, noSyncAfterInterrupt_cons _ _ (fun hx => hl.1 hx.symm), ih hl.2]

theorem Event.isWaitEvent_not_sync (e : Event) (he : e.isWaitEvent = true) :
    e.isSync = false ∧ e.isCamera = false := by
  cases e <;> simp_all [Event.isWaitEvent, Event.isSync, Event.isCamera]

theorem Event.isPlain_spec (e : Event) (he : e.isPlain = true) :
    e.isSync = false ∧ e.isCamera = false ∧ e.isPollBreak = false ∧
      e ≠ Event.is_interrupted true := by
  cases e <;> simp_all [Event.isPlain, Event.isSync, Event.isCamera, Event.isPollBreak]

theorem liveLoop_select_ext (env : Env) (is_camera_loop : Bool) (cameras : List BLObject)
    (c : Int) (st : State) :
    ∃ evs, Ext env st (liveLoop_select is_camera_loop cameras c st) evs ∧
      (∀ e ∈ evs, e.isSync = false ∧ e.isPollBreak = false ∧ e ≠ Event.is_interrupted true) ∧
      camerasUsed evs =
        (if is_camera_loop then (cameras.get? c.toNat).toList else []) ∧
      (liveLoop_select is_camera_loop cameras c st).m_frameCurrent = st.m_frameStep * c := by
  unfold liveLoop_select
  by_cases hc : is_camera_loop = true
  · simp only [hc, if_true]
    cases hg : cameras.get? c.toNat with
    | none =>
      exact ⟨[], (Ext.refl env st).update rfl rfl rfl rfl rfl, by simp, rfl, rfl⟩
    | some cam =>
      refine ⟨[Event.set_active_camera cam], ?_, ?_, rfl, rfl⟩
      · have h0 : Ext env st { st with m_active_camera := some cam } [] :=
          (Ext.refl env st).update rfl rfl rfl rfl rfl
        exact (h0.trans (Ext.emit env _ (Event.set_active_camera cam) (by simp))).update
          rfl rfl rfl rfl rfl
      · intro e he
        rw [List.mem_singleton] at he
        subst he
        exact ⟨rfl, rfl, by simp⟩
  · have hc' : is_camera_loop = false := by simpa using hc
    subst hc'
    exact ⟨[], (Ext.refl env st).update rfl rfl rfl rfl rfl, by simp, rfl, rfl⟩

theorem liveLoop_hostCalls_ext (env : Env) (is_camera_loop : Bool) (st : State) :
    ∃ evs, Ext env st (liveLoop_hostCalls is_camera_loop st) evs ∧
      (∀ e ∈ evs, e.isPlain = true) ∧
      (liveLoop_hostCalls is_camera_loop st).m_frameCurrent = st.m_frameCurrent := by
  unfold liveLoop_hostCalls
  by_cases hc : is_camera_loop = true
  · simp only [hc, if_true]
    refine ⟨_, ((Ext.emit env st Event.python_thread_state_restore (by simp)).trans
      (Ext.emit env _ (Event.update_progress _) (by simp))).trans
      (Ext.emit env _ Event.python_thread_state_save (by simp)), ?_, rfl⟩
    intro e he
    simp only [List.mem_append, List.mem_singleton] at he
    rcases he with (he | he) | he <;> subst he <;> rfl
  · simp only [hc, Bool.false_eq_true, if_false]
    refine ⟨_, (((Ext.emit env st Event.python_thread_state_restore (by simp)).trans
      (Ext.emit env _ (Event.frame_set _) (by simp))).trans
      (Ext.emit env _ (Event.update_progress _) (by simp))).trans
      (Ext.emit env _ Event.python_thread_state_save (by simp)), ?_, rfl⟩
    intro e he
    simp only [List.mem_append, List.mem_singleton] at he
    rcases he with ((he | he) | he) | he <;> subst he <;> rfl

/-- Once the environment answers true to `is_interrupted`, the live loop ends
at its condition without exporting a frame and without changing the result. -/
theorem liveLoop_after_interrupt (cfg : ExporterSettings) (scene : BLScene) (env : Env)
    (fuel : Nat) (is_camera_loop : Bool) (cameras : List BLObject)
    (huse : cfg.settings_animation.use = true)
    (n : Nat) (c : Int) (res : Bool) (st : State) (r : Bool) (st' : State)
    (hint : env.is_interrupted st.tick = true)
    (hrun : liveLoop cfg scene env fuel is_camera_loop cameras n c res st = some (r, st')) :
    r = res ∧ ∃ evs, Ext env st st' evs ∧
      ∀ e ∈ evs, e.isSync = false ∧ e.isCamera = false ∧ e.isPollBreak = false := by
  cases n with
  | zero =>
    simp only [liveLoop, Option.some.injEq, Prod.mk.injEq] at hrun
    obtain ⟨hr, hst⟩ := hrun
    subst hr hst
    exact ⟨rfl, [], Ext.refl env st, by simp⟩
  | succ n =>
    simp only [liveLoop] at hrun
    by_cases hres : res = false
    · rw [if_pos hres] at hrun
      simp only [Option.some.injEq, Prod.mk.injEq] at hrun
      obtain ⟨hr, hst⟩ := hrun
      subst hr hst
      exact ⟨rfl, [], Ext.refl env st, by simp⟩
    · rw [if_neg hres] at hrun
      have hi : (is_interrupted cfg env st).1 = true := by
        rw [is_interrupted_animation cfg env st huse]
        simp [hint]
      rw [if_pos hi] at hrun
      simp only [Option.some.injEq, Prod.mk.injEq] at hrun
      obtain ⟨hr, hst⟩ := hrun
      subst hr hst
      refine ⟨rfl, _, is_interrupted_ext cfg env st huse, ?_⟩
      intro e he
      rw [List.mem_singleton] at he
      subst he
      exact ⟨rfl, rfl, rfl⟩

theorem get?_toList_eq_take_drop (l : List BLObject) (j : Nat) :
    (l.get? j).toList = (l.drop j).take 1 := by
  cases hg : l.get? j with
  | none =>
    rw [List.get?_eq_none] at hg
    rw [List.drop_of_length_le hg]
    rfl
  | some x =>
    rw [List.get?_eq_some] at hg
    obtain ⟨hj, rfl⟩ := hg
    rw [List.drop_eq_getElem_cons hj, List.take_succ_cons, List.take_zero]
    rfl

theorem get?_toList_append_take_drop (l : List BLObject) (j m : Nat) :
    (l.get? j).toList ++ (l.drop (j + 1)).take m = (l.drop j).take (m + 1) := by
  cases hg : l.get? j with
  | none =>
    rw [List.get?_eq_none] at hg
    rw [List.drop_of_length_le hg, List.drop_of_length_le (by omega)]
    simp
  | some x =>
    rw [List.get?_eq_some] at hg
    obtain ⟨hj, rfl⟩ := hg
    rw [List.drop_eq_getElem_cons hj, List.take_succ_cons]
    rfl

theorem result_iff_of_no_pollBreak (res : Bool) (evs : List Event)
    (h : ∀ e ∈ evs, e.isPollBreak = false) :
    res = false ↔ res = false ∨ ∃ e ∈ evs, e.isPollBreak = true := by
  constructor
  · exact Or.inl
  · rintro (hx | ⟨e, he, hp⟩)
    · exact hx
    · rw [h e he] at hp
      cases hp

/-- The live loop: the events it emits, when its result is false, which cameras
it makes active, and that it exports no frame once interrupted. -/
theorem liveLoop_spec (cfg : ExporterSettings) (scene : BLScene) (env : Env) (fuel : Nat)
    (is_camera_loop : Bool) (cameras : List BLObject)
    (huse : cfg.settings_animation.use = true)
    (hlive : cfg.exporter_type ≠ ExpoterType.ExpoterTypeFile)
    (n : Nat) (c : Int) (res : Bool) (st : State) (r : Bool) (st' : State) (hc : 0 ≤ c)
    (hrun : liveLoop cfg scene env fuel is_camera_loop cameras n c res st = some (r, st')) :
    ∃ evs, Ext env st st' evs ∧
      (r = false ↔ res = false ∨ ∃ e ∈ evs, e.isPollBreak = true) ∧
      (∃ m, camerasUsed evs =
        if is_camera_loop then (cameras.drop c.toNat).take m else []) ∧
      ((∀ a b, a ≤ b → env.is_interrupted a = true → env.is_interrupted b = true) →
        st.m_isAnimationRunning = true → noSyncAfterInterrupt evs = true) := by
  induction n generalizing c res st r st' with
  | zero =>
    simp only [liveLoop, Option.some.injEq, Prod.mk.injEq] at hrun
    obtain ⟨hr, hst⟩ := hrun
    subst hr hst
    exact ⟨[], Ext.refl env st, result_iff_of_no_pollBreak _ _ (by simp),
      ⟨0, by simp [camerasUsed]⟩, fun _ _ => rfl⟩
  | succ n ih =>
    simp only [liveLoop] at hrun
    by_cases hres : res = false
    · rw [if_pos hres] at hrun
      simp only [Option.some.injEq, Prod.mk.injEq] at hrun
      obtain ⟨hr, hst⟩ := hrun
      subst hr hst
      exact ⟨[], Ext.refl env st, result_iff_of_no_pollBreak _ _ (by simp),
        ⟨0, by simp [camerasUsed]⟩, fun _ _ => rfl⟩
    · rw [if_neg hres] at hrun
      have hA := is_interrupted_ext cfg env st huse
      by_cases h1 : (is_interrupted cfg env st).1 = true
      · rw [if_pos h1] at hrun
        simp only [Option.some.injEq, Prod.mk.injEq] at hrun
        obtain ⟨hr, hst⟩ := hrun
        subst hr hst
        refine ⟨_, hA, result_iff_of_no_pollBreak _ _ ?_, ⟨0, ?_⟩, fun _ _ => ?_⟩
        · intro e he
          rw [List.mem_singleton] at he
          subst he
          rfl
        · simp [camerasUsed]
        · apply noSyncAfterInterrupt_of_no_sync
          intro e he
          rw [List.mem_singleton] at he
          subst he
          rfl
      · rw [if_neg h1] at hrun
        have h1' : (is_interrupted cfg env st).1 = false := by simpa using h1
        rw [h1'] at hA
        obtain ⟨cam, hB, hcam1, hcam2, _⟩ := liveLoop_select_ext env is_camera_loop cameras c
          (is_interrupted cfg env st).2
        have hC := is_interrupted_ext cfg env
          (liveLoop_select is_camera_loop cameras c (is_interrupted cfg env st).2) huse
        by_cases h2 : (is_interrupted cfg env
            (liveLoop_select is_camera_loop cameras c (is_interrupted cfg env st).2)).1 = true
        · rw [if_pos h2] at hrun
          simp only [Option.some.injEq, Prod.mk.injEq] at hrun
          obtain ⟨hr, hst⟩ := hrun
          subst hr hst
          refine ⟨_, (hA.trans hB).trans hC, result_iff_of_no_pollBreak _ _ ?_, ⟨1, ?_⟩,
            fun _ _ => ?_⟩
          · intro e he
            simp only [List.mem_append, List.mem_singleton] at he
            rcases he with (he | he) | he
            · subst he
              rfl
            · exact (hcam1 e he).2.1
            · subst he
              rfl
          · rw [camerasUsed_append, camerasUsed_append, hcam2]
            by_cases hl : is_camera_loop = true
            · simp only [hl, if_true, camerasUsed, List.nil_append, List.append_nil]
              exact get?_toList_eq_take_drop cameras c.toNat
            · simp [hl, camerasUsed]
          · apply noSyncAfterInterrupt_of_no_sync
            intro e he
            simp only [List.mem_append, List.mem_singleton] at he
            rcases he with (he | he) | he
            · subst he
              rfl
            · exact (hcam1 e he).1
            · subst he
              rfl
        · rw [if_neg h2] at hrun
          have h2' : (is_interrupted cfg env
              (liveLoop_select is_camera_loop cameras c (is_interrupted cfg env st).2)).1 =
              false := by simpa using h2
          rw [h2'] at hC
          obtain ⟨host, hD, hhost, _⟩ := liveLoop_hostCalls_ext env is_camera_loop
            (is_interrupted cfg env
              (liveLoop_select is_camera_loop cameras c (is_interrupted cfg env st).2)).2
          cases heaf : export_animation_frame cfg scene env fuel false
              (liveLoop_hostCalls is_camera_loop (is_interrupted cfg env
                (liveLoop_select is_camera_loop cameras c (is_interrupted cfg env st).2)).2) with
          | none =>
            rw [heaf] at hrun
            simp at hrun
          | some p =>
            obtain ⟨res1, sE⟩ := p
            rw [heaf] at hrun
            simp only at hrun
            cases hwf : waitFinished cfg env res1 fuel sE with
            | none =>
              rw [hwf] at hrun
              simp at hrun
            | some sF =>
              rw [hwf] at hrun
              simp only at hrun
              obtain ⟨w1, hE, hw1, hres1⟩ := export_animation_frame_live_ext cfg scene env huse
                hlive fuel false _ res1 sE heaf
              obtain ⟨w2, hF, hw2, _⟩ := waitFinished_ext cfg env huse res1 fuel sE sF hwf
              obtain ⟨rest, hR, hresR, ⟨m, hcamR⟩, hsyncR⟩ :=
                ih (c + 1) res1 sF r st' (by omega) hrun
              have hP := ((hA.trans hB).trans hC).trans hD
              have hW := hE.trans hF
              have hall := (hP.trans hW).trans hR
              have hPplain : ∀ e ∈ [Event.is_interrupted false] ++ cam ++
                  [Event.is_interrupted false] ++ host,
                  e.isSync = false ∧ e.isPollBreak = false ∧
                    e ≠ Event.is_interrupted true := by
                intro e he
                simp only [List.mem_append, List.mem_singleton] at he
                rcases he with ((he | he) | he) | he
                · subst he
                  exact ⟨rfl, rfl, by simp⟩
                · exact hcam1 e he
                · subst he
                  exact ⟨rfl, rfl, by simp⟩
                · have := Event.isPlain_spec e (hhost e he)
                  exact ⟨this.1, this.2.2.1, this.2.2.2⟩
              have hw2' : ∀ e ∈ w2, e.isSync = false ∧ e.isCamera = false ∧
                  e.isPollBreak = false := by
                intro e he
                obtain ⟨b, hb⟩ := hw2 e he
                subst hb
                exact ⟨rfl, rfl, rfl⟩
              refine ⟨_, hall, ?_, ⟨m + 1, ?_⟩, ?_⟩
              · have hfalse : (res = false) = False := by simp [hres]
                rw [hresR, hres1, hfalse, false_or]
                constructor
                · rintro (⟨e, he, hp⟩ | ⟨e, he, hp⟩)
                  · exact ⟨e, by simp [he], hp⟩
                  · exact ⟨e, by simp [he], hp⟩
                · rintro ⟨e, he, hp⟩
                  simp only [List.mem_append, List.mem_cons, List.mem_singleton,
                    List.not_mem_nil, or_false] at he
                  rcases he with ((((he | he) | he) | he) | (((he | he | he) | he) | he)) | he
                  · subst he
                    cases hp
                  · rw [(hcam1 e he).2.1] at hp
                    cases hp
                  · subst he
                    cases hp
                  · rw [(Event.isPlain_spec e (hhost e he)).2.2.1] at hp
                    cases hp
                  · subst he
                    cases hp
                  · subst he
                    cases hp
                  · subst he
                    cases hp
                  · exact Or.inl ⟨e, he, hp⟩
                  · rw [(hw2' e he).2.2] at hp
                    cases hp
                  · exact Or.inr ⟨e, he, hp⟩
              · have hnil1 : camerasUsed host = [] :=
                  camerasUsed_eq_nil _ (fun e he => (Event.isPlain_spec e (hhost e he)).2.1)
                have hnil2 : camerasUsed w1 = [] :=
                  camerasUsed_eq_nil _ (fun e he => (Event.isWaitEvent_not_sync e (hw1 e he)).2)
                have hnil3 : camerasUsed w2 = [] :=
                  camerasUsed_eq_nil _ (fun e he => (hw2' e he).2.1)
                have hc1 : (c + 1).toNat = c.toNat + 1 := by omega
                rw [hc1] at hcamR
                have e1 : camerasUsed [Event.is_interrupted false] = [] := rfl
                have e2 : ∀ f, camerasUsed
                    [Event.set_current_frame f, Event.stop, Event.sync false] = [] :=
                  fun _ => rfl
                simp only [camerasUsed_append, hnil1, hnil2, hnil3, e1, e2,
                  List.nil_append, List.append_nil]
                rw [hcam2, hcamR]
                by_cases hl : is_camera_loop = true
                · simp only [hl, if_true]
                  exact get?_toList_append_take_drop cameras c.toNat m
                · simp [hl]
              · intro hsticky hrunning
                have hsplit : [Event.is_interrupted false] ++ cam ++ [Event.is_interrupted false]
                    ++ host ++ ([Event.set_current_frame
                      (liveLoop_hostCalls is_camera_loop (is_interrupted cfg env
                        (liveLoop_select is_camera_loop cameras c
                          (is_interrupted cfg env st).2)).2).m_frameCurrent,
                      Event.stop, Event.sync false] ++ w1 ++ w2) ++ rest =
                    ([Event.is_interrupted false] ++ cam ++ [Event.is_interrupted false]
                    ++ host ++ [Event.set_current_frame
                      (liveLoop_hostCalls is_camera_loop (is_interrupted cfg env
                        (liveLoop_select is_camera_loop cameras c
                          (is_interrupted cfg env st).2)).2).m_frameCurrent,
                      Event.stop, Event.sync false]) ++ ((w1 ++ w2) ++ rest) := by
                  simp only [List.append_assoc]
                rw [hsplit, noSyncAfterInterrupt_of_no_interrupt]
                · have hrunD : (liveLoop_hostCalls is_camera_loop (is_interrupted cfg env
                      (liveLoop_select is_camera_loop cameras c
                        (is_interrupted cfg env st).2)).2).m_isAnimationRunning = true := by
                    rw [hP.running]
                    exact hrunning
                  have hrunF : sF.m_isAnimationRunning = true := by
                    rw [hW.running]
                    exact hrunD
                  apply noSyncAfterInterrupt_append
                  · apply noSyncAfterInterrupt_of_no_sync
                    intro e he
                    rcases List.mem_append.mp he with he | he
                    · exact (Event.isWaitEvent_not_sync e (hw1 e he)).1
                    · exact (hw2' e he).1
                  · intro hm e he
                    have hm' : Event.is_interrupted true ∈ [Event.set_current_frame
                        (liveLoop_hostCalls is_camera_loop (is_interrupted cfg env
                          (liveLoop_select is_camera_loop cameras c
                            (is_interrupted cfg env st).2)).2).m_frameCurrent,
                        Event.stop, Event.sync false] ++ w1 ++ w2 := by
                      simp only [List.mem_append] at hm ⊢
                      rcases hm with hm | hm
                      · exact Or.inl (Or.inr hm)
                      · exact Or.inr hm
                    obtain ⟨i, _, hi2, hi3⟩ := hW.reflect hm' hrunD
                    have hnow : env.is_interrupted sF.tick = true :=
                      hsticky i sF.tick (le_of_lt hi2) hi3
                    obtain ⟨_, evs', hx', hno⟩ := liveLoop_after_interrupt cfg scene env fuel
                      is_camera_loop cameras huse n (c + 1) res1 sF r st' hnow hrun
                    have : evs' = rest := by
                      have e1 := hx'.trace_eq
                      rw [hR.trace_eq] at e1
                      exact (List.append_cancel_left e1).symm
                    subst this
                    exact (hno e he).1
                  · intro _
                    exact hsyncR hsticky hrunF
                · intro hm
                  simp only [List.mem_append, List.mem_cons, List.mem_singleton,
                    List.not_mem_nil, or_false, reduceCtorEq, false_or] at hm
                  rcases hm with ((hm | hm) | hm) | hm
                  · simp at hm
                  · exact (hcam1 _ hm).2.2 rfl
                  · simp at hm
                  · exact (Event.isPlain_spec _ (hhost _ hm)).2.2.2 rfl

theorem fileLoop_hostCalls_ext (env : Env) (c : Int) (st : State) :
    ∃ evs, Ext env st (fileLoop_hostCalls c st) evs ∧ (∀ e ∈ evs, e.isPlain = true) := by
  unfold fileLoop_hostCalls
  have h0 : Ext env st { st with
      m_animationProgress := { num := c, den := st.m_frameStep }
      m_frameCurrent := c * st.m_frameStep
      m_isFirstFrame := decide (c = 0) } [] :=
    (Ext.refl env st).update rfl rfl rfl rfl rfl
  refine ⟨_, ((((h0.trans (Ext.emit env _ Event.python_thread_state_restore (by simp))).trans
    (Ext.emit env _ (Event.frame_set _) (by simp))).trans
    (Ext.emit env _ (Event.update_progress _) (by simp))).trans
    (Ext.emit env _ Event.python_thread_state_save (by simp))), ?_⟩
  intro e he
  simp only [List.nil_append, List.mem_append, List.mem_singleton] at he
  rcases he with ((he | he) | he) | he <;> subst he <;> rfl

/-- The file loop never changes the result, and the only `is_interrupted` that
answers true is the one that ends it. -/
theorem fileLoop_spec (cfg : ExporterSettings) (scene : BLScene) (env : Env) (fuel : Nat)
    (huse : cfg.settings_animation.use = true)
    (hfile : cfg.exporter_type = ExpoterType.ExpoterTypeFile)
    (n : Nat) (c : Int) (res : Bool) (st : State) (r : Bool) (st' : State)
    (hrun : fileLoop cfg scene env fuel n c res st = some (r, st')) :
    r = res ∧ ∃ evs, Ext env st st' evs ∧ (∀ e ∈ evs, e.isPollBreak = false) ∧
      (∀ e ∈ evs, e.isCamera = false) ∧ noSyncAfterInterrupt evs = true := by
  induction n generalizing c res st r st' with
  | zero =>
    simp only [fileLoop, Option.some.injEq, Prod.mk.injEq] at hrun
    obtain ⟨hr, hst⟩ := hrun
    subst hr hst
    exact ⟨rfl, [], Ext.refl env st, by simp, by simp, rfl⟩
  | succ n ih =>
    simp only [fileLoop] at hrun
    by_cases hres : res = false
    · rw [if_pos hres] at hrun
      simp only [Option.some.injEq, Prod.mk.injEq] at hrun
      obtain ⟨hr, hst⟩ := hrun
      subst hr hst
      exact ⟨rfl, [], Ext.refl env st, by simp, by simp, rfl⟩
    · rw [if_neg hres] at hrun
      have hA := is_interrupted_ext cfg env st huse
      by_cases h1 : (is_interrupted cfg env st).1 = true
      · rw [if_pos h1] at hrun
        simp only [Option.some.injEq, Prod.mk.injEq] at hrun
        obtain ⟨hr, hst⟩ := hrun
        subst hr hst
        refine ⟨rfl, _, hA, ?_, ?_, ?_⟩
        · intro e he
          rw [List.mem_singleton] at he
          subst he
          rfl
        · intro e he
          rw [List.mem_singleton] at he
          subst he
          rfl
        · apply noSyncAfterInterrupt_of_no_sync
          intro e he
          rw [List.mem_singleton] at he
          subst he
          rfl
      · rw [if_neg h1] at hrun
        have h1' : (is_interrupted cfg env st).1 = false := by simpa using h1
        rw [h1'] at hA
        obtain ⟨host, hD, hhost⟩ := fileLoop_hostCalls_ext env c (is_interrupted cfg env st).2
        have heaf : export_animation_frame cfg scene env fuel false
            (fileLoop_hostCalls c (is_interrupted cfg env st).2) =
            some (true, emit (Event.sync false)
              (fileLoop_hostCalls c (is_interrupted cfg env st).2)) := by
          unfold export_animation_frame
          rw [if_pos hfile]
        rw [heaf] at hrun
        simp only at hrun
        obtain ⟨hr, rest, hR, hpR, hcR, hsR⟩ := ih (c + 1) true _ r st' hrun
        have hres' : res = true := by simpa using hres
        have hall := ((hA.trans hD).trans (Ext.emit env _ (Event.sync false) (by simp))).trans hR
        refine ⟨hr.trans hres'.symm, _, hall, ?_, ?_, ?_⟩
        · intro e he
          simp only [List.mem_append, List.mem_singleton] at he
          rcases he with ((he | he) | he) | he
          · subst he
            rfl
          · exact (Event.isPlain_spec e (hhost e he)).2.2.1
          · subst he
            rfl
          · exact hpR e he
        · intro e he
          simp only [List.mem_append, List.mem_singleton] at he
          rcases he with ((he | he) | he) | he
          · subst he
            rfl
          · exact (Event.isPlain_spec e (hhost e he)).2.1
          · subst he
            rfl
          · exact hcR e he
        · rw [noSyncAfterInterrupt_of_no_interrupt _ _ ?_]
          · exact hsR
          · intro hm
            simp only [List.mem_append, List.mem_singleton, reduceCtorEq, or_false] at hm
            rcases hm with hm | hm
            · simp at hm
            · exact (Event.isPlain_spec _ (hhost _ hm)).2.2.2 rfl

theorem render_end_results (env : Env) (k : Nat) (st : State) :
    ∃ evs, Ext env st
        ((List.replicate k Event.end_result).foldl (fun s e => emit e s) st) evs ∧
      ∀ e ∈ evs, e.isPlain = true := by
  induction k generalizing st with
  | zero => exact ⟨[], Ext.refl env st, by simp⟩
  | succ k ih =>
    obtain ⟨evs, hx, hp⟩ := ih (emit Event.end_result st)
    refine ⟨[Event.end_result] ++ evs, ?_, ?_⟩
    · rw [List.replicate_succ, List.foldl_cons]
      exact (Ext.emit env st Event.end_result (by simp)).trans hx
    · intro e he
      simp only [List.mem_append, List.mem_singleton] at he
      rcases he with he | he
      · subst he
        rfl
      · exact hp e he

theorem render_end_ext (cfg : ExporterSettings) (env : Env) (st : State) :
    ∃ evs, Ext env st (render_end cfg st) evs ∧ ∀ e ∈ evs, e.isPlain = true := by
  unfold render_end
  have h1 : ∃ evs, Ext env st
      (if cfg.exporter_type ≠ ExpoterType.ExpoterTypeFile then
        emit Event.clear_callbacks (emit Event.stop st) else st) evs ∧
      ∀ e ∈ evs, e.isPlain = true := by
    by_cases hl : cfg.exporter_type ≠ ExpoterType.ExpoterTypeFile
    · rw [if_pos hl]
      refine ⟨_, (Ext.emit env st Event.stop (by simp)).trans
        (Ext.emit env _ Event.clear_callbacks (by simp)), ?_⟩
      intro e he
      simp only [List.mem_append, List.mem_singleton] at he
      rcases he with he | he <;> subst he <;> rfl
    · rw [if_neg hl]
      exact ⟨[], Ext.refl env st, by simp⟩
  obtain ⟨e1, hx1, hp1⟩ := h1
  obtain ⟨e2, hx2, hp2⟩ := render_end_results env
    (emit Event.python_thread_state_restore
      (if cfg.exporter_type ≠ ExpoterType.ExpoterTypeFile then
        emit Event.clear_callbacks (emit Event.stop st) else st)).m_renderResultsList
    (emit Event.python_thread_state_restore
      (if cfg.exporter_type ≠ ExpoterType.ExpoterTypeFile then
        emit Event.clear_callbacks (emit Event.stop st) else st))
  refine ⟨_, ((hx1.trans (Ext.emit env _ Event.python_thread_state_restore (by simp))).trans
    hx2).trans (Ext.emit env _ Event.python_thread_state_save (by simp)), ?_⟩
  intro e he
  simp only [List.mem_append, List.mem_singleton] at he
  rcases he with ((he | he) | he) | he
  · exact hp1 e he
  · subst he
    rfl
  · exact hp2 e he
  · subst he
    rfl

theorem live_end_ext (cfg : ExporterSettings) (scene : BLScene) (st : State) :
    ∃ evs, (live_end cfg scene st).trace = st.trace ++ evs ∧ ∀ e ∈ evs, e.isPlain = true := by
  unfold live_end
  obtain ⟨evs, hx, hp⟩ := render_end_ext cfg
    { is_interrupted := fun _ => false, get_last_rendered_frame := fun _ => 0,
      is_aborted := fun _ => false, m_renderFinished := fun _ => false,
      begin_result := false, is_preview := false }
    (emit Event.python_thread_state_save (emit (Event.frame_set scene.frame_current)
      (emit Event.python_thread_state_restore (emit Event.runner_join
        { st with m_isAnimationRunning := false, m_renderFinished := true }))))
  refine ⟨[Event.runner_join, Event.python_thread_state_restore,
    Event.frame_set scene.frame_current, Event.python_thread_state_save] ++ evs, ?_, ?_⟩
  · rw [hx.trace_eq]
    simp [emit]
  · intro e he
    simp only [List.mem_append, List.mem_cons, List.mem_singleton, List.not_mem_nil,
      or_false] at he
    rcases he with (he | he | he | he) | he
    · subst he
      rfl
    · subst he
      rfl
    · subst he
      rfl
    · subst he
      rfl
    · exact hp e he

theorem live_begin_trace (cfg : ExporterSettings) (scene : BLScene) (st : State)
    (hlive : cfg.exporter_type ≠ ExpoterType.ExpoterTypeFile) :
    (live_begin cfg scene st).trace = st.trace ++ [Event.runner_start, Event.stop] ∧
      (live_begin cfg scene st).m_isAnimationRunning = true := by
  unfold live_begin animation_begin
  rw [if_neg hlive]
  by_cases hm : cfg.settings_animation.mode = AnimationMode.AnimationModeCameraLoop
  · simp [hm, emit]
  · simp [hm, emit]

theorem live_begin_frameCount (cfg : ExporterSettings) (scene : BLScene) (st : State)
    (hm : cfg.settings_animation.mode = AnimationMode.AnimationModeCameraLoop) :
    (live_begin cfg scene st).m_frameCount = ((loop_cameras scene).length : Int) ∧
      (live_begin cfg scene st).m_frameStep = 1 := by
  unfold live_begin
  simp [hm, emit]

theorem animation_begin_trace (cfg : ExporterSettings) (scene : BLScene) (st : State)
    (hfile : cfg.exporter_type = ExpoterType.ExpoterTypeFile) :
    (animation_begin cfg scene st).trace = st.trace ++ [Event.python_thread_state_restore] ∧
      (animation_begin cfg scene st).m_isAnimationRunning = true := by
  unfold animation_begin
  rw [if_pos hfile]
  simp [emit]

/-- An animation run of `do_export` that returns: its result is false exactly
when a render-wait poll gave up; for an interruption test that stays true no
frame is exported after the first true answer; and in camera-loop mode on a
live renderer the cameras made active are an initial segment of
`loop_cameras`, with `m_frameCount` their number. -/
theorem do_export_animation_spec (cfg : ExporterSettings) (scene : BLScene) (env : Env)
    (fuel : Nat) (st : State) (res : Bool) (st' : State)
    (huse : cfg.settings_animation.use = true)
    (hrun : do_export cfg scene env fuel st = some (res, st')) :
    ∃ evs, st'.trace = st.trace ++ evs ∧
      (res = false ↔ ∃ e ∈ evs, e.isPollBreak = true) ∧
      ((∀ a b, a ≤ b → env.is_interrupted a = true → env.is_interrupted b = true) →
        noSyncAfterInterrupt evs = true) ∧
      (cfg.exporter_type ≠ ExpoterType.ExpoterTypeFile →
        cfg.settings_animation.mode = AnimationMode.AnimationModeCameraLoop →
        st'.m_frameCount = ((loop_cameras scene).length : Int) ∧
        ∃ m, camerasUsed evs = (loop_cameras scene).take m) := by
  unfold do_export at hrun
  rw [if_pos huse] at hrun
  by_cases hfile : cfg.exporter_type = ExpoterType.ExpoterTypeFile
  · rw [if_pos hfile] at hrun
    cases hloop : fileLoop cfg scene env fuel (animation_begin cfg scene st).m_frameCount.toNat 0
        true (animation_begin cfg scene st) with
    | none =>
      rw [hloop] at hrun
      simp at hrun
    | some p =>
      obtain ⟨r, st2⟩ := p
      rw [hloop] at hrun
      simp only [Option.some.injEq, Prod.mk.injEq] at hrun
      obtain ⟨hr, hst⟩ := hrun
      subst hr hst
      obtain ⟨hres, evs, hx, hpoll, _, hsync⟩ := fileLoop_spec cfg scene env fuel huse hfile _ _ _
        _ _ _ hloop
      obtain ⟨htr, _⟩ := animation_begin_trace cfg scene st hfile
      refine ⟨[Event.python_thread_state_restore] ++ evs ++
        [Event.frame_set scene.frame_current, Event.python_thread_state_save], ?_, ?_, ?_, ?_⟩
      · simp [emit, hx.trace_eq, htr]
      · rw [hres]
        simp only [Bool.true_eq_false, false_iff, not_exists, not_and]
        intro e he
        simp only [List.mem_append, List.mem_cons, List.mem_singleton, List.not_mem_nil,
          or_false] at he
        rcases he with (he | he) | (he | he)
        · subst he
          simp [Event.isPollBreak]
        · simp [hpoll e he]
        · subst he
          simp [Event.isPollBreak]
        · subst he
          simp [Event.isPollBreak]
      · intro _
        rw [List.append_assoc, noSyncAfterInterrupt_of_no_interrupt _ _ (by simp)]
        apply noSyncAfterInterrupt_append _ _ hsync
        · intro _ e he
          simp only [List.mem_cons, List.mem_singleton, List.not_mem_nil, or_false] at he
          rcases he with he | he <;> subst he <;> rfl
        · intro _
          apply noSyncAfterInterrupt_of_no_sync
          intro e he
          simp only [List.mem_cons, List.mem_singleton, List.not_mem_nil, or_false] at he
          rcases he with he | he <;> subst he <;> rfl
      · intro hlive
        exact absurd hfile hlive
  · rw [if_neg hfile] at hrun
    cases hloop : liveLoop cfg scene env fuel
        (decide (cfg.settings_animation.mode = AnimationMode.AnimationModeCameraLoop))
        (if cfg.settings_animation.mode = AnimationMode.AnimationModeCameraLoop then
          loop_cameras scene else [])
        (live_begin cfg scene st).m_frameCount.toNat 0 true (live_begin cfg scene st) with
    | none =>
      rw [hloop] at hrun
      simp at hrun
    | some p =>
      obtain ⟨r, st5⟩ := p
      rw [hloop] at hrun
      simp only [Option.some.injEq, Prod.mk.injEq] at hrun
      obtain ⟨hr, hst⟩ := hrun
      subst hr hst
      obtain ⟨evs, hx, hres, ⟨m, hcam⟩, hsync⟩ := liveLoop_spec cfg scene env fuel _ _ huse hfile
        _ 0 true _ _ _ (le_refl 0) hloop
      obtain ⟨htr, hrunning⟩ := live_begin_trace cfg scene st hfile
      obtain ⟨fin, hfin, hplain⟩ := live_end_ext cfg scene st5
      refine ⟨[Event.runner_start, Event.stop] ++ evs ++ fin, ?_, ?_, ?_, ?_⟩
      · rw [hfin, hx.trace_eq, htr]
        simp
      · rw [hres]
        simp only [Bool.true_eq_false, false_or]
        constructor
        · rintro ⟨e, he, hp⟩
          exact ⟨e, by simp [he], hp⟩
        · rintro ⟨e, he, hp⟩
          simp only [List.mem_append, List.mem_cons, List.mem_singleton, List.not_mem_nil,
            or_false] at he
          rcases he with ((he | he) | he) | he
          · subst he
            cases hp
          · subst he
            cases hp
          · exact ⟨e, he, hp⟩
          · rw [(Event.isPlain_spec e (hplain e he)).2.2.1] at hp
            cases hp
      · intro hsticky
        rw [List.append_assoc, noSyncAfterInterrupt_of_no_interrupt _ _ (by simp)]
        apply noSyncAfterInterrupt_append _ _ (hsync hsticky hrunning)
        · intro _ e he
          exact (Event.isPlain_spec e (hplain e he)).1
        · intro _
          apply noSyncAfterInterrupt_of_no_sync
          intro e he
          exact (Event.isPlain_spec e (hplain e he)).1
      · intro _ hmode
        constructor
        · have hcount := (live_begin_frameCount cfg scene st hmode).1
          rw [← hcount, ← hx.frameCount]
          unfold live_end
          obtain ⟨e2, hx2, _⟩ := render_end_ext cfg env
            (emit Event.python_thread_state_save (emit (Event.frame_set scene.frame_current)
              (emit Event.python_thread_state_restore (emit Event.runner_join
                { st5 with m_isAnimationRunning := false, m_renderFinished := true }))))
          rw [hx2.frameCount]
          rfl
        · refine ⟨m, ?_⟩
          have hnil : camerasUsed fin = [] :=
            camerasUsed_eq_nil _ (fun e he => (Event.isPlain_spec e (hplain e he)).2.1)
          have e1 : camerasUsed [Event.runner_start, Event.stop] = [] := rfl
          rw [camerasUsed_append, camerasUsed_append, hnil, e1, hcam]
          simp [hmode]

/-! ## Termination of the wait loops -/

/-- The render-wait poll ends when, from the observation `T` on, the
environment either always answers true to `is_interrupted` or always reports
the frame as rendered, and the fuel exceeds what is left until `T`. -/
theorem waitRendered_terminates (cfg : ExporterSettings) (env : Env)
    (huse : cfg.settings_animation.use = true) (T : Nat) (frame : Int)
    (hH : (∀ t, T ≤ t → env.is_interrupted t = true) ∨
      (∀ t, T ≤ t → frame ≤ env.get_last_rendered_frame t))
    (fuel : Nat) (st : State) (hframe : st.m_frameCurrent = frame)
    (hfuel : T < fuel + st.tick) (hpos : 1 ≤ fuel) :
    ∃ r st', waitRendered cfg env fuel st = some (r, st') := by
  induction fuel generalizing st with
  | zero => omega
  | succ fuel ih =>
    simp only [waitRendered]
    by_cases hlast : env.get_last_rendered_frame st.tick < st.m_frameCurrent
    · rw [if_pos hlast]
      by_cases hi : (is_interrupted cfg env { st with tick := st.tick + 1 }).1 = true
      · rw [if_pos hi]
        exact ⟨_, _, rfl⟩
      · rw [if_neg hi]
        by_cases ha : env.is_aborted
            (is_interrupted cfg env { st with tick := st.tick + 1 }).2.tick = true
        · rw [if_pos ha]
          exact ⟨_, _, rfl⟩
        · rw [if_neg ha]
          have htick := (is_interrupted_ext cfg env { st with tick := st.tick + 1 } huse).tick_le
          have hpos' : 1 ≤ fuel := by
            by_contra h0
            have hT : T ≤ st.tick := by omega
            rcases hH with hint | hdone
            · apply hi
              rw [is_interrupted_animation cfg env _ huse]
              simp [hint (st.tick + 1) (by omega)]
            · have := hdone st.tick hT
              rw [hframe] at hlast
              omega
          apply ih
          · exact (is_interrupted_frameCurrent cfg env _).trans hframe
          · simp only at htick ⊢
            omega
          · exact hpos'
    · rw [if_neg hlast]
      exact ⟨_, _, rfl⟩

/-- The wait for `m_renderFinished` ends under the same kind of condition. -/
theorem waitFinished_terminates (cfg : ExporterSettings) (env : Env)
    (huse : cfg.settings_animation.use = true) (T : Nat)
    (hH : (∀ t, T ≤ t → env.is_interrupted t = true) ∨
      (∀ t, T ≤ t → env.m_renderFinished t = true))
    (res : Bool) (fuel : Nat) (st : State)
    (hfuel : T < fuel + st.tick) (hpos : 1 ≤ fuel) :
    ∃ st', waitFinished cfg env res fuel st = some st' := by
  induction fuel generalizing st with
  | zero => omega
  | succ fuel ih =>
    simp only [waitFinished]
    by_cases hres : res = false
    · rw [if_pos hres]
      exact ⟨_, rfl⟩
    · rw [if_neg hres]
      by_cases hf : env.m_renderFinished st.tick = true
      · rw [if_pos hf]
        exact ⟨_, rfl⟩
      · rw [if_neg hf]
        by_cases hi : (is_interrupted cfg env { st with tick := st.tick + 1 }).1 = true
        · rw [if_pos hi]
          exact ⟨_, rfl⟩
        · rw [if_neg hi]
          have htick := (is_interrupted_ext cfg env { st with tick := st.tick + 1 } huse).tick_le
          have hpos' : 1 ≤ fuel := by
            by_contra h0
            have hT : T ≤ st.tick := by omega
            rcases hH with hint | hdone
            · apply hi
              rw [is_interrupted_animation cfg env _ huse]
              simp [hint (st.tick + 1) (by omega)]
            · exact hf (hdone st.tick hT)
          apply ih
          · simp only at htick
            omega
          · exact hpos'

theorem export_animation_frame_terminates (cfg : ExporterSettings) (scene : BLScene)
    (env : Env) (huse : cfg.settings_animation.use = true) (T : Nat) (frame : Int)
    (hH : (∀ t, T ≤ t → env.is_interrupted t = true) ∨
      (∀ t, T ≤ t → frame ≤ env.get_last_rendered_frame t))
    (fuel : Nat) (cu : Bool) (st : State) (hframe : st.m_frameCurrent = frame)
    (hfuel : T < fuel) :
    ∃ r st', export_animation_frame cfg scene env fuel cu st = some (r, st') := by
  unfold export_animation_frame
  by_cases hfile : cfg.exporter_type = ExpoterType.ExpoterTypeFile
  · rw [if_pos hfile]
    exact ⟨_, _, rfl⟩
  · rw [if_neg hfile]
    simp only
    apply waitRendered_terminates cfg env huse T frame hH
    · by_cases hfirst : st.m_isFirstFrame = true
      · have hfirst' : (emit (Event.sync cu) (emit Event.stop
            (emit (Event.set_current_frame st.m_frameCurrent)
            { st with settings_frame_current := st.m_frameCurrent }))).m_isFirstFrame = true :=
          hfirst
        rw [if_pos hfirst']
        obtain ⟨_, _, _, hf⟩ := render_start_ext cfg scene env
          (emit (Event.sync cu) (emit Event.stop
            (emit (Event.set_current_frame st.m_frameCurrent)
            { st with settings_frame_current := st.m_frameCurrent }))) huse
        exact hf.trans hframe
      · have hfirst' : ¬ (emit (Event.sync cu) (emit Event.stop
            (emit (Event.set_current_frame st.m_frameCurrent)
            { st with settings_frame_current := st.m_frameCurrent }))).m_isFirstFrame = true :=
          hfirst
        rw [if_neg hfirst']
        exact hframe
    · omega
    · omega

theorem liveLoop_terminates (cfg : ExporterSettings) (scene : BLScene) (env : Env) (fuel : Nat)
    (is_camera_loop : Bool) (cameras : List BLObject)
    (huse : cfg.settings_animation.use = true)
    (hlive : cfg.exporter_type ≠ ExpoterType.ExpoterTypeFile) (T : Nat) (B : Int)
    (hH : (∀ t, T ≤ t → env.is_interrupted t = true) ∨
      (∀ t, T ≤ t → B ≤ env.get_last_rendered_frame t ∧ env.m_renderFinished t = true))
    (hfuel : T < fuel) (n : Nat) (c : Int) (res : Bool) (st : State)
    (hbound : (∀ t, T ≤ t → env.is_interrupted t = true) ∨
      ∀ c', c ≤ c' → c' < c + n → st.m_frameStep * c' ≤ B) :
    ∃ r st', liveLoop cfg scene env fuel is_camera_loop cameras n c res st = some (r, st') := by
  induction n generalizing c res st with
  | zero => exact ⟨_, _, rfl⟩
  | succ n ih =>
    simp only [liveLoop]
    by_cases hres : res = false
    · rw [if_pos hres]
      exact ⟨_, _, rfl⟩
    · rw [if_neg hres]
      by_cases h1 : (is_interrupted cfg env st).1 = true
      · rw [if_pos h1]
        exact ⟨_, _, rfl⟩
      · rw [if_neg h1]
        by_cases h2 : (is_interrupted cfg env
            (liveLoop_select is_camera_loop cameras c (is_interrupted cfg env st).2)).1 = true
        · rw [if_pos h2]
          exact ⟨_, _, rfl⟩
        · rw [if_neg h2]
          have hA := is_interrupted_ext cfg env st huse
          obtain ⟨cam, hB, _, _, hfc⟩ := liveLoop_select_ext env is_camera_loop cameras c
            (is_interrupted cfg env st).2
          have hC := is_interrupted_ext cfg env
            (liveLoop_select is_camera_loop cameras c (is_interrupted cfg env st).2) huse
          obtain ⟨host, hD, _, hfd⟩ := liveLoop_hostCalls_ext env is_camera_loop
            (is_interrupted cfg env
              (liveLoop_select is_camera_loop cameras c (is_interrupted cfg env st).2)).2
          have hframe : (liveLoop_hostCalls is_camera_loop (is_interrupted cfg env
              (liveLoop_select is_camera_loop cameras c
                (is_interrupted cfg env st).2)).2).m_frameCurrent = st.m_frameStep * c := by
            rw [hfd, is_interrupted_frameCurrent, hfc, hA.frameStep]
          obtain ⟨res1, sE, heaf⟩ := export_animation_frame_terminates cfg scene env huse T
            (st.m_frameStep * c)
            (by
              rcases hH with hint | hdone
              · exact Or.inl hint
              · rcases hbound with hint | hb
                · exact Or.inl hint
                · exact Or.inr (fun t ht =>
                    le_trans (hb c (le_refl c) (by omega)) (hdone t ht).1))
            fuel false _ hframe hfuel
          rw [heaf]
          simp only
          obtain ⟨sF, hwf⟩ := waitFinished_terminates cfg env huse T
            (by
              rcases hH with hint | hdone
              · exact Or.inl hint
              · exact Or.inr (fun t ht => (hdone t ht).2))
            res1 fuel sE (by omega) (by omega)
          rw [hwf]
          simp only
          obtain ⟨_, hE, _, _⟩ := export_animation_frame_live_ext cfg scene env huse hlive fuel
            false _ res1 sE heaf
          obtain ⟨_, hF, _, _⟩ := waitFinished_ext cfg env huse res1 fuel sE sF hwf
          have hstep : sF.m_frameStep = st.m_frameStep := by
            rw [hF.frameStep, hE.frameStep, hD.frameStep, hC.frameStep, hB.frameStep,
              hA.frameStep]
          apply ih
          rcases hbound with hint | hb
          · exact Or.inl hint
          · right
            intro c' h1' h2'
            rw [hstep]
            exact hb c' (by omega) (by omega)

/-- On the file target no wait loop is entered: the file loop always returns. -/
theorem fileLoop_terminates (cfg : ExporterSettings) (scene : BLScene) (env : Env) (fuel : Nat)
    (hfile : cfg.exporter_type = ExpoterType.ExpoterTypeFile)
    (n : Nat) (c : Int) (res : Bool) (st : State) :
    ∃ r st', fileLoop cfg scene env fuel n c res st = some (r, st') := by
  induction n generalizing c res st with
  | zero => exact ⟨_, _, rfl⟩
  | succ n ih =>
    simp only [fileLoop]
    by_cases hres : res = false
    · rw [if_pos hres]
      exact ⟨_, _, rfl⟩
    · rw [if_neg hres]
      by_cases h1 : (is_interrupted cfg env st).1 = true
      · rw [if_pos h1]
        exact ⟨_, _, rfl⟩
      · rw [if_neg h1]
        have heaf : export_animation_frame cfg scene env fuel false
            (fileLoop_hostCalls c (is_interrupted cfg env st).2) =
            some (true, emit (Event.sync false)
              (fileLoop_hostCalls c (is_interrupted cfg env st).2)) := by
          unfold export_animation_frame
          rw [if_pos hfile]
        rw [heaf]
        exact ih _ _ _

theorem do_export_live_of_loop (cfg : ExporterSettings) (scene : BLScene) (env : Env)
    (fuel : Nat) (st : State) (r : Bool) (st5 : State)
    (huse : cfg.settings_animation.use = true)
    (hlive : cfg.exporter_type ≠ ExpoterType.ExpoterTypeFile)
    (hloop : liveLoop cfg scene env fuel
      (decide (cfg.settings_animation.mode = AnimationMode.AnimationModeCameraLoop))
      (if cfg.settings_animation.mode = AnimationMode.AnimationModeCameraLoop then
        loop_cameras scene else [])
      (live_begin cfg scene st).m_frameCount.toNat 0 true (live_begin cfg scene st) =
        some (r, st5)) :
    do_export cfg scene env fuel st = some (r, live_end cfg scene st5) := by
  unfold do_export
  rw [if_pos huse, if_neg hlive, hloop]

/-- An animation run returns, given enough fuel, when the environment answers
true to `is_interrupted` from some observation on. -/
theorem do_export_terminates_interrupted (cfg : ExporterSettings) (scene : BLScene) (env : Env)
    (huse : cfg.settings_animation.use = true) (T : Nat)
    (hint : ∀ t, T ≤ t → env.is_interrupted t = true)
    (fuel : Nat) (st : State) (hfuel : T < fuel) :
    ∃ res st', do_export cfg scene env fuel st = some (res, st') := by
  by_cases hfile : cfg.exporter_type = ExpoterType.ExpoterTypeFile
  · obtain ⟨r, st2, hloop⟩ := fileLoop_terminates cfg scene env fuel hfile
      (animation_begin cfg scene st).m_frameCount.toNat 0 true (animation_begin cfg scene st)
    refine ⟨r, emit Event.python_thread_state_save
      (emit (Event.frame_set scene.frame_current) st2), ?_⟩
    unfold do_export
    rw [if_pos huse, if_pos hfile, hloop]
  · obtain ⟨r, st5, hloop⟩ := liveLoop_terminates cfg scene env fuel
      (decide (cfg.settings_animation.mode = AnimationMode.AnimationModeCameraLoop))
      (if cfg.settings_animation.mode = AnimationMode.AnimationModeCameraLoop then
        loop_cameras scene else [])
      huse hfile T 0 (Or.inl hint) hfuel
      (live_begin cfg scene st).m_frameCount.toNat 0 true (live_begin cfg scene st)
      (Or.inl hint)
    exact ⟨r, _, do_export_live_of_loop cfg scene env fuel st r st5 huse hfile hloop⟩

/-- C7, as stated, fails: on a live renderer, with frame 0 rendered, an
interruption seen inside the render-wait poll of frame 1 makes `do_export`
return false, where an interruption seen at the head of the loop gives true. -/
theorem C7_interrupt_in_poll_counterexample :
    (do_export (animation ExpoterType.ExpoterTypeLive AnimationMode.AnimationModeTimeline)
        (sceneOf 0 3 1 []) (interruptFrom 8) 5 initialState).map
        (fun r => (r.1, framesExported r.2.trace)) = some (false, [0, 1]) ∧
      (do_export (animation ExpoterType.ExpoterTypeLive AnimationMode.AnimationModeTimeline)
        (sceneOf 0 3 1 []) (interruptFrom 5) 5 initialState).map
        (fun r => (r.1, framesExported r.2.trace)) = some (true, [0]) := by
  decide

/-- C7, amended: for an interruption test that stays true once it is true, an
animation run of `do_export` that returns has exported no frame after the
first true answer of `is_interrupted`, and its result is false exactly when a
render-wait poll of `export_animation_frame` gave up (on an interruption seen
inside the poll, or on an aborted renderer): an interruption seen elsewhere
leaves the result true.  Once the test stays true the run returns, given
enough fuel. -/
theorem C7_interrupted_animation_run (cfg : ExporterSettings) (scene : BLScene) (env : Env)
    (huse : cfg.settings_animation.use = true)
    (hsticky : ∀ a b, a ≤ b → env.is_interrupted a = true → env.is_interrupted b = true) :
    (∀ fuel st res st', do_export cfg scene env fuel st = some (res, st') →
      ∃ evs, st'.trace = st.trace ++ evs ∧ noSyncAfterInterrupt evs = true ∧
        (res = false ↔ ∃ e ∈ evs, e.isPollBreak = true)) ∧
      (∀ T, (∀ t, T ≤ t → env.is_interrupted t = true) → ∀ fuel st, T < fuel →
        ∃ res st', do_export cfg scene env fuel st = some (res, st')) := by
  constructor
  · intro fuel st res st' hrun
    obtain ⟨evs, htr, hres, hsync, _⟩ := do_export_animation_spec cfg scene env fuel st res st'
      huse hrun
    exact ⟨evs, htr, hsync hsticky, hres⟩
  · intro T hint fuel st hfuel
    exact do_export_terminates_interrupted cfg scene env huse T hint fuel st hfuel

/-- Witness of C7 amended: the run of the counterexample returns. -/
theorem C7_interrupted_animation_run_witness :
    ∃ res st',
      do_export (animation ExpoterType.ExpoterTypeLive AnimationMode.AnimationModeTimeline)
        (sceneOf 0 3 1 []) (interruptFrom 8) 9 initialState = some (res, st') :=
  (C7_interrupted_animation_run
    (animation ExpoterType.ExpoterTypeLive AnimationMode.AnimationModeTimeline)
    (sceneOf 0 3 1 []) (interruptFrom 8) rfl
    (by
      intro a b hab ha
      simp only [interruptFrom, decide_eq_true_eq] at ha ⊢
      omega)).2 8
    (by
      intro t ht
      simp only [interruptFrom, decide_eq_true_eq]
      exact ht)
    9 initialState (by decide)

/-! ## Host execution context -/

/-- C9, evaluated on the code: entered with the context released, an
animation run on the file target with one frame restores the context at entry
and again in the loop, and after the `save` of the loop calls `frame_set` and
`save` with the context released, so the trace breaks the discipline; the
animation run on a live renderer and the runs without animation keep it. -/
theorem C9_context_discipline_of_do_export :
    (do_export (animation ExpoterType.ExpoterTypeFile AnimationMode.AnimationModeTimeline)
        (sceneOf 0 1 1 []) promptEnv 5 initialState).map (fun r => r.2.trace) =
        some [Event.python_thread_state_restore, Event.is_interrupted false,
          Event.python_thread_state_restore, Event.frame_set 0,
          Event.update_progress { num := 0, den := 1 }, Event.python_thread_state_save,
          Event.sync false, Event.frame_set 7, Event.python_thread_state_save] ∧
      (do_export (animation ExpoterType.ExpoterTypeFile AnimationMode.AnimationModeTimeline)
        (sceneOf 0 1 1 []) promptEnv 5 initialState).map
        (fun r => contextDiscipline false r.2.trace) = some false ∧
      (do_export (animation ExpoterType.ExpoterTypeLive AnimationMode.AnimationModeTimeline)
        (sceneOf 0 1 1 []) promptEnv 5 initialState).map
        (fun r => contextDiscipline false r.2.trace) = some true ∧
      (do_export (singleFrame ExpoterType.ExpoterTypeFile)
        (sceneOf 0 1 1 []) promptEnv 5 initialState).map
        (fun r => contextDiscipline false r.2.trace) = some true ∧
      (do_export (singleFrame ExpoterType.ExpoterTypeLive)
        (sceneOf 0 1 1 []) promptEnv 5 initialState).map
        (fun r => contextDiscipline false r.2.trace) = some true := by
  decide

end ProductionExporter

namespace PythonApi

/-! ## Teardown -/

theorem mExporterUnload_idem (m : Module) :
    mExporterUnload (mExporterUnload m) = mExporterUnload m := by
  unfold mExporterUnload
  cases h : m.VRayInit with
  | none => simp [h]
  | some p => simp

/-- C10, as stated, fails: `mExporterFree` called twice with the same handle
deletes the session twice. -/
theorem C10_double_free_counterexample :
    sessionDeletes 4096 (mExporterFree 4096 (mExporterFree 4096 loadedModule)).trace = 2 ∧
      (mExporterFree 4096 (mExporterFree 4096 loadedModule)).trace =
        [Event.delete_SceneExporter 4096, Event.delete_SceneExporter 4096] := by
  decide

/-- C10, amended: the release of the global renderer handle is idempotent:
`mExporterUnload` twice is `mExporterUnload` once, it leaves `VRayInit` null,
and the two calls together delete the handle once when it was loaded and
nothing otherwise; `mExporterLoad` on a loaded handle changes nothing; the
destructor deletes `m_exporter` once, leaves it null, and finds nothing to
delete when its body is run again.  `mExporterFree` deletes the session its
argument points to at every call with a non-null handle. -/
theorem C10_teardown (m : Module) (throws : Bool) (cfg : ProductionExporter.ExporterSettings)
    (o : ProductionExporter.Members) (value : Nat) :
    mExporterUnload (mExporterUnload m) = mExporterUnload m ∧
      (mExporterUnload m).VRayInit = none ∧
      (mExporterUnload (mExporterUnload m)).trace =
        m.trace ++ (match m.VRayInit with
          | some p => [Event.delete_VRayInit p]
          | none => []) ∧
      (m.VRayInit ≠ none → mExporterLoad throws m = m) ∧
      (ProductionExporter.destructor cfg o).1.m_exporter = none ∧
      (∀ p, ProductionExporter.DtorEvent.delete_m_exporter p ∉
        (ProductionExporter.destructor cfg (ProductionExporter.destructor cfg o).1).2) ∧
      (value ≠ 0 →
        (mExporterFree value m).trace = m.trace ++ [Event.delete_SceneExporter value]) := by
  refine ⟨mExporterUnload_idem m, ?_, ?_, ?_, ?_, ?_, ?_⟩
  · unfold mExporterUnload
    cases h : m.VRayInit <;> simp [h]
  · rw [mExporterUnload_idem]
    unfold mExporterUnload
    cases h : m.VRayInit <;> simp [h]
  · intro hne
    unfold mExporterLoad
    cases h : m.VRayInit with
    | none => exact absurd h hne
    | some p => rfl
  · unfold ProductionExporter.destructor
    simp only
    split <;> simp_all
  · have hnull : ∀ o' : ProductionExporter.Members, o'.m_exporter = none →
        ∀ p, ProductionExporter.DtorEvent.delete_m_exporter p ∉
          (ProductionExporter.destructor cfg o').2 := by
      intro o' ho' p
      unfold ProductionExporter.destructor
      by_cases hu : cfg.settings_animation.use = true <;>
        by_cases ht : o'.m_python_thread_state = true <;>
        simp [hu, ht, ho']
    apply hnull
    unfold ProductionExporter.destructor
    simp only
    split <;> simp_all
  · intro hv
    unfold mExporterFree
    rw [if_neg hv]

/-- Witness of C10 amended: a loaded handle is deleted once by two unloads,
and a second load does not allocate. -/
theorem C10_teardown_witness :
    (mExporterUnload (mExporterUnload loadedModule)).trace = [Event.delete_VRayInit 100] ∧
      mExporterLoad false loadedModule = loadedModule ∧
      (mExporterFree 4096 loadedModule).trace = [Event.delete_SceneExporter 4096] :=
  ⟨(C10_teardown loadedModule false
      (ProductionExporter.singleFrame ProductionExporter.ExpoterType.ExpoterTypeLive)
      { m_exporter := some 7, m_python_thread_state := true, m_isAnimationRunning := false }
      4096).2.2.1,
    (C10_teardown loadedModule false
      (ProductionExporter.singleFrame ProductionExporter.ExpoterType.ExpoterTypeLive)
      { m_exporter := some 7, m_python_thread_state := true, m_isAnimationRunning := false }
      4096).2.2.2.1 (by decide),
    (C10_teardown loadedModule false
      (ProductionExporter.singleFrame ProductionExporter.ExpoterType.ExpoterTypeLive)
      { m_exporter := some 7, m_python_thread_state := true, m_isAnimationRunning := false }
      4096).2.2.2.2.2.2 (by decide)⟩

end PythonApi

namespace VRsceneExporter

/-! ## Lifetime of the node in exportObject -/

theorem exportObject_hash_zero (s : ExpoterSettings)
    (getHash : Object → Option DupliObject → Nat) (ob : Object) (dOb : Option DupliObject)
    (h0 : getHash ob dOb = 0) :
    exportObject s getHash ob dOb =
      [NodeEvent.new_Node ob, NodeEvent.init dOb, NodeEvent.getHash 0,
        NodeEvent.delete_node] := by
  simp [exportObject, h0]

/-- The calls made on a node with a non-zero hash before the mode is looked
at: construction, `init`, `getHash` and the writes the settings ask for. -/
theorem exportObject_hash_nonzero (s : ExpoterSettings)
    (getHash : Object → Option DupliObject → Nat) (ob : Object) (dOb : Option DupliObject)
    (h0 : getHash ob dOb ≠ 0) :
    exportObject s getHash ob dOb =
      [NodeEvent.new_Node ob, NodeEvent.init dOb, NodeEvent.getHash (getHash ob dOb)] ++
        (if s.m_exportNodes then [NodeEvent.write] else []) ++
        (if s.m_exportGeometry then [NodeEvent.writeGeometry] else []) ++
        (if s.m_animation then [] else [NodeEvent.delete_node]) := by
  unfold exportObject
  rw [if_neg h0]
  cases s.m_exportNodes <;> cases s.m_exportGeometry <;> cases s.m_animation <;> rfl

/-- C11 (as stated, refuted): with animation mode on, a node whose hash is
zero is destroyed by `exportObject`; and with animation mode off the same node
is destroyed without having been written, although the settings ask for both
writes. -/
theorem C11_node_lifetime_counterexample :
    ((nodeSettings true).m_animation = true ∧
      NodeEvent.delete_node ∈
        exportObject (nodeSettings true) zeroHash (meshOn "Cube" 1) none) ∧
    ((nodeSettings false).m_animation = false ∧
      (nodeSettings false).m_exportNodes = true ∧
      (nodeSettings false).m_exportGeometry = true ∧
      exportObject (nodeSettings false) zeroHash (meshOn "Cube" 1) none =
        [NodeEvent.new_Node (meshOn "Cube" 1), NodeEvent.init none, NodeEvent.getHash 0,
          NodeEvent.delete_node]) := by
  decide

/-- C11, amended: for every object and optional duplication instance passed to
`exportObject`: a node whose hash is zero is destroyed at once, unwritten, in
either mode; a node with a non-zero hash is written (`write` exactly when
m_exportNodes, `writeGeometry` exactly when m_exportGeometry, in this order)
and then, with animation mode off, destroyed as the last step of the call, once
only; with animation mode on it is not destroyed by `exportObject`. -/
theorem C11_node_lifetime (s : ExpoterSettings)
    (getHash : Object → Option DupliObject → Nat) (ob : Object) (dOb : Option DupliObject) :
    (getHash ob dOb = 0 →
      exportObject s getHash ob dOb =
        [NodeEvent.new_Node ob, NodeEvent.init dOb, NodeEvent.getHash 0,
          NodeEvent.delete_node]) ∧
    (getHash ob dOb ≠ 0 → s.m_animation = false →
      ∃ calls, exportObject s getHash ob dOb = calls ++ [NodeEvent.delete_node] ∧
        NodeEvent.delete_node ∉ calls ∧
        calls.filter NodeEvent.isWrite =
          (if s.m_exportNodes then [NodeEvent.write] else []) ++
            (if s.m_exportGeometry then [NodeEvent.writeGeometry] else [])) ∧
    (getHash ob dOb ≠ 0 → s.m_animation = true →
      NodeEvent.delete_node ∉ exportObject s getHash ob dOb ∧
        (exportObject s getHash ob dOb).filter NodeEvent.isWrite =
          (if s.m_exportNodes then [NodeEvent.write] else []) ++
            (if s.m_exportGeometry then [NodeEvent.writeGeometry] else [])) := by
  refine ⟨exportObject_hash_zero s getHash ob dOb, ?_, ?_⟩
  · intro h0 ha
    refine ⟨[NodeEvent.new_Node ob, NodeEvent.init dOb,
        NodeEvent.getHash (getHash ob dOb)] ++
        (if s.m_exportNodes then [NodeEvent.write] else []) ++
        (if s.m_exportGeometry then [NodeEvent.writeGeometry] else []), ?_, ?_, ?_⟩
    · rw [exportObject_hash_nonzero s getHash ob dOb h0, ha]
      rfl
    · cases s.m_exportNodes <;> cases s.m_exportGeometry <;> simp
    · cases s.m_exportNodes <;> cases s.m_exportGeometry <;> simp [NodeEvent.isWrite]
  · intro h0 ha
    rw [exportObject_hash_nonzero s getHash ob dOb h0, ha]
    constructor
    · cases s.m_exportNodes <;> cases s.m_exportGeometry <;> simp
    · cases s.m_exportNodes <;> cases s.m_exportGeometry <;> simp [NodeEvent.isWrite]

/-- Witness of C11 amended: a node with hash zero in animation mode, and a
node with hash 7 in either mode. -/
theorem C11_node_lifetime_witness :
    (zeroHash (meshOn "Cube" 1) none = 0 ∧
      exportObject (nodeSettings true) zeroHash (meshOn "Cube" 1) none =
        [NodeEvent.new_Node (meshOn "Cube" 1), NodeEvent.init none, NodeEvent.getHash 0,
          NodeEvent.delete_node]) ∧
    (sevenHash (meshOn "Cube" 1) none ≠ 0 ∧ (nodeSettings false).m_animation = false ∧
      ∃ calls, exportObject (nodeSettings false) sevenHash (meshOn "Cube" 1) none =
          calls ++ [NodeEvent.delete_node] ∧
        NodeEvent.delete_node ∉ calls ∧
        calls.filter NodeEvent.isWrite =
          (if (nodeSettings false).m_exportNodes then [NodeEvent.write] else []) ++
            (if (nodeSettings false).m_exportGeometry then [NodeEvent.writeGeometry]
              else [])) ∧
    (sevenHash (meshOn "Cube" 1) none ≠ 0 ∧ (nodeSettings true).m_animation = true ∧
      NodeEvent.delete_node ∉
        exportObject (nodeSettings true) sevenHash (meshOn "Cube" 1) none) :=
  ⟨⟨by decide,
      (C11_node_lifetime (nodeSettings true) zeroHash (meshOn "Cube" 1) none).1 (by decide)⟩,
    ⟨by decide, by decide,
      (C11_node_lifetime (nodeSettings false) sevenHash (meshOn "Cube" 1) none).2.1
        (by decide) (by decide)⟩,
    ⟨by decide, by decide,
      ((C11_node_lifetime (nodeSettings true) sevenHash (meshOn "Cube" 1) none).2.2
        (by decide) (by decide)).1⟩⟩

end VRsceneExporter


namespace VRayForBlender

/-! ## The inline form of a list -/

@[simp] theorem cstr_out (pp : PluginWriter) (val : String) :
    (pp.cstr val).out = pp.out ++ val := rfl

@[simp] theorem cstr_format (pp : PluginWriter) (val : String) :
    (pp.cstr val).format = pp.format := rfl

@[simp] theorem put_out {T : Type} (pp : PluginWriter) (text : T → String) (val : T) :
    (pp.put text val).out = pp.out ++ text val := rfl

@[simp] theorem put_format {T : Type} (pp : PluginWriter) (text : T → String) (val : T) :
    (pp.put text val).format = pp.format := rfl

theorem intercalate_go_append (x acc s : String) (l : List String) :
    String.intercalate.go (x ++ acc) s l = x ++ String.intercalate.go acc s l := by
  induction l generalizing acc with
  | nil => rfl
  | cons a as ih =>
    simp only [String.intercalate.go]
    rw [← ih]
    simp only [String.append_assoc]

theorem printList_loop_format {T : Type} (et : ElementType T) (newLine : Bool)
    (pp : PluginWriter) (l : List T) :
    (printList_loop et newLine pp l).format = pp.format := by
  induction l generalizing pp with
  | nil => rfl
  | cons v rest ih =>
    simp only [printList_loop]
    rw [ih]
    rfl

theorem printList_loop_out {T : Type} (et : ElementType T) (newLine : Bool)
    (pp : PluginWriter) (l : List T) :
    (printList_loop et newLine pp l).out =
      String.intercalate.go pp.out (separator newLine) (l.map et.write) := by
  induction l generalizing pp with
  | nil => rfl
  | cons v rest ih =>
    simp only [printList_loop, List.map_cons, String.intercalate.go]
    rw [ih]
    simp only [cstr_out, put_out, separator, String.append_assoc]

/-- The text of the inline branch of `printList`. -/
theorem printList_inline_out {T : Type} (enc : Encoders) (et : ElementType T)
    (pp : PluginWriter) (v0 : T) (rest : List T) (listName : String) (newLine : Bool)
    (h : listName = "" ∨ pp.format = ExportFormat.PLAIN) :
    (printList enc et pp (v0 :: rest) listName newLine).out =
      pp.out ++ "List" ++ listName ++ "(\n    " ++
        (separator newLine).intercalate ((v0 :: rest).map et.write) ++ ")" := by
  unfold printList
  simp only [cstr_format]
  rw [if_pos h]
  simp only [cstr_out, printList_loop_out, put_out, List.map_cons, String.intercalate]
  rw [intercalate_go_append]

theorem printList_format {T : Type} (enc : Encoders) (et : ElementType T)
    (pp : PluginWriter) (val : List T) (listName : String) (newLine : Bool) :
    (printList enc et pp val listName newLine).format = pp.format := by
  unfold printList
  cases val with
  | nil => rfl
  | cons v0 rest =>
    simp only [cstr_format]
    split
    · simp [printList_loop_format]
    · split <;> simp

/-! ### The text determines the elements -/

theorem split_at_mark_unique {α : Type} (ch : α) (a a' b b' : List α)
    (ha : ch ∉ a) (ha' : ch ∉ a') (h : a ++ ch :: b = a' ++ ch :: b') :
    a = a' ∧ b = b' := by
  induction a generalizing a' with
  | nil =>
    cases a' with
    | nil => simpa using h
    | cons y ys =>
      simp only [List.nil_append, List.cons_append, List.cons.injEq] at h
      exact absurd (by rw [h.1]; simp) ha'
  | cons x xs ih =>
    cases a' with
    | nil =>
      simp only [List.nil_append, List.cons_append, List.cons.injEq] at h
      exact absurd (by rw [← h.1]; simp) ha
    | cons y ys =>
      simp only [List.cons_append, List.cons.injEq] at h
      have hx : ch ∉ xs := fun hm => ha (List.mem_cons_of_mem _ hm)
      have hy : ch ∉ ys := fun hm => ha' (List.mem_cons_of_mem _ hm)
      obtain ⟨h1, h2⟩ := ih ys hx hy h.2
      exact ⟨by rw [h.1, h1], h2⟩

theorem inlineTail_inj (lead : List Char) (ch : Char) (tail : List Char)
    (hlead : ch ∉ lead) (hch : ch ≠ ')') (ts ts' : List (List Char)) (t0 t0' : List Char)
    (h0 : ch ∉ t0) (h0' : ch ∉ t0') (hts : ∀ t ∈ ts, ch ∉ t) (hts' : ∀ t ∈ ts', ch ∉ t)
    (h : t0 ++ inlineTail lead ch tail ts = t0' ++ inlineTail lead ch tail ts') :
    t0 = t0' ∧ ts = ts' := by
  induction ts generalizing t0 t0' ts' with
  | nil =>
    cases ts' with
    | nil =>
      simp only [inlineTail] at h
      exact ⟨List.append_cancel_right h, rfl⟩
    | cons t' r' =>
      exfalso
      have hmem : ch ∈ t0 ++ inlineTail lead ch tail [] := by
        rw [h]
        simp [inlineTail]
      simp only [inlineTail, List.mem_append, List.mem_singleton] at hmem
      rcases hmem with hm | hm
      · exact h0 hm
      · exact hch hm
  | cons t r ih =>
    cases ts' with
    | nil =>
      exfalso
      have hmem : ch ∈ t0' ++ inlineTail lead ch tail [] := by
        rw [← h]
        simp [inlineTail]
      simp only [inlineTail, List.mem_append, List.mem_singleton] at hmem
      rcases hmem with hm | hm
      · exact h0' hm
      · exact hch hm
    | cons t' r' =>
      simp only [inlineTail] at h
      rw [← List.append_assoc, ← List.append_assoc t0'] at h
      have hn : ch ∉ t0 ++ lead := by
        simp only [List.mem_append, not_or]
        exact ⟨h0, hlead⟩
      have hn' : ch ∉ t0' ++ lead := by
        simp only [List.mem_append, not_or]
        exact ⟨h0', hlead⟩
      obtain ⟨h1, h2⟩ := split_at_mark_unique ch _ _ _ _ hn hn' h
      have h3 := List.append_cancel_left h2
      obtain ⟨h4, h5⟩ := ih r' t t' (hts t (List.mem_cons_self _ _))
        (hts' t' (List.mem_cons_self _ _))
        (fun x hx => hts x (List.mem_cons_of_mem _ hx))
        (fun x hx => hts' x (List.mem_cons_of_mem _ hx)) h3
      exact ⟨List.append_cancel_right h1, by rw [h4, h5]⟩

theorem intercalate_go_data (newLine : Bool) (acc : String) (l : List String) :
    (String.intercalate.go acc (separator newLine) l ++ ")").data =
      acc.data ++ inlineTail (if newLine then [','] else []) (separatorMark newLine)
        [' ', ' ', ' ', ' '] (l.map String.data) := by
  induction l generalizing acc with
  | nil => simp [String.intercalate.go, inlineTail]
  | cons a as ih =>
    simp only [String.intercalate.go, List.map_cons, inlineTail]
    rw [ih]
    cases newLine <;>
      simp [separator, separatorMark, String.data_append]

end VRayForBlender

namespace VRayForBlender

/-- C12: for a writer in PLAIN format and a list of the elements
`v0 :: rest`, `printList` writes `List`, the list name, `(` and a line break
with four blanks, then the texts of all the elements in index order, each
written once by the element writer and separated by a comma and blanks (a line
break and four blanks when `newLine` is set), then `)`; and when no element
text holds the separator mark (the comma, or the line break when `newLine` is
set), two lists with the same written text have the same element texts in the
same order, hence the same length. -/
theorem C12_printList_plain_inline {T : Type} (enc : Encoders) (et : ElementType T)
    (pp : PluginWriter) (listName : String) (newLine : Bool) (v0 : T) (rest : List T)
    (hfmt : pp.format = ExportFormat.PLAIN) :
    (printList enc et pp (v0 :: rest) listName newLine).out =
        pp.out ++ "List" ++ listName ++ "(\n    " ++
          (separator newLine).intercalate ((v0 :: rest).map et.write) ++ ")" ∧
      ∀ (v0' : T) (rest' : List T),
        (∀ x, separatorMark newLine ∉ (et.write x).toList) →
        (printList enc et pp (v0' :: rest') listName newLine).out =
          (printList enc et pp (v0 :: rest) listName newLine).out →
        (v0' :: rest').map et.write = (v0 :: rest).map et.write := by
  refine ⟨printList_inline_out enc et pp v0 rest listName newLine (Or.inr hfmt), ?_⟩
  intro v0' rest' hmark heq
  have e1 : ∀ (l : List T) (v : T),
      pp.out ++ "List" ++ listName ++ "(\n    " ++
          (separator newLine).intercalate ((v :: l).map et.write) ++ ")" =
        (pp.out ++ "List" ++ listName ++ "(\n    ") ++
          (String.intercalate.go (et.write v) (separator newLine) (l.map et.write) ++ ")") := by
    intro l v
    simp only [List.map_cons, String.intercalate, String.append_assoc]
  rw [printList_inline_out enc et pp v0' rest' listName newLine (Or.inr hfmt),
    printList_inline_out enc et pp v0 rest listName newLine (Or.inr hfmt), e1, e1] at heq
  have cancel : ∀ (x a b : String), x ++ a = x ++ b → a.data = b.data := by
    intro x a b hab
    have hd := congrArg String.data hab
    rw [String.data_append, String.data_append] at hd
    exact List.append_cancel_left hd
  have h3 := cancel _ _ _ heq
  rw [intercalate_go_data, intercalate_go_data] at h3
  have hlead : separatorMark newLine ∉ (if newLine then [','] else []) := by
    cases newLine <;> decide
  have hch : separatorMark newLine ≠ ')' := by
    cases newLine <;> decide
  have hall : ∀ (l : List T), ∀ t ∈ (l.map et.write).map String.data,
      separatorMark newLine ∉ t := by
    intro l t ht
    simp only [List.map_map, List.mem_map, Function.comp] at ht
    obtain ⟨x, _, hx⟩ := ht
    rw [← hx]
    exact hmark x
  obtain ⟨h4, h5⟩ := inlineTail_inj _ _ _ hlead hch _ _ _ _ (hmark v0') (hmark v0)
    (hall rest') (hall rest) h3
  have hinj : Function.Injective String.data := fun a b hab => String.ext hab
  rw [List.map_cons, List.map_cons, String.ext h4, List.map_injective_iff.mpr hinj h5]

/-- Witness of C12: the list of `true` and `false` written by a PLAIN writer
under the name `Int`. -/
theorem C12_printList_plain_inline_witness :
    (freshWriter ExportFormat.PLAIN).format = ExportFormat.PLAIN ∧
      (printList sampleEncoders bitElement (freshWriter ExportFormat.PLAIN)
          [true, false] "Int" false).out = "ListInt(\n    1,    0)" ∧
      ((∀ x, separatorMark false ∉ (bitElement.write x).toList) ∧
        [true, false].map bitElement.write = [true, false].map bitElement.write) :=
  ⟨by decide,
    (C12_printList_plain_inline sampleEncoders bitElement (freshWriter ExportFormat.PLAIN)
      "Int" false true [false] (by decide)).1.trans (by decide),
    by decide,
    (C12_printList_plain_inline sampleEncoders bitElement (freshWriter ExportFormat.PLAIN)
      "Int" false true [false] (by decide)).2 true [false] (by decide) rfl⟩

end VRayForBlender

namespace VRayForBlender

/-! ## The encoded form of a list -/

/-- The text of the two encoded branches of `printList`. -/
theorem printList_encoded_out {T : Type} (enc : Encoders) (et : ElementType T)
    (pp : PluginWriter) (v0 : T) (rest : List T) (listName : String) (newLine : Bool)
    (hname : listName ≠ "") (hfmt : pp.format ≠ ExportFormat.PLAIN) :
    (printList enc et pp (v0 :: rest) listName newLine).out =
      pp.out ++ "List" ++ listName ++ "Hex(\"" ++
        (if pp.format = ExportFormat.ZIP then enc.GetStringZip (et.bytes (v0 :: rest))
          else enc.GetHex (et.bytes (v0 :: rest))) ++ "\")" := by
  unfold printList
  simp only [cstr_format]
  rw [if_neg (by simp [hname, hfmt])]
  by_cases hz : pp.format = ExportFormat.ZIP
  · rw [if_pos hz, if_pos hz]
    simp only [cstr_out]
  · rw [if_neg hz, if_neg hz]
    simp only [cstr_out]

/-- C13 (as stated, refuted): a HEX writer writes the int list 1, 2, 3 as
`ListIntHex("...")`, which is not the text `Hex("...")` of the encoded bytes
alone; and a list written with the `operator<<` of the primary template is
written inline, element by element, by a HEX and by a ZIP writer. -/
theorem C13_encoded_list_counterexample :
    (operator_AttrListInt sampleEncoders intElement (freshWriter ExportFormat.HEX)
        [1, 2, 3]).out = "ListIntHex(\"H12\")" ∧
      (operator_AttrListInt sampleEncoders intElement (freshWriter ExportFormat.HEX)
        [1, 2, 3]).out ≠
        "Hex(\"" ++ sampleEncoders.GetHex (intElement.bytes [1, 2, 3]) ++ "\")" ∧
      (operator_AttrList sampleEncoders intElement (freshWriter ExportFormat.HEX)
        [1, 2, 3]).out = "List(\n    1,\n    2,\n    3)" ∧
      (operator_AttrList sampleEncoders intElement (freshWriter ExportFormat.ZIP)
        [1, 2, 3]).out = "List(\n    1,\n    2,\n    3)" := by
  decide

/-- C13, amended: for a writer whose format is HEX or ZIP and every non-empty
list, the `operator<<` of an int list, a float list and a vector list write
`ListInt`, `ListFloat` and `ListVector`, each followed by `Hex("`, the text the
encoder gives for the bytes of the whole list (`GetStringZip` for ZIP, `GetHex`
for HEX) and `")`; the text does not depend on the element writer, so no
element is written inline; the `operator<<` of a list of any other element type
writes the inline form `List(` ... `)`, one element a line, in these formats
too. -/
theorem C13_encoded_list {T : Type} (enc : Encoders) (et : ElementType T)
    (eti : ElementType Int) (pp : PluginWriter) (v0 : T) (rest : List T)
    (i0 : Int) (irest : List Int) (hfmt : pp.format ≠ ExportFormat.PLAIN) :
    (operator_AttrListInt enc eti pp (i0 :: irest)).out =
        pp.out ++ "List" ++ "Int" ++ "Hex(\"" ++
          (if pp.format = ExportFormat.ZIP then enc.GetStringZip (eti.bytes (i0 :: irest))
            else enc.GetHex (eti.bytes (i0 :: irest))) ++ "\")" ∧
      (operator_AttrListFloat enc et pp (v0 :: rest)).out =
        pp.out ++ "List" ++ "Float" ++ "Hex(\"" ++
          (if pp.format = ExportFormat.ZIP then enc.GetStringZip (et.bytes (v0 :: rest))
            else enc.GetHex (et.bytes (v0 :: rest))) ++ "\")" ∧
      (operator_AttrListVector enc et pp (v0 :: rest)).out =
        pp.out ++ "List" ++ "Vector" ++ "Hex(\"" ++
          (if pp.format = ExportFormat.ZIP then enc.GetStringZip (et.bytes (v0 :: rest))
            else enc.GetHex (et.bytes (v0 :: rest))) ++ "\")" ∧
      (∀ (text : Int → String),
        (operator_AttrListInt enc { write := text, bytes := eti.bytes } pp (i0 :: irest)).out =
          (operator_AttrListInt enc eti pp (i0 :: irest)).out) ∧
      (∀ (text : T → String),
        (operator_AttrListFloat enc { write := text, bytes := et.bytes } pp (v0 :: rest)).out =
            (operator_AttrListFloat enc et pp (v0 :: rest)).out ∧
          (operator_AttrListVector enc { write := text, bytes := et.bytes } pp
              (v0 :: rest)).out =
            (operator_AttrListVector enc et pp (v0 :: rest)).out) ∧
      (operator_AttrList enc et pp (v0 :: rest)).out =
        pp.out ++ "List" ++ "" ++ "(\n    " ++
          (separator true).intercalate ((v0 :: rest).map et.write) ++ ")" := by
  have hI : ("Int" : String) ≠ "" := by decide
  have hF : ("Float" : String) ≠ "" := by decide
  have hV : ("Vector" : String) ≠ "" := by decide
  refine ⟨printList_encoded_out enc eti pp i0 irest "Int" false hI hfmt,
    printList_encoded_out enc et pp v0 rest "Float" false hF hfmt,
    printList_encoded_out enc et pp v0 rest "Vector" true hV hfmt, ?_, ?_,
    printList_inline_out enc et pp v0 rest "" true (Or.inl rfl)⟩
  · intro text
    unfold operator_AttrListInt
    rw [printList_encoded_out enc eti pp i0 irest "Int" false hI hfmt,
      printList_encoded_out enc _ pp i0 irest "Int" false hI hfmt]
  · intro text
    unfold operator_AttrListFloat operator_AttrListVector
    rw [printList_encoded_out enc et pp v0 rest "Float" false hF hfmt,
      printList_encoded_out enc _ pp v0 rest "Float" false hF hfmt,
      printList_encoded_out enc et pp v0 rest "Vector" true hV hfmt,
      printList_encoded_out enc _ pp v0 rest "Vector" true hV hfmt]
    exact ⟨rfl, rfl⟩

/-- Witness of C13 amended: the int list 1, 2, 3 written by a ZIP writer. -/
theorem C13_encoded_list_witness :
    (freshWriter ExportFormat.ZIP).format ≠ ExportFormat.PLAIN ∧
      (operator_AttrListInt sampleEncoders intElement (freshWriter ExportFormat.ZIP)
        [1, 2, 3]).out = "ListIntHex(\"Z12\")" :=
  ⟨by decide,
    (C13_encoded_list sampleEncoders bitElement intElement (freshWriter ExportFormat.ZIP)
      true [false] 1 [2, 3] (by decide)).1.trans (by decide)⟩

end VRayForBlender

namespace VRayForBlender

/-! ## Key/value pairs -/

end VRayForBlender

namespace VRayForBlender

end VRayForBlender


namespace VRayForBlender

theorem printList_nil {T : Type} (enc : Encoders) (et : ElementType T) (pp : PluginWriter)
    (listName : String) (newLine : Bool) :
    printList enc et pp [] listName newLine = pp := rfl

/-- C15, evaluated on the code: a pair whose value is an empty list
is written, in every format and by each of the four list operators, as two
spaces, the name, `=` and `;` with a line break: the list writer adds nothing
between `=` and `;`, and the line is there; for the name `faces` and a HEX
writer the output is the line `  faces=;`. -/
theorem C15_empty_list_pair_written {T : Type} (str : String → String) (enc : Encoders)
    (et : ElementType T) (eti : ElementType Int) (pp : PluginWriter) (name : String) :
    (operator_KVPair str (operator_AttrListInt enc eti) pp (name, [])).out =
        pp.out ++ "  " ++ str name ++ "=" ++ ";\n" ∧
      (operator_KVPair str (operator_AttrListFloat enc et) pp (name, [])).out =
        pp.out ++ "  " ++ str name ++ "=" ++ ";\n" ∧
      (operator_KVPair str (operator_AttrListVector enc et) pp (name, [])).out =
        pp.out ++ "  " ++ str name ++ "=" ++ ";\n" ∧
      (operator_KVPair str (operator_AttrList enc et) pp (name, [])).out =
        pp.out ++ "  " ++ str name ++ "=" ++ ";\n" ∧
      (operator_KVPair rawString (operator_AttrListInt sampleEncoders intElement)
        (freshWriter ExportFormat.HEX) ("faces", [])).out = "  faces=;\n" := by
  refine ⟨?_, ?_, ?_, ?_, by decide⟩ <;>
    simp only [operator_KVPair, operator_AttrListInt, operator_AttrListFloat,
      operator_AttrListVector, operator_AttrList, printList_nil, cstr_out, put_out]

end VRayForBlender

namespace ProductionExporter

/-! ## Progress reported by render_frame -/

/-- In an animation run that is not interrupted, `render_frame` reports one
progress value, computed from the frames left after the current frame of the
scene. -/
theorem render_frame_reported (cfg : ExporterSettings) (scene : BLScene) (env : Env)
    (m_progress : FloatQuot) (layers : Nat → Bool) (st : State)
    (hrun : st.m_isRunning = true) (huse : cfg.settings_animation.use = true)
    (hint : (is_interrupted cfg env st).1 = false) :
    reported (render_frame cfg scene env m_progress layers st).2 =
      [FrameProgress.animation st.m_animationProgress m_progress
        (scene.frame_end - scene.frame_current) scene.frame_step] := by
  have hres : ∀ l : List FrameEvent, reported (update_results layers st ++ l) = reported l := by
    intro l
    unfold update_results
    induction (List.filter layers (List.range st.m_renderResultsList)) with
    | nil => rfl
    | cons a as ih => simpa [reported] using ih
  unfold render_frame
  simp only [hrun, huse, hint, Bool.not_true, if_true, if_false, Bool.false_eq_true]
  split <;> simp [reported, hres]

/-- The number reported in an animation run, when the frame is not the last
one and the step is not zero. -/
theorem FrameProgress_animation_value (a p : FloatQuot) (frames frame_step : Int)
    (ha : a.den ≠ 0) (hp : p.den ≠ 0) (hf : frames ≠ 0) (hs : frame_step ≠ 0) :
    (FrameProgress.animation a p frames frame_step).value =
      some (a.toRat + p.toRat * ((frame_step : ℚ) / (frames : ℚ))) := by
  simp [FrameProgress.value, FloatQuot.value, frame_contrib, ha, hp, hf, hs]

/-- At the last frame the divisor is zero and the reported float is no
number. -/
theorem FrameProgress_animation_last_frame (a p : FloatQuot) (frame_step : Int) :
    (FrameProgress.animation a p 0 frame_step).value = none := by
  simp only [FrameProgress.value, frame_contrib, if_true]
  cases a.value <;> cases p.value <;> rfl

/-- C16, evaluated on the code: in a live animation run over the
frames 0 to 10 (`m_frameCount` 10, `m_animationProgress` 0) with `m_progress`
1, `render_frame` at frame 5 reports 0 + 1 * (1 / (5 / 1)) = 1/5, not
0 + 1 / 10; with the scene at frame 10, the end frame, the divisor is zero and
the reported float is no number; with the scene at frame 12 the reported value
is -1/2, outside [0, 1]. -/
theorem C16_render_frame_progress_evaluated :
    (reported (render_frame
          (animation ExpoterType.ExpoterTypeLive AnimationMode.AnimationModeTimeline)
          (sceneAt 5) promptEnv ⟨1, 1⟩ (fun _ => true) (runningState 10 ⟨0, 1⟩)).2 =
        [FrameProgress.animation ⟨0, 1⟩ ⟨1, 1⟩ 5 1] ∧
      (FrameProgress.animation ⟨0, 1⟩ ⟨1, 1⟩ 5 1).value = some (1 / 5) ∧
      (FloatQuot.toRat ⟨0, 1⟩ + FloatQuot.toRat ⟨1, 1⟩ /
        ((runningState 10 ⟨0, 1⟩).m_frameCount : ℚ)) = 1 / 10) ∧
    (reported (render_frame
          (animation ExpoterType.ExpoterTypeLive AnimationMode.AnimationModeCameraLoop)
          (sceneAt 10) promptEnv ⟨1, 1⟩ (fun _ => true) (runningState 10 ⟨0, 1⟩)).2 =
        [FrameProgress.animation ⟨0, 1⟩ ⟨1, 1⟩ 0 1] ∧
      (FrameProgress.animation ⟨0, 1⟩ ⟨1, 1⟩ 0 1).value = none) ∧
    (reported (render_frame
          (animation ExpoterType.ExpoterTypeLive AnimationMode.AnimationModeCameraLoop)
          (sceneAt 12) promptEnv ⟨1, 1⟩ (fun _ => true) (runningState 10 ⟨0, 1⟩)).2 =
        [FrameProgress.animation ⟨0, 1⟩ ⟨1, 1⟩ (-2) 1] ∧
      (FrameProgress.animation ⟨0, 1⟩ ⟨1, 1⟩ (-2) 1).value = some (-1 / 2)) := by
  refine ⟨⟨by decide, ?_, ?_⟩, ⟨by decide, ?_⟩, ⟨by decide, ?_⟩⟩
  · norm_num [FrameProgress.value, FloatQuot.value, frame_contrib, FloatQuot.toRat]
  · norm_num [FloatQuot.toRat, runningState, initialState]
  · norm_num [FrameProgress.value, FloatQuot.value, frame_contrib, FloatQuot.toRat]
  · norm_num [FrameProgress.value, FloatQuot.value, frame_contrib, FloatQuot.toRat]

end ProductionExporter
